import Mathlib

/-!
# Dock system: layout of a dock area, title bar of a dock area, main-window title bar

A shallow embedding of `src/dock_system` (`DockAreaWidget.cpp`, `DockAreaTitleBar.cpp`,
`main_title_bar.cpp`, `main_title_bar.hpp`) and theorems about it.

Conventions of the embedding

* A C++ object is a record; a member function is a function from the record (and its arguments)
  to the record after the call.
* A pointer that may be null is an `Option`.
* A call whose behaviour the C++ code leaves undefined (a read outside a `QList`, a call through
  a null pointer) returns `none`; a call that completes returns `some` of the state after it.
* `int` values are `Int`; every index handled here is bounded by the length of a list, so no
  wrap-around is involved.
-/

namespace ads

/-! ## `CDockAreaLayout` (DockAreaWidget.cpp, lines 68-238) -/

/-- An item of the `QBoxLayout` of a dock area (`m_ParentLayout`): the title bar, which
`DockAreaWidgetPrivate::createTitleBar` adds first, or a content widget. -/
inductive LayoutItem (W : Type) where
  | titleBar : LayoutItem W
  | content (w : W) : LayoutItem W
deriving DecidableEq, Repr

/-- The class `CDockAreaLayout` together with the part of the toolkit state its member functions
touch: the items of the parent layout, and for every widget whether `parent()` is non-null and
whether `isHidden()` holds. -/
structure CDockAreaLayout (W : Type) where
  /-- The items of `m_ParentLayout`, slot 0 first. -/
  m_ParentLayout : List (LayoutItem W)
  m_Widgets : List W
  m_CurrentIndex : Int
  m_CurrentWidget : Option W
  /-- The value of `w->parent() != nullptr`. -/
  hasParent : W → Bool
  /-- The value of `w->isHidden()`; written by `hide()` and `show()`. -/
  isHidden : W → Bool

namespace CDockAreaLayout

variable {W : Type} [DecidableEq W]

/-- The layout right after construction inside `CDockAreaWidget::CDockAreaWidget`: the parent
layout holds the title bar only, there is no widget and no current widget. -/
def init (hasParent isHidden : W → Bool) : CDockAreaLayout W :=
  { m_ParentLayout := [LayoutItem.titleBar], m_Widgets := [], m_CurrentIndex := -1,
    m_CurrentWidget := none, hasParent := hasParent, isHidden := isHidden }

/-- The member `count()`. -/
def count (s : CDockAreaLayout W) : Int := s.m_Widgets.length

/-- The member `currentWidget()`. -/
def currentWidget (s : CDockAreaLayout W) : Option W := s.m_CurrentWidget

/-- The member `currentIndex()`. -/
def currentIndex (s : CDockAreaLayout W) : Int := s.m_CurrentIndex

/-- The member `isEmpty()`. -/
def isEmpty (s : CDockAreaLayout W) : Bool := s.m_Widgets.isEmpty

/-- The member `indexOf(w)`, that is `QList::indexOf`: the first position of `w`, or `-1`. -/
def indexOf (s : CDockAreaLayout W) (w : W) : Int :=
  if w ∈ s.m_Widgets then (s.m_Widgets.indexOf w : Int) else -1

/-- The member `widget(index)`:
`(index < m_Widgets.size()) ? m_Widgets.at(index) : nullptr`.
The result is `some none` for the null pointer and `none` when `QList::at` is called outside
`0 <= index < size()`, which happens for every negative index. -/
def widget (s : CDockAreaLayout W) (index : Int) : Option (Option W) :=
  if index < s.m_Widgets.length then
    (if 0 ≤ index then some s.m_Widgets[index.toNat]? else none)
  else some none

/-- The toolkit call `w->setParent(nullptr)`: the widget has no parent afterwards, and the layout
of its former parent drops the item of the widget. -/
def setParentNull (s : CDockAreaLayout W) (w : W) : CDockAreaLayout W :=
  { s with
    hasParent := fun x => if x = w then false else s.hasParent x
    m_ParentLayout := s.m_ParentLayout.filter (fun it => decide (it ≠ LayoutItem.content w)) }

/-- The statements `auto LayoutItem = m_ParentLayout->takeAt(1); if (LayoutItem)
LayoutItem->widget()->setParent(nullptr);` shared by `removeWidget` and `setCurrentIndex`. -/
def takeSlot1 (s : CDockAreaLayout W) : CDockAreaLayout W :=
  let s1 := { s with m_ParentLayout := s.m_ParentLayout.eraseIdx 1 }
  match s.m_ParentLayout[1]? with
  | some (LayoutItem.content w) => setParentNull s1 w
  | _ => s1

/-- The toolkit call `m_ParentLayout->addWidget(w)`: the widget is appended to the layout (after
being taken out of it, should it be there) and becomes a child of the dock area. -/
def addWidget (s : CDockAreaLayout W) (w : W) : CDockAreaLayout W :=
  { s with
    hasParent := fun x => if x = w then true else s.hasParent x
    m_ParentLayout :=
      s.m_ParentLayout.filter (fun it => decide (it ≠ LayoutItem.content w))
        ++ [LayoutItem.content w] }

/-- The toolkit call `w->hide()`. -/
def hide (s : CDockAreaLayout W) (w : W) : CDockAreaLayout W :=
  { s with isHidden := fun x => if x = w then true else s.isHidden x }

/-- The toolkit call `w->show()`. -/
def showWidget (s : CDockAreaLayout W) (w : W) : CDockAreaLayout W :=
  { s with isHidden := fun x => if x = w then false else s.isHidden x }

/-- The member `setCurrentIndex(index)` (lines 159-197). Switching the updates of the parent
widget off and on again leaves the modelled state alone and is left out. -/
def setCurrentIndex (s : CDockAreaLayout W) (index : Int) : Option (CDockAreaLayout W) :=
  let prev := s.currentWidget
  match s.widget index with
  | none => none
  | some none => some s
  | some (some next) =>
    if some next = prev ∧ s.m_CurrentWidget = none then some s
    else
      let s1 := s.takeSlot1
      let s2 := s1.addWidget next
      let s3 := match prev with
        | some p => s2.hide p
        | none => s2
      some { s3 with m_CurrentIndex := index, m_CurrentWidget := some next }

/-- The member `insertWidget(index, Widget)` (lines 105-124). `QList::insert` is specified for
`0 <= index <= size()`; a larger index is outside it and gives `none`. -/
def insertWidget (s : CDockAreaLayout W) (index : Int) (Widget : W) :
    Option (CDockAreaLayout W) :=
  let s1 := s.setParentNull Widget
  let index := if index < 0 then (s1.m_Widgets.length : Int) else index
  if index > s1.m_Widgets.length then none
  else
    let s2 := { s1 with m_Widgets := s1.m_Widgets.insertIdx index.toNat Widget }
    if s2.m_CurrentIndex < 0 then s2.setCurrentIndex index
    else if index ≤ s2.m_CurrentIndex then
      some { s2 with m_CurrentIndex := s2.m_CurrentIndex + 1 }
    else some s2

/-- The member `removeWidget(Widget)` (lines 129-146). -/
def removeWidget (s : CDockAreaLayout W) (Widget : W) : CDockAreaLayout W :=
  let s1 :=
    if s.currentWidget = some Widget then
      { s.takeSlot1 with m_CurrentWidget := none, m_CurrentIndex := -1 }
    else if s.indexOf Widget < s.m_CurrentIndex then
      { s with m_CurrentIndex := s.m_CurrentIndex - 1 }
    else s
  { s1 with m_Widgets := s1.m_Widgets.erase Widget }

/-- One call of a member function that changes the layout. -/
inductive Call (W : Type) where
  | insertWidget (index : Int) (Widget : W) : Call W
  | removeWidget (Widget : W) : Call W
  | setCurrentIndex (index : Int) : Call W
deriving DecidableEq, Repr

/-- The state after a call, `none` when the call leaves the defined behaviour of `QList`. -/
def call (s : CDockAreaLayout W) : Call W → Option (CDockAreaLayout W)
  | Call.insertWidget index Widget => s.insertWidget index Widget
  | Call.removeWidget Widget => some (s.removeWidget Widget)
  | Call.setCurrentIndex index => s.setCurrentIndex index

/-- The widgets are pairwise distinct: a widget that is inserted is not in the layout yet. -/
def Call.Fresh (s : CDockAreaLayout W) : Call W → Prop
  | Call.insertWidget _ Widget => Widget ∉ s.m_Widgets
  | Call.removeWidget _ => True
  | Call.setCurrentIndex _ => True

/-- The index argument of a call is one the list operations accept: at most `count()` for
`insertWidget` (negative means append), non-negative for `setCurrentIndex`. -/
def Call.InRange (s : CDockAreaLayout W) : Call W → Prop
  | Call.insertWidget index _ => index ≤ s.count
  | Call.removeWidget _ => True
  | Call.setCurrentIndex index => 0 ≤ index

/-- The states a layout goes through: the layout as constructed, and the state after every
completed call that inserts no widget twice. -/
inductive Reachable : CDockAreaLayout W → Prop where
  | init (hasParent isHidden : W → Bool) : Reachable (init hasParent isHidden)
  | step {s s' : CDockAreaLayout W} (c : Call W) :
      Reachable s → Call.Fresh s c → s.call c = some s' → Reachable s'

/-- A layout of widgets numbered by natural numbers, as constructed. -/
def demo0 : CDockAreaLayout Nat := init (fun _ => false) (fun _ => false)

/-- The layout `demo0` after `insertWidget(0, 7)`. -/
def demo1 : CDockAreaLayout Nat := (demo0.insertWidget 0 7).getD demo0

/-- The layout `demo1` after `insertWidget(-1, 8)`. -/
def demo2 : CDockAreaLayout Nat := (demo1.insertWidget (-1) 8).getD demo0

/-- The layout `demo2` after `setCurrentIndex(1)`. -/
def demo3 : CDockAreaLayout Nat := (demo2.setCurrentIndex 1).getD demo0

/-- The layout `demo3` after `removeWidget(7)`. -/
def demo4 : CDockAreaLayout Nat := demo3.removeWidget 7

/-- The invariant behind the class comment of `CDockAreaLayout`: the parent layout holds the title
bar and, in slot 1, the current widget if there is one; a widget of the layout has a parent
exactly when it is the current one; the current widget is one of the widgets. -/
structure Inv (s : CDockAreaLayout W) : Prop where
  layout : s.m_ParentLayout
    = LayoutItem.titleBar :: (s.m_CurrentWidget.toList.map LayoutItem.content)
  parent : ∀ w ∈ s.m_Widgets, (s.hasParent w = true ↔ s.m_CurrentWidget = some w)
  mem : ∀ w, s.m_CurrentWidget = some w → w ∈ s.m_Widgets

end CDockAreaLayout

end ads

/-! ## `CDockAreaWidget` (DockAreaWidget.cpp): current index of a dock area -/

namespace ads

namespace CDockAreaLayout

variable {W : Type}

/-- The relation between `m_Widgets`, `m_CurrentIndex` and `m_CurrentWidget` that the layout keeps
while widgets are inserted once and only contained widgets are removed: the widgets are pairwise
distinct, without a current widget the current index is `-1`, and a current widget is the widget
stored at the current index. -/
structure Consistent (s : CDockAreaLayout W) : Prop where
  nodup : s.m_Widgets.Nodup
  index_none : s.m_CurrentWidget = none → s.m_CurrentIndex = -1
  index_some : ∀ w, s.m_CurrentWidget = some w →
    0 ≤ s.m_CurrentIndex ∧ s.m_Widgets[s.m_CurrentIndex.toNat]? = some w

/-- A call as the dock area makes it: a widget that is inserted is not in the layout yet and its
index is at most `count()` (negative: append), a widget that is removed is in the layout, and the
index of `setCurrentIndex` is not negative. -/
def Call.Valid [DecidableEq W] (s : CDockAreaLayout W) : Call W → Prop
  | Call.insertWidget index Widget => Widget ∉ s.m_Widgets ∧ index ≤ s.count
  | Call.removeWidget Widget => Widget ∈ s.m_Widgets
  | Call.setCurrentIndex index => 0 ≤ index

/-- The states a layout goes through when every call is valid. -/
inductive ValidReachable [DecidableEq W] : CDockAreaLayout W → Prop where
  | init (hasParent isHidden : W → Bool) : ValidReachable (init hasParent isHidden)
  | step {s s' : CDockAreaLayout W} (c : Call W) :
      ValidReachable s → Call.Valid s c → s.call c = some s' → ValidReachable s'

end CDockAreaLayout

/-- The part of a `CDockAreaWidget` that `setCurrentIndex` reads and writes: its contents layout
and its tab bar. `DockAreaTabBar.cpp` is not among the sources; of the tab bar the model keeps the
number of tabs (`count()`) and the index handed to its `setCurrentIndex`. Every widget of the
layout is a `CDockWidget` (`insertDockWidget` inserts nothing else), so the `qobject_cast` of
`dockWidget` is the identity. -/
structure CDockAreaWidget (W : Type) where
  ContentsLayout : CDockAreaLayout W
  /-- The value of `d->tabBar()->count()`. -/
  tabCount : Int
  /-- The index last handed to `TabBar->setCurrentIndex`. -/
  tabCurrentIndex : Int

namespace CDockAreaWidget

variable {W : Type} [DecidableEq W]

/-- The member `dockWidgetsCount()`. -/
def dockWidgetsCount (a : CDockAreaWidget W) : Int := a.ContentsLayout.count

/-- The member `currentIndex()`. -/
def currentIndex (a : CDockAreaWidget W) : Int := a.ContentsLayout.currentIndex

/-- The member `dockWidget(Index)`: `qobject_cast<CDockWidget*>(d->ContentsLayout->widget(Index))`. -/
def dockWidget (a : CDockAreaWidget W) (Index : Int) : Option (Option W) :=
  a.ContentsLayout.widget Index

/-- The member `currentDockWidget()`. -/
def currentDockWidget (a : CDockAreaWidget W) : Option (Option W) :=
  if a.currentIndex < 0 then some none else a.dockWidget a.currentIndex

/-- The member `setCurrentIndex(index)` (lines 687-709). The signals `currentChanging` and
`currentChanged` and the style sheet are outside the model; the calls through `nw`,
`currentWidget()` and `currentDockWidget()` give `none` on a null pointer. -/
def setCurrentIndex (a : CDockAreaWidget W) (index : Int) : Option (CDockAreaWidget W) :=
  if index < 0 ∨ index > a.tabCount - 1 then some a
  else
    let cw := a.ContentsLayout.currentWidget
    match a.ContentsLayout.widget index with
    | none => none
    | some nw =>
      let unchanged : Option Bool :=
        if cw = nw then
          match nw with
          | none => none
          | some w => some (!a.ContentsLayout.isHidden w)
        else some false
      match unchanged with
      | none => none
      | some true => some a
      | some false =>
        match a.ContentsLayout.setCurrentIndex index with
        | none => none
        | some l =>
          match l.currentWidget with
          | none => none
          | some c =>
            let a' : CDockAreaWidget W :=
              { a with tabCurrentIndex := index, ContentsLayout := l.showWidget c }
            match a'.currentDockWidget with
            | some (some _) => some a'
            | _ => none

/-- A dock area with the dock widgets 7 and 8, of which 8 is the current one. -/
def demoArea : CDockAreaWidget Nat :=
  { ContentsLayout := CDockAreaLayout.demo3, tabCount := 2, tabCurrentIndex := 1 }

end CDockAreaWidget

end ads

/-! ## `CDockAreaTitleBar` (DockAreaTitleBar.cpp) -/

namespace ads

/-- The enumerators of `CDockManager::eConfigFlag` that the sources name. `DockManager.h` is not
among the sources; the enumerators are taken to have pairwise different values. -/
inductive eConfigFlag where
  | DockAreaHasCloseButton
  | DockAreaCloseButtonClosesTab
  | OpaqueUndocking
  | DockAreaHasUndockButton
  | DockAreaHasTabsMenuButton
  | DockAreaHideDisabledButtons
  | DockAreaDynamicTabsMenuButtonVisibility
  | FocusHighlighting
  | AlwaysShowTabs
  | HideSingleCentralWidgetTitleBar
  | DockAreaHasSettingButton
  | DockAreaHasPlayPauseButton
  | DockAreaHasDefaultSetButton
  | DockAreaHasCaptureButton
deriving DecidableEq, Repr

/-- The state of `CDockManager::testConfigFlag`: which flags are set. -/
abbrev ConfigFlags := eConfigFlag → Bool

/-- The enum `eDragState` of `ads_globals.h` (not among the sources). The title bar names
`DraggingInactive`, `DraggingMousePressed` and `DraggingFloatingWidget`; `DraggingTab` is the
value the tabs use and is kept so that nothing depends on the enum having three values only. -/
inductive eDragState where
  | DraggingInactive
  | DraggingMousePressed
  | DraggingTab
  | DraggingFloatingWidget
deriving DecidableEq, Repr

/-- A `QPoint`. Mouse positions are widget coordinates, far from the limits of `int`. -/
structure QPoint where
  x : Int
  y : Int
deriving DecidableEq, Repr

namespace QPoint

/-- The null point `QPoint()`. -/
def null : QPoint := { x := 0, y := 0 }

/-- The difference `a - b` of two points. -/
def sub (a b : QPoint) : QPoint := { x := a.x - b.x, y := a.y - b.y }

/-- The sum `a + b` of two points. -/
def add (a b : QPoint) : QPoint := { x := a.x + b.x, y := a.y + b.y }

/-- The member `manhattanLength()`: `|x| + |y|`. -/
def manhattanLength (p : QPoint) : Int := |p.x| + |p.y|

end QPoint

/-- A button of the title bar: an object of class `CTitleBarButton` or of its subclass
`CTitleBarStateButton`, with the properties of `QToolButton` that the title bar reads or writes.
`shown` is the argument of the last `QToolButton::setVisible` call (`Super::setVisible`), `false`
for a button that was never shown. -/
structure TitleBarButton where
  /-- The dynamic type is `CTitleBarStateButton`. -/
  isStateButton : Bool
  Visible : Bool
  HideWhenDisabled : Bool
  enabled : Bool
  shown : Bool
  checkable : Bool
  checked : Bool
  toolTip : String
  icon : String
  State : Bool
  PositiveIcon : String
  NegativeIcon : String
  PositiveTip : String
  NegativeTip : String
deriving DecidableEq, Repr

namespace TitleBarButton

/-- The constructor `CTitleBarButton::CTitleBarButton(visible, parent)` (lines 931-937);
`hideDisabled` is `testConfigFlag(DockAreaHideDisabledButtons)`. -/
def create (visible hideDisabled : Bool) : TitleBarButton :=
  { isStateButton := false, Visible := visible, HideWhenDisabled := hideDisabled,
    enabled := true, shown := false, checkable := false, checked := false,
    toolTip := "", icon := "", State := false,
    PositiveIcon := "", NegativeIcon := "", PositiveTip := "", NegativeTip := "" }

/-- The member `CTitleBarButton::setVisible(visible)` (lines 953-965). -/
def setVisible (b : TitleBarButton) (visible : Bool) : TitleBarButton :=
  let visible := visible && b.Visible
  let visible := if visible && b.HideWhenDisabled then b.enabled else visible
  { b with shown := visible }

/-- The member `CTitleBarButton::force_visible(v)`: `Super::setVisible(v)`. -/
def force_visible (b : TitleBarButton) (v : Bool) : TitleBarButton := { b with shown := v }

/-- The slot `QWidget::show()`, which calls the virtual `setVisible(true)`. -/
def showButton (b : TitleBarButton) : TitleBarButton := b.setVisible true

/-- The slot `QWidget::hide()`, which calls the virtual `setVisible(false)`. -/
def hideButton (b : TitleBarButton) : TitleBarButton := b.setVisible false

/-- The toolkit call `setEnabled(e)`. -/
def setEnabled (b : TitleBarButton) (e : Bool) : TitleBarButton := { b with enabled := e }

/-- The toolkit call `setToolTip(tip)`. -/
def setToolTip (b : TitleBarButton) (tip : String) : TitleBarButton := { b with toolTip := tip }

/-- The toolkit call `setIcon(icon)`. -/
def setIcon (b : TitleBarButton) (icon : String) : TitleBarButton := { b with icon := icon }

/-- The toolkit call `setCheckable(c)`. -/
def setCheckable (b : TitleBarButton) (c : Bool) : TitleBarButton := { b with checkable := c }

/-- The toolkit call `QAbstractButton::setChecked(c)`: without effect on a button that is not
checkable. -/
def setChecked (b : TitleBarButton) (c : Bool) : TitleBarButton :=
  if !b.checkable || b.checked == c then b else { b with checked := c }

/-- The member `CTitleBarStateButton::setState(s)` (lines 988-1003). -/
def setState (b : TitleBarButton) (s : Bool) : TitleBarButton :=
  let b1 := { b with State := s }
  if b1.State then (b1.setToolTip b1.PositiveTip).setIcon b1.PositiveIcon
  else (b1.setToolTip b1.NegativeTip).setIcon b1.NegativeIcon

/-- The member `CTitleBarStateButton::resetState()`. -/
def resetState (b : TitleBarButton) : TitleBarButton := b.setState true

/-- The member `CTitleBarStateButton::setIcons(posIcon, negIcon)`. -/
def setIcons (b : TitleBarButton) (posIcon negIcon : String) : TitleBarButton :=
  let b1 := { b with PositiveIcon := posIcon, NegativeIcon := negIcon }
  b1.setState b1.State

/-- The member `CTitleBarStateButton::setTips(posTip, negTip)`. -/
def setTips (b : TitleBarButton) (posTip negTip : String) : TitleBarButton :=
  let b1 := { b with PositiveTip := posTip, NegativeTip := negTip }
  if b1.State then b1.setToolTip b1.PositiveTip else b1.setToolTip b1.NegativeTip

/-- The constructor `CTitleBarStateButton::CTitleBarStateButton` (lines 974-981). -/
def createState (posIcon negIcon posTip negTip : String) (visible hideDisabled : Bool) :
    TitleBarButton :=
  let b := { create visible hideDisabled with
    isStateButton := true, State := true, PositiveIcon := posIcon, NegativeIcon := negIcon,
    PositiveTip := posTip, NegativeTip := negTip }
  b.setState true

end TitleBarButton

/-- The button members of `DockAreaTitleBarPrivate`; a value stands for the address of the button
object, as stored in `Config2Button`. -/
inductive ButtonId where
  | TabsMenuButton
  | PlayPauseButton
  | SetButton
  | DefaultSetButton
  | CaptureButton
  | UndockButton
  | CloseButton
deriving DecidableEq, Repr

/-- The floating widget (`IFloatingWidget`) that `makeAreaFloating` creates. Its classes are not
among the sources; the record keeps the arguments of `startFloating` and the calls received. -/
structure FloatingWidget where
  /-- A `CFloatingDockContainer` (`true`) or a `CFloatingDragPreview` (`false`). -/
  isContainer : Bool
  Offset : QPoint
  DragState : eDragState
  /-- The number of `moveFloating()` calls. -/
  moved : Nat
  /-- The number of `finishDragging()` calls. -/
  finished : Nat
deriving DecidableEq, Repr

/-- The struct `DockAreaTitleBarPrivate` (lines 65-148). A `QPointer` member is `none` when null.
`shown` is the visibility of the title bar itself. -/
structure DockAreaTitleBarPrivate where
  TabsMenuButton : Option TitleBarButton
  PlayPauseButton : Option TitleBarButton
  SetButton : Option TitleBarButton
  DefaultSetButton : Option TitleBarButton
  CaptureButton : Option TitleBarButton
  UndockButton : Option TitleBarButton
  CloseButton : Option TitleBarButton
  /-- The `std::map` from config flag to button, as a list of its entries. -/
  Config2Button : List (eConfigFlag × ButtonId)
  MenuOutdated : Bool
  /-- The object names of the buttons in `DockWidgetActionsButtons`. -/
  DockWidgetActionsButtons : List String
  DragStartMousePos : QPoint
  DragState : eDragState
  FloatingWidget : Option FloatingWidget
  shown : Bool
deriving DecidableEq, Repr

namespace DockAreaTitleBarPrivate

/-- The struct after its constructor (lines 151-155) and the member initialisers. -/
def init : DockAreaTitleBarPrivate :=
  { TabsMenuButton := none, PlayPauseButton := none, SetButton := none,
    DefaultSetButton := none, CaptureButton := none, UndockButton := none, CloseButton := none,
    Config2Button := [], MenuOutdated := true, DockWidgetActionsButtons := [],
    DragStartMousePos := QPoint.null, DragState := eDragState.DraggingInactive,
    FloatingWidget := none, shown := false }

/-- The button object behind a button address. -/
def button (d : DockAreaTitleBarPrivate) : ButtonId → Option TitleBarButton
  | ButtonId.TabsMenuButton => d.TabsMenuButton
  | ButtonId.PlayPauseButton => d.PlayPauseButton
  | ButtonId.SetButton => d.SetButton
  | ButtonId.DefaultSetButton => d.DefaultSetButton
  | ButtonId.CaptureButton => d.CaptureButton
  | ButtonId.UndockButton => d.UndockButton
  | ButtonId.CloseButton => d.CloseButton

/-- Writes the button object behind a button address. -/
def setButton (d : DockAreaTitleBarPrivate) (id : ButtonId) (b : TitleBarButton) :
    DockAreaTitleBarPrivate :=
  match id with
  | ButtonId.TabsMenuButton => { d with TabsMenuButton := some b }
  | ButtonId.PlayPauseButton => { d with PlayPauseButton := some b }
  | ButtonId.SetButton => { d with SetButton := some b }
  | ButtonId.DefaultSetButton => { d with DefaultSetButton := some b }
  | ButtonId.CaptureButton => { d with CaptureButton := some b }
  | ButtonId.UndockButton => { d with UndockButton := some b }
  | ButtonId.CloseButton => { d with CloseButton := some b }

/-- The call `Config2Button.insert({flag, button})` of `std::map`: an existing entry of the key
is kept. -/
def mapInsert (m : List (eConfigFlag × ButtonId)) (flag : eConfigFlag) (id : ButtonId) :
    List (eConfigFlag × ButtonId) :=
  if (m.lookup flag).isSome then m else m ++ [(flag, id)]

/-- The member `createButtons()` (lines 159-296). `cfg` is the configuration of the dock manager
at the time of the call; `stateVisible` is the default argument `visible` of the constructor of
`CTitleBarStateButton`, declared in `DockAreaTitleBar_p.h` (not among the sources). Object names,
size policies, icon sizes and signal connections are outside the model. -/
def createButtons (cfg : ConfigFlags) (stateVisible : Bool) (d : DockAreaTitleBarPrivate) :
    DockAreaTitleBarPrivate :=
  let hd := cfg eConfigFlag.DockAreaHideDisabledButtons
  -- Tabs menu button
  let tabs := TitleBarButton.create (cfg eConfigFlag.DockAreaHasTabsMenuButton) hd
  let tabs := tabs.force_visible false
  let tabs := tabs.setEnabled false
  let tabs := tabs.hideButton
  let tabs := tabs.setIcon "DockAreaMenuIcon"
  let tabs := tabs.setToolTip "所有窗口"
  let d := { d with TabsMenuButton := some tabs }
  let d := { d with Config2Button := [] }
  -- SetButton
  let d :=
    if cfg eConfigFlag.DockAreaHasSettingButton then
      let b := TitleBarButton.createState ":/images/setting32.png" ":/images/setting32.png"
        "打开设置" "关闭设置" stateVisible hd
      let b := b.setCheckable true
      let b := b.setToolTip "设置"
      let b := b.showButton
      { d with SetButton := some b,
               Config2Button := mapInsert d.Config2Button eConfigFlag.DockAreaHasSettingButton
                 ButtonId.SetButton }
    else d
  -- PlayPauseButton
  let d :=
    if cfg eConfigFlag.DockAreaHasPlayPauseButton then
      let b := TitleBarButton.createState ":/images/pause64.png" ":/images/player64.png"
        "暂停" "播放" stateVisible hd
      let b := b.showButton
      { d with PlayPauseButton := some b,
               Config2Button := mapInsert d.Config2Button eConfigFlag.DockAreaHasPlayPauseButton
                 ButtonId.PlayPauseButton }
    else d
  -- DefaultSetButton
  let d :=
    if cfg eConfigFlag.DockAreaHasDefaultSetButton then
      let b := TitleBarButton.create (cfg eConfigFlag.DockAreaHasDefaultSetButton) hd
      let b := b.setToolTip "恢复"
      let b := b.setIcon ":/images/reset64.png"
      let b := b.showButton
      { d with DefaultSetButton := some b,
               Config2Button := mapInsert d.Config2Button eConfigFlag.DockAreaHasDefaultSetButton
                 ButtonId.DefaultSetButton }
    else d
  -- capture button
  let d :=
    if cfg eConfigFlag.DockAreaHasCaptureButton then
      let b := TitleBarButton.create (cfg eConfigFlag.DockAreaHasCaptureButton) hd
      let b := b.setToolTip "截图"
      let b := b.setIcon ":/images/graghshot64.png"
      let b := b.showButton
      { d with CaptureButton := some b,
               Config2Button := mapInsert d.Config2Button eConfigFlag.DockAreaHasCaptureButton
                 ButtonId.CaptureButton }
    else d
  -- Undock button
  let undock := TitleBarButton.create (cfg eConfigFlag.DockAreaHasUndockButton) hd
  let undock := undock.setToolTip "浮动"
  let undock := undock.setIcon ":/images/load32.png"
  let d := { d with UndockButton := some undock,
                    Config2Button := mapInsert d.Config2Button eConfigFlag.DockAreaHasUndockButton
                      ButtonId.UndockButton }
  -- Close button
  let close := TitleBarButton.create (cfg eConfigFlag.DockAreaHasCloseButton) hd
  let close := close.setIcon "DockAreaCloseIcon"
  let close :=
    if cfg eConfigFlag.DockAreaCloseButtonClosesTab then close.setToolTip "关闭激活窗口"
    else close.setToolTip "关闭窗口"
  { d with CloseButton := some close,
           Config2Button := mapInsert d.Config2Button eConfigFlag.DockAreaHasCloseButton
             ButtonId.CloseButton }

/-- The member `getButton(witch)` (lines 300-304): `none` is the null pointer. -/
def getButton (d : DockAreaTitleBarPrivate) (witch : eConfigFlag) : Option ButtonId :=
  d.Config2Button.lookup witch

/-- The statements `SetButton->resetState(); SetButton->setChecked(false);`, a call through the
`QPointer` `SetButton`: `none` when the pointer is null. -/
def resetSetButton (d : DockAreaTitleBarPrivate) : Option DockAreaTitleBarPrivate :=
  match d.SetButton with
  | none => none
  | some b => some { d with SetButton := some (b.resetState.setChecked false) }

end DockAreaTitleBarPrivate

/-- What the handlers of the title bar read from objects outside it at the time of a call. -/
structure Env where
  /-- The state of `CDockManager::testConfigFlag`. -/
  testConfigFlag : ConfigFlags
  /-- The value of `CDockManager::startDragDistance()`. -/
  startDragDistance : Int
  /-- The member `min_area_handler_` of the dock area: unset, or the value it returns. -/
  min_area_handler_ : Option Int
  /-- The member `allow_move_handler_` of the title bar: unset, or the value it returns. -/
  allow_move_handler_ : Option Bool
  /-- The value of `dockContainer()->visibleDockAreaCount()`. -/
  visibleDockAreaCount : Int
  /-- The value of `dockContainer()->dockAreaCount()`. -/
  dockAreaCount : Int
  /-- The value of `dockContainer()->isFloating()`. -/
  isFloating : Bool
  /-- The value of `DockArea->features().testFlag(CDockWidget::DockWidgetFloatable)`. -/
  floatable : Bool

/-- The member `CDockAreaWidget::allow_move()` (DockAreaWidget.cpp, lines 630-634). -/
def Env.allow_move (env : Env) : Bool :=
  match env.min_area_handler_ with
  | none => true
  | some m => decide (env.visibleDockAreaCount > m)

namespace CDockAreaTitleBar

open DockAreaTitleBarPrivate

/-- The member `DockAreaTitleBarPrivate::makeAreaFloating(Offset, DragState)` (lines 337-382).
The handlers run on the dock widgets of the area are outside the model. -/
def makeAreaFloating (env : Env) (d : DockAreaTitleBarPrivate) (Offset : QPoint)
    (DragState : eDragState) : Option (DockAreaTitleBarPrivate × FloatingWidget) :=
  let d := { d with DragState := DragState }
  let OpaqueUndocking := env.testConfigFlag eConfigFlag.OpaqueUndocking
    || decide (eDragState.DraggingFloatingWidget ≠ DragState)
  let fw : FloatingWidget :=
    { isContainer := OpaqueUndocking, Offset := Offset, DragState := DragState,
      moved := 0, finished := 0 }
  match d.resetSetButton with
  | none => none
  | some d => some (d, fw)

/-- The member `DockAreaTitleBarPrivate::startFloating(Offset)` (lines 386-389). -/
def startFloating (env : Env) (d : DockAreaTitleBarPrivate) (Offset : QPoint) :
    Option DockAreaTitleBarPrivate :=
  match makeAreaFloating env d Offset eDragState.DraggingFloatingWidget with
  | none => none
  | some (d, fw) => some { d with FloatingWidget := some fw }

/-- The member `markTabsMenuOutdated()` (lines 460-482). The `setVisible` call of the tabs menu
button is queued (`Qt::QueuedConnection`) and runs after the handler. -/
def markTabsMenuOutdated (d : DockAreaTitleBarPrivate) : DockAreaTitleBarPrivate :=
  { d with MenuOutdated := true }

/-- The member `updateDockWidgetActionsButtons()` (lines 554-584); `actions` are the object names
of the title bar actions of the current dock widget. -/
def updateDockWidgetActionsButtons (actions : List String) (d : DockAreaTitleBarPrivate) :
    DockAreaTitleBarPrivate :=
  let d := if !d.DockWidgetActionsButtons.isEmpty then { d with DockWidgetActionsButtons := [] }
    else d
  if actions.isEmpty then d
  else { d with DockWidgetActionsButtons := d.DockWidgetActionsButtons ++ actions }

/-- The loop of `onCurrentTabChanged` (lines 602-612) over the tab indices `i`: for every
`i != Index` the settings button is reset. -/
def resetLoop (Index : Int) : List Nat → DockAreaTitleBarPrivate → Option DockAreaTitleBarPrivate
  | [], d => some d
  | i :: rest, d =>
    if (i : Int) ≠ Index then
      match d.resetSetButton with
      | none => none
      | some d => resetLoop Index rest d
    else resetLoop Index rest d

/-- The slot `onCurrentTabChanged(Index)` (lines 588-622). `count` is `d->TabBar->count()`,
`closable` and `playState` are read from the dock widget of tab `Index`, which exists for
`Index < count`. -/
def onCurrentTabChanged (env : Env) (d : DockAreaTitleBarPrivate) (Index count : Int)
    (closable playState : Bool) (actions : List String) : Option DockAreaTitleBarPrivate :=
  if Index < 0 then some d
  else
    let r : Option DockAreaTitleBarPrivate :=
      if env.testConfigFlag eConfigFlag.DockAreaCloseButtonClosesTab then
        if Index < count then
          match d.CloseButton with
          | none => none
          | some c =>
            let d := { d with CloseButton := some (c.setEnabled closable) }
            match resetLoop Index (List.range count.toNat) d with
            | none => none
            | some d =>
              match d.PlayPauseButton with
              | none => some d
              | some p => some { d with PlayPauseButton := some (p.setState playState) }
        else none
      else some d
    r.map (updateDockWidgetActionsButtons actions)

/-- The member `setVisible(Visible)` (lines 640-647). -/
def setVisible (d : DockAreaTitleBarPrivate) (Visible : Bool) : DockAreaTitleBarPrivate :=
  let d := { d with shown := Visible }
  let d := markTabsMenuOutdated d
  if !Visible then { d with DragState := eDragState.DraggingInactive } else d

/-- The handler `mousePressEvent(ev)` (lines 651-666); `left` is `ev->button() == Qt::LeftButton`.
Setting the focus of the current tab is outside the model. -/
def mousePressEvent (d : DockAreaTitleBarPrivate) (left : Bool) (pos : QPoint) :
    DockAreaTitleBarPrivate :=
  if left then
    { d with DragStartMousePos := pos, DragState := eDragState.DraggingMousePressed }
  else d

/-- The handler `mouseReleaseEvent(ev)` (lines 670-687); `left` is
`ev->button() == Qt::LeftButton`. -/
def mouseReleaseEvent (d : DockAreaTitleBarPrivate) (left : Bool) :
    Option DockAreaTitleBarPrivate :=
  if left then
    let CurrentDragState := d.DragState
    let d := { d with DragStartMousePos := QPoint.null,
                      DragState := eDragState.DraggingInactive }
    if eDragState.DraggingFloatingWidget = CurrentDragState then
      match d.FloatingWidget with
      | none => none
      | some fw => some { d with FloatingWidget := some { fw with finished := fw.finished + 1 } }
    else some d
  else some d

/-- The handler `mouseMoveEvent(ev)` (lines 691-735); `leftHeld` is
`ev->buttons() & Qt::LeftButton`. The allowed areas of the container overlay are outside the
model. -/
def mouseMoveEvent (env : Env) (d : DockAreaTitleBarPrivate) (leftHeld : Bool) (pos : QPoint) :
    Option DockAreaTitleBarPrivate :=
  if !env.allow_move then some d
  else if env.allow_move_handler_ = some false then some d
  else if !leftHeld || decide (d.DragState = eDragState.DraggingInactive) then
    some { d with DragState := eDragState.DraggingInactive }
  else if d.DragState = eDragState.DraggingFloatingWidget then
    match d.FloatingWidget with
    | none => none
    | some fw => some { d with FloatingWidget := some { fw with moved := fw.moved + 1 } }
  else if env.isFloating && decide (env.visibleDockAreaCount = 1) then some d
  else
    let DragDistance := (QPoint.sub d.DragStartMousePos pos).manhattanLength
    if DragDistance ≥ env.startDragDistance then startFloating env d d.DragStartMousePos
    else some d

/-- The handler `mouseDoubleClickEvent(event)` (lines 739-758). -/
def mouseDoubleClickEvent (env : Env) (d : DockAreaTitleBarPrivate) (pos : QPoint) :
    Option DockAreaTitleBarPrivate :=
  if env.allow_move_handler_ = some false then some d
  else if env.isFloating && decide (env.dockAreaCount = 1) then some d
  else if !env.floatable then some d
  else (makeAreaFloating env d pos eDragState.DraggingInactive).map Prod.fst

/-- The slot `onUndockButtonClicked()` (lines 535-541); `cursor` is
`mapFromGlobal(QCursor::pos())`. -/
def onUndockButtonClicked (env : Env) (d : DockAreaTitleBarPrivate) (cursor : QPoint) :
    Option DockAreaTitleBarPrivate :=
  if env.floatable then (makeAreaFloating env d cursor eDragState.DraggingInactive).map Prod.fst
  else some d

/-- The function connected to `draggingCanceled` of the drag preview in `makeAreaFloating`
(lines 352-355). -/
def draggingCanceled (d : DockAreaTitleBarPrivate) : DockAreaTitleBarPrivate :=
  { d with DragState := eDragState.DraggingInactive }

/-- An event delivered to the title bar. -/
inductive Event where
  | mousePress (left : Bool) (pos : QPoint)
  | mouseRelease (left : Bool)
  | mouseMove (leftHeld : Bool) (pos : QPoint)
  | mouseDoubleClick (pos : QPoint)
  | undockButtonClicked (cursor : QPoint)
  | setVisible (Visible : Bool)
  | draggingCanceled
  | currentTabChanged (Index count : Int) (closable playState : Bool) (actions : List String)
deriving DecidableEq, Repr

/-- The title bar after the handler of an event, `none` when the handler calls through a null
pointer. -/
def handle (env : Env) (d : DockAreaTitleBarPrivate) : Event → Option DockAreaTitleBarPrivate
  | Event.mousePress left pos => some (mousePressEvent d left pos)
  | Event.mouseRelease left => mouseReleaseEvent d left
  | Event.mouseMove leftHeld pos => mouseMoveEvent env d leftHeld pos
  | Event.mouseDoubleClick pos => mouseDoubleClickEvent env d pos
  | Event.undockButtonClicked cursor => onUndockButtonClicked env d cursor
  | Event.setVisible Visible => some (setVisible d Visible)
  | Event.draggingCanceled => some (draggingCanceled d)
  | Event.currentTabChanged Index count closable playState actions =>
    onCurrentTabChanged env d Index count closable playState actions

/-- The title bar after its constructor (lines 393-413) under the configuration `cfg`. -/
def create (cfg : ConfigFlags) (stateVisible : Bool) : DockAreaTitleBarPrivate :=
  createButtons cfg stateVisible DockAreaTitleBarPrivate.init

/-- The states of a title bar: the title bar as constructed, and the state after every handler
that completes. -/
inductive Reachable : DockAreaTitleBarPrivate → Prop where
  | create (cfg : ConfigFlags) (stateVisible : Bool) : Reachable (create cfg stateVisible)
  | step {d d' : DockAreaTitleBarPrivate} (env : Env) (e : Event) :
      Reachable d → handle env d e = some d' → Reachable d'

/-- Applies `f` to the button registered for `witch`; nothing happens without such a button
(`if (button != nullptr)`). -/
def withButton (d : DockAreaTitleBarPrivate) (witch : eConfigFlag)
    (f : TitleBarButton → TitleBarButton) : Option DockAreaTitleBarPrivate :=
  match d.getButton witch with
  | none => some d
  | some id =>
    match d.button id with
    | none => none
    | some b => some (d.setButton id (f b))

/-- Applies `f` to the button registered for `witch` when it is a `CTitleBarStateButton`
(`if (button != nullptr && tbsb != nullptr)` after the `dynamic_cast`). -/
def withStateButton (d : DockAreaTitleBarPrivate) (witch : eConfigFlag)
    (f : TitleBarButton → TitleBarButton) : Option DockAreaTitleBarPrivate :=
  match d.getButton witch with
  | none => some d
  | some id =>
    match d.button id with
    | none => none
    | some b => if b.isStateButton then some (d.setButton id (f b)) else some d

/-- The member `set_button_visible(witch, show)` (lines 807-814). -/
def set_button_visible (d : DockAreaTitleBarPrivate) (witch : eConfigFlag) (visible : Bool) :
    Option DockAreaTitleBarPrivate :=
  withButton d witch (fun b => b.setVisible visible)

/-- The member `set_button_tip(witch, tip)` (lines 818-825). -/
def set_button_tip (d : DockAreaTitleBarPrivate) (witch : eConfigFlag) (tip : String) :
    Option DockAreaTitleBarPrivate :=
  withButton d witch (fun b => b.setToolTip tip)

/-- The member `set_button_icon(witch, icon)` (lines 920-927). -/
def set_button_icon (d : DockAreaTitleBarPrivate) (witch : eConfigFlag) (icon : String) :
    Option DockAreaTitleBarPrivate :=
  withButton d witch (fun b => b.setIcon icon)

/-- The member `set_state_button_icon(witch, positive_icon, negative_icon)` (lines 829-837). -/
def set_state_button_icon (d : DockAreaTitleBarPrivate) (witch : eConfigFlag)
    (positive_icon negative_icon : String) : Option DockAreaTitleBarPrivate :=
  withStateButton d witch (fun b => b.setIcons positive_icon negative_icon)

/-- The member `reset_state(witch)` (lines 841-849). -/
def reset_state (d : DockAreaTitleBarPrivate) (witch : eConfigFlag) :
    Option DockAreaTitleBarPrivate :=
  withStateButton d witch (fun b => b.resetState)

/-- The member `set_state_button_tips(witch, posTip, negTip)` (lines 863-871). -/
def set_state_button_tips (d : DockAreaTitleBarPrivate) (witch : eConfigFlag)
    (posTip negTip : String) : Option DockAreaTitleBarPrivate :=
  withStateButton d witch (fun b => b.setTips posTip negTip)

/-- The member `set_button_checked(witch, is_checked)` (lines 851-860): `button->setChecked` is
called before the test `button != nullptr`, so a null `button` gives `none`. -/
def set_button_checked (d : DockAreaTitleBarPrivate) (witch : eConfigFlag) (is_checked : Bool) :
    Option DockAreaTitleBarPrivate :=
  match d.getButton witch with
  | none => none
  | some id =>
    match d.button id with
    | none => none
    | some b =>
      let b := b.setChecked is_checked
      if b.isStateButton then some (d.setButton id (b.setState (!is_checked)))
      else some (d.setButton id b)

/-- The member `CDockAreaWidget::hide_buttons()` (DockAreaWidget.cpp, lines 1149-1156). -/
def hide_buttons (d : DockAreaTitleBarPrivate) : Option DockAreaTitleBarPrivate := do
  let d ← set_button_visible d eConfigFlag.DockAreaHasUndockButton false
  let d ← set_button_visible d eConfigFlag.DockAreaHasCaptureButton false
  let d ← set_button_visible d eConfigFlag.DockAreaHasDefaultSetButton false
  let d ← set_button_visible d eConfigFlag.DockAreaHasSettingButton false
  set_button_visible d eConfigFlag.DockAreaHasPlayPauseButton false

/-- The member `CDockAreaWidget::show_buttons()` (DockAreaWidget.cpp, lines 1159-1166). -/
def show_buttons (d : DockAreaTitleBarPrivate) : Option DockAreaTitleBarPrivate := do
  let d ← set_button_visible d eConfigFlag.DockAreaHasUndockButton true
  let d ← set_button_visible d eConfigFlag.DockAreaHasCaptureButton true
  let d ← set_button_visible d eConfigFlag.DockAreaHasDefaultSetButton true
  let d ← set_button_visible d eConfigFlag.DockAreaHasSettingButton true
  set_button_visible d eConfigFlag.DockAreaHasPlayPauseButton true

/-- A call that sets the visibility of buttons. -/
inductive VisibilityCall where
  | set_button_visible (witch : eConfigFlag) (visible : Bool)
  | show_buttons
  | hide_buttons
deriving DecidableEq, Repr

/-- The title bar after a visibility call. -/
def visibilityCall (d : DockAreaTitleBarPrivate) : VisibilityCall →
    Option DockAreaTitleBarPrivate
  | VisibilityCall.set_button_visible witch visible => set_button_visible d witch visible
  | VisibilityCall.show_buttons => show_buttons d
  | VisibilityCall.hide_buttons => hide_buttons d

/-- The title bar after a sequence of visibility calls. -/
def visibilityCalls (d : DockAreaTitleBarPrivate) : List VisibilityCall →
    Option DockAreaTitleBarPrivate
  | [] => some d
  | c :: cs =>
    match visibilityCall d c with
    | none => none
    | some d => visibilityCalls d cs

/-- The buttons registered in `Config2Button` are button objects, and a button registered for a
flag that is not set in `cfg` was constructed with `Visible == false` and is not shown. -/
def Gated (cfg : ConfigFlags) (d : DockAreaTitleBarPrivate) : Prop :=
  ∀ witch id, d.getButton witch = some id →
    ∃ b, d.button id = some b ∧ (cfg witch = false → b.Visible = false ∧ b.shown = false)

/-- The configuration in which no flag is set. -/
def noFlags : ConfigFlags := fun _ => false

/-- The configuration in which every flag is set. -/
def allFlags : ConfigFlags := fun _ => true

/-- An environment of the handlers: every flag set, start drag distance 10, no handlers. -/
def demoEnv : Env :=
  { testConfigFlag := allFlags, startDragDistance := 10, min_area_handler_ := none,
    allow_move_handler_ := none, visibleDockAreaCount := 2, dockAreaCount := 2,
    isFloating := false, floatable := true }

/-- The configuration in which every flag but `DockAreaHasSettingButton` is set. -/
def noSettingFlags : ConfigFlags :=
  fun f => decide (f ≠ eConfigFlag.DockAreaHasSettingButton)

/-- The environment `demoEnv` under the configuration `noSettingFlags`. -/
def demoEnvNoSetting : Env := { demoEnv with testConfigFlag := noSettingFlags }

/-- The title bar created with every flag set, after a press of the left button at (0, 0). -/
def demoPressed : DockAreaTitleBarPrivate :=
  mousePressEvent (create allFlags true) true { x := 0, y := 0 }

/-- The title bar `demoPressed` after a move to (10, 5) with the left button held. -/
def demoFloating : DockAreaTitleBarPrivate :=
  (mouseMoveEvent demoEnv demoPressed true { x := 10, y := 5 }).getD demoPressed

end CDockAreaTitleBar

end ads

/-! ## `title_bar_t` (main_title_bar.cpp, main_title_bar.hpp) -/

namespace main_title_bar

open ads (QPoint)

/-- The top-level window of the title bar, as its maximized flag (`isMaximized()`). The geometry
of the window is not modelled: `showMaximized()` and `showNormal()` change it. -/
structure QMainWindow where
  maximized : Bool
deriving DecidableEq, Repr

namespace QMainWindow

/-- The slot `showMaximized()`, as setting the maximized flag. -/
def showMaximized (w : QMainWindow) : QMainWindow := { w with maximized := true }

/-- The slot `showNormal()`, as clearing the maximized flag. -/
def showNormal (w : QMainWindow) : QMainWindow := { w with maximized := false }

end QMainWindow

/-- The class `title_bar_t` with its private struct `title_bar_private_t` (main_title_bar.cpp,
lines 12-22) and the window it sits in. -/
structure title_bar_t where
  mouse_left_pressing_ : Bool
  move_start_point_ : QPoint
  window_ : QMainWindow
  /-- The text of `title_label_`. -/
  title_label_ : String
  /-- The icon of `button_max_`. -/
  button_max_ : String
deriving DecidableEq, Repr

namespace title_bar_t

/-- The title bar after its constructor (lines 23-70) in the window `w` with title `title`. -/
def create (w : QMainWindow) (title : String) : title_bar_t :=
  { mouse_left_pressing_ := false, move_start_point_ := QPoint.null, window_ := w,
    title_label_ := title, button_max_ := ":/images/maximized.png" }

/-- The slot `MaximizeButtonClicked()` (lines 80-87). -/
def MaximizeButtonClicked (t : title_bar_t) : title_bar_t :=
  if t.window_.maximized then { t with window_ := t.window_.showNormal }
  else { t with window_ := t.window_.showMaximized }

/-- The handler `mouseDoubleClickEvent(event)` (lines 76-78). -/
def mouseDoubleClickEvent (t : title_bar_t) : title_bar_t := t.MaximizeButtonClicked

/-- The function connected to `clicked` of `toolBar_seat_` (lines 67-69), which
`click_widget_t::mouseDoubleClickEvent` emits: `parent->showMaximized()`. -/
def toolBar_seat_clicked (t : title_bar_t) : title_bar_t :=
  { t with window_ := t.window_.showMaximized }

/-- The member `set_window_tilte(name)` (lines 71-73). -/
def set_window_tilte (t : title_bar_t) (name : String) : title_bar_t :=
  { t with title_label_ := name }

/-- The member `updata_icon()` (lines 89-98). -/
def updata_icon (t : title_bar_t) : title_bar_t :=
  if t.window_.maximized then { t with button_max_ := ":/images/restore.png" }
  else { t with button_max_ := ":/images/maximized.png" }

/-- A mouse event delivered to the title bar; `left` tells whether the left button is the button
of the event (press, release) or is held (move). -/
inductive MouseEvent where
  | press (left : Bool) (pos : QPoint)
  | move (left : Bool) (pos : QPoint)
  | release (left : Bool) (pos : QPoint)
  | doubleClick (pos : QPoint)
deriving DecidableEq, Repr

/-- The title bar after a mouse event. The class overrides `mouseDoubleClickEvent` only
(main_title_bar.hpp, lines 5-18), so a press, move or release runs no code of `title_bar_t` but
the handler of its base class `QToolBar`. That handler belongs to the toolkit and is the
parameter `QToolBar_mouseEvent`: it may do anything to the window, while `title_bar_private_t`,
which only main_title_bar.cpp defines, is out of its reach. -/
def mouseEvent (QToolBar_mouseEvent : MouseEvent → QMainWindow → QMainWindow) (t : title_bar_t) :
    MouseEvent → title_bar_t
  | MouseEvent.press left pos =>
    { t with window_ := QToolBar_mouseEvent (MouseEvent.press left pos) t.window_ }
  | MouseEvent.move left pos =>
    { t with window_ := QToolBar_mouseEvent (MouseEvent.move left pos) t.window_ }
  | MouseEvent.release left pos =>
    { t with window_ := QToolBar_mouseEvent (MouseEvent.release left pos) t.window_ }
  | MouseEvent.doubleClick _ => t.mouseDoubleClickEvent

/-- The title bar after a sequence of mouse events. -/
def mouseEvents (QToolBar_mouseEvent : MouseEvent → QMainWindow → QMainWindow) (t : title_bar_t) :
    List MouseEvent → title_bar_t
  | [] => t
  | e :: es => mouseEvents QToolBar_mouseEvent (t.mouseEvent QToolBar_mouseEvent e) es

/-- A title bar in a window that is not maximized. -/
def demo : title_bar_t := create { maximized := false } "main"

/-- A `QToolBar` whose mouse handlers leave the window as it is. -/
def demoToolBar : MouseEvent → QMainWindow → QMainWindow := fun _ w => w

end title_bar_t

end main_title_bar

/-! ## `CDockAreaWidget::closeArea` and `CDockAreaWidget::saveState` (DockAreaWidget.cpp) -/

namespace ads

/-- What a dock area reads from one of its dock widgets. `DockWidget.cpp` is not among the
sources; `DockWidgetDeleteOnClose` is `features().testFlag(CDockWidget::DockWidgetDeleteOnClose)`. -/
structure CDockWidget where
  objectName : String
  isClosed : Bool
  DockWidgetDeleteOnClose : Bool
deriving DecidableEq, Repr

/-- A call that `closeArea` makes on a dock widget or on the close handler of the area. -/
inductive AreaCall (W : Type) where
  | closeDockWidgetInternal (w : W) : AreaCall W
  | toggleView (w : W) (Open : Bool) : AreaCall W
  | CloseHandler : AreaCall W
deriving DecidableEq, Repr

/-- What `saveState` hands to the `QXmlStreamWriter`; `dockWidgetState w` stands for everything
that `saveState` of the dock widget `w` writes. -/
inductive XmlEvent (W : Type) where
  | writeStartElement (name : String) : XmlEvent W
  | writeAttribute (name value : String) : XmlEvent W
  | dockWidgetState (w : W) : XmlEvent W
  | writeEndElement : XmlEvent W
deriving DecidableEq, Repr

/-- The call `QString::number(n, 16)` for a value that is not negative. -/
def hexNumber (n : Nat) : String := String.mk (Nat.toDigits 16 n)

/-- The value of a base 16 digit, written as `QString::number` writes it: `0` to `9` and the
lower-case letters `a` to `f`; no other character is a digit. -/
def hexDigitValue (c : Char) : Option Nat :=
  if c = '0' then some 0 else if c = '1' then some 1 else if c = '2' then some 2
  else if c = '3' then some 3 else if c = '4' then some 4 else if c = '5' then some 5
  else if c = '6' then some 6 else if c = '7' then some 7 else if c = '8' then some 8
  else if c = '9' then some 9 else if c = 'a' then some 10 else if c = 'b' then some 11
  else if c = 'c' then some 12 else if c = 'd' then some 13 else if c = 'e' then some 14
  else if c = 'f' then some 15 else none

/-- One step of reading a numeral in base 16: the value so far times 16 plus the next digit. -/
def hexStep (acc : Nat) (c : Char) : Option Nat :=
  match hexDigitValue c with
  | some v => some (16 * acc + v)
  | none => none

/-- Reading of digits in base 16, most significant digit first, from the value `acc`. -/
def hexRead : Nat → List Char → Option Nat
  | acc, [] => some acc
  | acc, c :: cs =>
    match hexStep acc c with
    | some v => hexRead v cs
    | none => none

/-- The number that a text denotes in base 16: what it means for a number to be written in base
16. The empty text and a text with a character that is no base 16 digit denote no number. -/
def hexValue (s : String) : Option Nat :=
  match s.data with
  | [] => none
  | c :: cs => hexRead 0 (c :: cs)

namespace CDockAreaWidget

variable {W : Type} [DecidableEq W]

/-- The loop of `openedDockWidgets()` (lines 769-777) over the indices `i`: the dock widget at `i`
is appended when it is not closed; `dockWidget(i)->isClosed()` through a null pointer gives
`none`. -/
def openedLoop (a : CDockAreaWidget W) (dw : W → CDockWidget) : List Nat → Option (List W)
  | [] => some []
  | i :: rest =>
    match a.dockWidget (i : Int) with
    | some (some w) =>
      match openedLoop a dw rest with
      | none => none
      | some l => some (if (dw w).isClosed then l else w :: l)
    | _ => none

/-- The member `openedDockWidgets()` (lines 767-779). -/
def openedDockWidgets (a : CDockAreaWidget W) (dw : W → CDockWidget) : Option (List W) :=
  openedLoop a dw (List.range a.ContentsLayout.count.toNat)

/-- The member `runCloseHandler()` (lines 602-608); `CloseHandler` tells whether the handler is
set. -/
def runCloseHandler (CloseHandler : Bool) : List (AreaCall W) :=
  if CloseHandler then [AreaCall.CloseHandler] else []

/-- The member `closeArea()` (lines 1018-1036), as the calls it makes, in order. What the called
functions do to the dock widgets is outside the model. -/
def closeArea (a : CDockAreaWidget W) (dw : W → CDockWidget) (CloseHandler : Bool) :
    Option (List (AreaCall W)) :=
  match a.openedDockWidgets dw with
  | none => none
  | some OpenDockWidgets =>
    let deleteOnly : Option W :=
      match OpenDockWidgets with
      | [w] => if (dw w).DockWidgetDeleteOnClose then some w else none
      | _ => none
    match deleteOnly with
    | some w => some ([AreaCall.closeDockWidgetInternal w] ++ runCloseHandler CloseHandler)
    | none =>
      match a.openedDockWidgets dw with
      | none => none
      | some l => some (l.map (fun w => AreaCall.toggleView w false) ++ runCloseHandler CloseHandler)

/-- The loop of `saveState` (lines 894-897) over the indices `i`: `dockWidget(i)->saveState(s)`. -/
def saveLoop (a : CDockAreaWidget W) : List Nat → Option (List (XmlEvent W))
  | [] => some []
  | i :: rest =>
    match a.dockWidget (i : Int) with
    | some (some w) =>
      match saveLoop a rest with
      | none => none
      | some l => some (XmlEvent.dockWidgetState w :: l)
    | _ => none

/-- The member `saveState(s)` (lines 874-899), as what it writes. `AllowedAreas` and `Flags` are
the members of `DockAreaWidgetPrivate` as numbers; `DefaultAllowedAreas` (`AllDockAreas`) and
`DefaultFlags` are declared in headers that are not among the sources. -/
def saveState (a : CDockAreaWidget W) (dw : W → CDockWidget)
    (AllowedAreas DefaultAllowedAreas Flags DefaultFlags : Nat) : Option (List (XmlEvent W)) :=
  let Name : Option String :=
    match a.currentDockWidget with
    | none => none
    | some none => some ""
    | some (some w) => some (dw w).objectName
  match Name with
  | none => none
  | some Name =>
    let head : List (XmlEvent W) :=
      [XmlEvent.writeStartElement "Area",
       XmlEvent.writeAttribute "Tabs" (toString a.ContentsLayout.count),
       XmlEvent.writeAttribute "Current" Name]
    let areas : List (XmlEvent W) :=
      if AllowedAreas ≠ DefaultAllowedAreas then
        [XmlEvent.writeAttribute "AllowedAreas" (hexNumber AllowedAreas)]
      else []
    let flags : List (XmlEvent W) :=
      if Flags ≠ DefaultFlags then [XmlEvent.writeAttribute "Flags" (hexNumber Flags)] else []
    match saveLoop a (List.range a.ContentsLayout.count.toNat) with
    | none => none
    | some widgets => some (head ++ areas ++ flags ++ widgets ++ [XmlEvent.writeEndElement])

/-- The member `reorderDockWidget(fromIndex, toIndex)` (lines 812-826). A null `Widget` would be
dereferenced by `insertWidget` (`Widget->setParent(nullptr)`), which gives `none`. -/
def reorderDockWidget (a : CDockAreaWidget W) (fromIndex toIndex : Int) :
    Option (CDockAreaWidget W) :=
  if fromIndex ≥ a.ContentsLayout.count ∨ fromIndex < 0
      ∨ toIndex ≥ a.ContentsLayout.count ∨ toIndex < 0 ∨ fromIndex = toIndex then some a
  else
    match a.ContentsLayout.widget fromIndex with
    | some (some Widget) =>
      let l1 := a.ContentsLayout.removeWidget Widget
      match l1.insertWidget toIndex Widget with
      | none => none
      | some l2 => ({ a with ContentsLayout := l2 }).setCurrentIndex toIndex
    | _ => none

/-- The dock widgets of the demo area: widget 7 is closed, widget 8 is open and is deleted on
close. -/
def demoDockWidget (w : Nat) : CDockWidget :=
  { objectName := if w = 7 then "seven" else "eight", isClosed := decide (w = 7),
    DockWidgetDeleteOnClose := decide (w = 8) }

end CDockAreaWidget

namespace CDockAreaTitleBar

/-- The handler `mouseDoubleClickEvent(event)` (lines 739-758) together with the floating widget
that its call of `makeAreaFloating` creates, `none` when it returns before that call. -/
def mouseDoubleClickEvent_floating (env : Env) (d : DockAreaTitleBarPrivate) (pos : QPoint) :
    Option (DockAreaTitleBarPrivate × Option FloatingWidget) :=
  if env.allow_move_handler_ = some false then some (d, none)
  else if env.isFloating && decide (env.dockAreaCount = 1) then some (d, none)
  else if !env.floatable then some (d, none)
  else
    match makeAreaFloating env d pos eDragState.DraggingInactive with
    | none => none
    | some (d, fw) => some (d, some fw)

/-- The environment `demoEnv` with a docked container that holds a single dock area. -/
def demoEnvLastArea : Env := { demoEnv with visibleDockAreaCount := 1, dockAreaCount := 1 }

/-- The environment `demoEnv` with a floating container that holds a single dock area. -/
def demoEnvFloatingLastArea : Env :=
  { demoEnv with visibleDockAreaCount := 1, dockAreaCount := 1, isFloating := true }

/-- The title bar created without the flag `DockAreaHasSettingButton`, after a press of the left
button at (0, 0). -/
def demoPressedNoSetting : DockAreaTitleBarPrivate :=
  mousePressEvent (create noSettingFlags true) true { x := 0, y := 0 }

end CDockAreaTitleBar

end ads

/-! ## Theorems about `CDockAreaLayout` -/

namespace ads

namespace CDockAreaLayout

variable {W : Type} [DecidableEq W]

theorem takeSlot1_none (s : CDockAreaLayout W)
    (hl : s.m_ParentLayout = [LayoutItem.titleBar]) :
    s.takeSlot1 = s := by
  cases s
  simp only at hl
  subst hl
  simp [takeSlot1]

theorem takeSlot1_some (s : CDockAreaLayout W) (w : W)
    (hl : s.m_ParentLayout = [LayoutItem.titleBar, LayoutItem.content w]) :
    s.takeSlot1 = { s with m_ParentLayout := [LayoutItem.titleBar],
                           hasParent := fun x => if x = w then false else s.hasParent x } := by
  cases s
  simp only at hl
  subst hl
  simp [takeSlot1, setParentNull]

omit [DecidableEq W] in
theorem widget_mem (s : CDockAreaLayout W) (index : Int) (w : W)
    (h : s.widget index = some (some w)) : w ∈ s.m_Widgets := by
  unfold widget at h
  split_ifs at h with h1 h2
  · simp only [Option.some.injEq] at h
    exact List.getElem?_mem h
  · simp at h

omit [DecidableEq W] in
theorem widget_of_range (s : CDockAreaLayout W) (index : Int) (h0 : 0 ≤ index)
    (h1 : index < s.count) :
    ∃ w, s.m_Widgets[index.toNat]? = some w ∧ s.widget index = some (some w) := by
  unfold count at h1
  have hlt : index.toNat < s.m_Widgets.length := by omega
  refine ⟨s.m_Widgets[index.toNat], List.getElem?_eq_getElem hlt, ?_⟩
  simp [widget, h0, h1, List.getElem?_eq_getElem hlt]

omit [DecidableEq W] in
theorem widget_isSome_of_nonneg (s : CDockAreaLayout W) (index : Int) (h0 : 0 ≤ index) :
    (s.widget index).isSome = true := by
  unfold widget
  split_ifs <;> rfl

theorem Inv.setCurrentIndex {s s' : CDockAreaLayout W} (hs : Inv s) (index : Int)
    (h : s.setCurrentIndex index = some s') : Inv s' := by
  unfold CDockAreaLayout.setCurrentIndex at h
  split at h
  · simp at h
  · simp only [Option.some.injEq] at h
    subst h
    exact hs
  · rename_i next hw
    have hmem := widget_mem s index next hw
    dsimp only at h
    split_ifs at h with hc
    · simp only [Option.some.injEq] at h
      subst h
      exact hs
    · simp only [Option.some.injEq] at h
      subst h
      obtain ⟨hl, hp, hm⟩ := hs
      cases hcur : s.m_CurrentWidget with
      | none =>
        rw [hcur] at hl
        simp only [Option.toList, List.map_nil] at hl
        rw [takeSlot1_none s hl]
        simp only [currentWidget, hcur]
        refine ⟨?_, ?_, ?_⟩
        · simp [addWidget, hl]
        · intro w hw
          have := hp w hw
          simp only [addWidget, hcur] at this ⊢
          by_cases hwn : w = next
          · simp [hwn]
          · simp only [hwn, if_false, Option.some.injEq]
            constructor
            · intro h1
              simp [h1] at this
            · intro h1
              exact absurd h1.symm hwn
        · intro w hw
          simp only [Option.some.injEq] at hw
          subst hw
          exact hmem
      | some p =>
        rw [hcur] at hl
        simp only [Option.toList, List.map_cons, List.map_nil] at hl
        rw [takeSlot1_some s p hl]
        simp only [currentWidget, hcur]
        refine ⟨?_, ?_, ?_⟩
        · simp [addWidget, hide]
        · intro w hw
          have := hp w hw
          simp only [addWidget, hide, hcur, Option.some.injEq] at this ⊢
          by_cases hwn : w = next
          · simp [hwn]
          · simp only [hwn, if_false]
            constructor
            · intro h1
              by_cases hwp : w = p
              · simp [hwp] at h1
              · simp only [hwp, if_false] at h1
                exact absurd (this.mp h1).symm hwp
            · intro h1
              exact absurd h1.symm hwn
        · intro w hw
          simp only [Option.some.injEq] at hw
          subst hw
          exact hmem

theorem Inv.removeWidget {s : CDockAreaLayout W} (hs : Inv s) (Widget : W) :
    Inv (s.removeWidget Widget) := by
  obtain ⟨hl, hp, hm⟩ := hs
  unfold CDockAreaLayout.removeWidget
  by_cases hc : s.currentWidget = some Widget
  · have hcur : s.m_CurrentWidget = some Widget := hc
    rw [hcur] at hl
    simp only [Option.toList, List.map_cons, List.map_nil] at hl
    simp only [hc, if_true]
    rw [takeSlot1_some s Widget hl]
    refine ⟨by simp, ?_, by simp⟩
    intro w hw
    have hw2 : w ∈ s.m_Widgets := List.mem_of_mem_erase hw
    have := hp w hw2
    simp only [hcur, Option.some.injEq] at this
    simp only [reduceCtorEq, iff_false, Bool.not_eq_true]
    by_cases hwW : w = Widget
    · simp [hwW]
    · simp only [hwW, if_false]
      cases hh : s.hasParent w with
      | false => rfl
      | true => exact absurd (this.mp hh).symm hwW
  · simp only [hc, if_false]
    have hne : ∀ w, s.m_CurrentWidget = some w → w ≠ Widget := by
      intro w hw h
      apply hc
      rw [← h]
      exact hw
    split_ifs with hi
    · refine ⟨hl, ?_, ?_⟩
      · intro w hw
        exact hp w (List.mem_of_mem_erase hw)
      · intro w hw
        exact (List.mem_erase_of_ne (hne w hw)).mpr (hm w hw)
    · refine ⟨hl, ?_, ?_⟩
      · intro w hw
        exact hp w (List.mem_of_mem_erase hw)
      · intro w hw
        exact (List.mem_erase_of_ne (hne w hw)).mpr (hm w hw)

theorem Inv.setParentNull_fresh {s : CDockAreaLayout W} (hs : Inv s) (Widget : W)
    (hf : Widget ∉ s.m_Widgets) :
    (s.setParentNull Widget).m_ParentLayout = s.m_ParentLayout := by
  obtain ⟨hl, hp, hm⟩ := hs
  unfold CDockAreaLayout.setParentNull
  simp only
  rw [hl]
  cases hcur : s.m_CurrentWidget with
  | none => simp
  | some p =>
    have hpW : p ≠ Widget := fun h => hf (h ▸ hm p hcur)
    simp [hpW]

theorem Inv.insertBase {s : CDockAreaLayout W} (hs : Inv s) (Widget : W)
    (hf : Widget ∉ s.m_Widgets) (n : Nat) (hn : n ≤ s.m_Widgets.length) :
    Inv { m_ParentLayout := (s.setParentNull Widget).m_ParentLayout,
          m_Widgets := (s.setParentNull Widget).m_Widgets.insertIdx n Widget,
          m_CurrentIndex := (s.setParentNull Widget).m_CurrentIndex,
          m_CurrentWidget := (s.setParentNull Widget).m_CurrentWidget,
          hasParent := (s.setParentNull Widget).hasParent,
          isHidden := (s.setParentNull Widget).isHidden } := by
  have hlay := hs.setParentNull_fresh Widget hf
  obtain ⟨hl, hp, hm⟩ := hs
  refine ⟨?_, ?_, ?_⟩
  · simp only [hlay]
    exact hl
  · intro w hw
    simp only [CDockAreaLayout.setParentNull] at hw ⊢
    rw [List.mem_insertIdx hn] at hw
    by_cases hwW : w = Widget
    · subst hwW
      simp only [if_true, Bool.false_eq_true, false_iff]
      intro hc
      exact hf (hm w hc)
    · simp only [hwW, if_false]
      rcases hw with hw | hw
      · exact absurd hw hwW
      · exact hp w hw
  · intro w hw
    simp only [CDockAreaLayout.setParentNull] at hw ⊢
    rw [List.mem_insertIdx hn]
    exact Or.inr (hm w hw)

theorem Inv.insertWidget {s s' : CDockAreaLayout W} (hs : Inv s) (index : Int) (Widget : W)
    (hf : Widget ∉ s.m_Widgets) (h : s.insertWidget index Widget = some s') : Inv s' := by
  unfold CDockAreaLayout.insertWidget at h
  dsimp only at h
  generalize hidx : (if index < 0 then ((s.setParentNull Widget).m_Widgets.length : Int)
    else index) = idx at h
  have hw : (s.setParentNull Widget).m_Widgets = s.m_Widgets := rfl
  split_ifs at h with h1 h2 h3
  all_goals
    have hlen : idx.toNat ≤ s.m_Widgets.length := by
      rw [hw] at h1
      omega
    have hbase := hs.insertBase Widget hf idx.toNat hlen
  · exact hbase.setCurrentIndex _ h
  · simp only [Option.some.injEq] at h
    subst h
    exact ⟨hbase.layout, hbase.parent, hbase.mem⟩
  · simp only [Option.some.injEq] at h
    subst h
    exact hbase

omit [DecidableEq W] in
theorem Inv.init (hasParent isHidden : W → Bool) : Inv (init hasParent isHidden) :=
  ⟨rfl, by simp [CDockAreaLayout.init], by simp [CDockAreaLayout.init]⟩

theorem Inv.of_reachable {s : CDockAreaLayout W} (h : Reachable s) : Inv s := by
  induction h with
  | init hp hh => exact Inv.init hp hh
  | step c _ hf hc ih =>
    cases c with
    | insertWidget index Widget => exact ih.insertWidget index Widget hf hc
    | removeWidget Widget =>
      simp only [call, Option.some.injEq] at hc
      subst hc
      exact ih.removeWidget Widget
    | setCurrentIndex index => exact ih.setCurrentIndex index hc

theorem setCurrentIndex_isSome (s : CDockAreaLayout W) (index : Int) (h : 0 ≤ index) :
    (s.setCurrentIndex index).isSome = true := by
  simp only [CDockAreaLayout.setCurrentIndex]
  have := s.widget_isSome_of_nonneg index h
  split
  · rename_i hn
    rw [hn] at this
    simp at this
  · rfl
  · split_ifs <;> rfl

theorem insertWidget_isSome (s : CDockAreaLayout W) (index : Int) (Widget : W)
    (h : index ≤ s.count) : (s.insertWidget index Widget).isSome = true := by
  simp only [count] at h
  unfold CDockAreaLayout.insertWidget
  dsimp only
  have hw : (s.setParentNull Widget).m_Widgets = s.m_Widgets := rfl
  rw [hw]
  generalize hidx : (if index < 0 then (s.m_Widgets.length : Int) else index) = idx
  have h0 : 0 ≤ idx := by
    rw [← hidx]
    split_ifs <;> omega
  have h1 : ¬ idx > s.m_Widgets.length := by
    rw [← hidx]
    split_ifs <;> omega
  simp only [h1, if_false]
  split_ifs
  · exact setCurrentIndex_isSome _ idx h0
  · rfl
  · rfl

theorem call_isSome_of_inRange (s : CDockAreaLayout W) (c : Call W) (h : Call.InRange s c) :
    (s.call c).isSome = true := by
  cases c with
  | insertWidget index Widget => exact s.insertWidget_isSome index Widget h
  | removeWidget Widget => rfl
  | setCurrentIndex index => exact s.setCurrentIndex_isSome index h

/-- C1: in every state that a sequence of `insertWidget`, `removeWidget` and `setCurrentIndex`
calls with pairwise distinct widgets reaches from the layout as constructed (parent layout: the
title bar only), the parent layout is the title bar followed by the current widget, if there is
one, and by nothing else, so it holds at most one content widget; a widget of the layout has a
parent exactly when it is the current widget; and every further call with an index in the range of
the widget list completes. -/
theorem C1_only_current_widget_in_parent_layout (s : CDockAreaLayout W) (h : Reachable s) :
    s.m_ParentLayout = LayoutItem.titleBar :: (s.currentWidget.toList.map LayoutItem.content)
    ∧ (s.m_ParentLayout.filter (fun it => decide (it ≠ LayoutItem.titleBar))).length ≤ 1
    ∧ (∀ w, LayoutItem.content w ∈ s.m_ParentLayout →
        s.m_ParentLayout[1]? = some (LayoutItem.content w) ∧ s.currentWidget = some w)
    ∧ (∀ w ∈ s.m_Widgets, (s.hasParent w = true ↔ s.currentWidget = some w))
    ∧ (∀ c, Call.InRange s c → (s.call c).isSome = true) := by
  have hi := Inv.of_reachable h
  have hl := hi.layout
  refine ⟨hl, ?_, ?_, hi.parent, fun c hc => s.call_isSome_of_inRange c hc⟩
  · rw [hl]
    cases s.m_CurrentWidget <;> simp
  · intro w hw
    rw [hl] at hw ⊢
    unfold currentWidget
    cases hc : s.m_CurrentWidget with
    | none => simp [hc] at hw
    | some p =>
      simp only [hc, Option.toList, List.map_cons, List.map_nil, List.mem_cons, reduceCtorEq,
        LayoutItem.content.injEq, List.mem_nil_iff, or_false, false_or] at hw
      subst hw
      simp

theorem some_getD_of_isSome {α : Type} (o : Option α) (d : α) (h : o.isSome = true) :
    o = some (o.getD d) := by
  cases o with
  | none => simp at h
  | some x => rfl

theorem demo4_reachable : Reachable demo4 := by
  have h0 : Reachable demo0 := Reachable.init _ _
  have f1 : (7 : Nat) ∉ demo0.m_Widgets := by
    rw [show demo0.m_Widgets = [] from rfl]
    decide
  have e1 : demo0.insertWidget 0 7 = some demo1 := some_getD_of_isSome _ demo0 (by decide)
  have c1 : demo0.call (Call.insertWidget 0 7) = some demo1 := e1
  have h1 : Reachable demo1 := Reachable.step (Call.insertWidget 0 7) h0 f1 c1
  have f2 : (8 : Nat) ∉ demo1.m_Widgets := by
    rw [show demo1.m_Widgets = [7] from rfl]
    decide
  have e2 : demo1.insertWidget (-1) 8 = some demo2 := some_getD_of_isSome _ demo0 (by decide)
  have c2 : demo1.call (Call.insertWidget (-1) 8) = some demo2 := e2
  have h2 : Reachable demo2 := Reachable.step (Call.insertWidget (-1) 8) h1 f2 c2
  have e3 : demo2.setCurrentIndex 1 = some demo3 := some_getD_of_isSome _ demo0 (by decide)
  have c3 : demo2.call (Call.setCurrentIndex 1) = some demo3 := e3
  have h3 : Reachable demo3 := Reachable.step (Call.setCurrentIndex 1) h2 trivial c3
  exact Reachable.step (Call.removeWidget 7) h3 trivial rfl

/-- C1 at the layout reached by `insertWidget(0, 7)`, `insertWidget(-1, 8)`,
`setCurrentIndex(1)`, `removeWidget(7)`: widget 8 is the current one, and the only one in the
parent layout. -/
theorem C1_only_current_widget_in_parent_layout_witness :
    Reachable demo4
    ∧ demo4.currentWidget = some 8
    ∧ demo4.m_ParentLayout = [LayoutItem.titleBar, LayoutItem.content 8]
    ∧ (demo4.m_ParentLayout
        = LayoutItem.titleBar :: (demo4.currentWidget.toList.map LayoutItem.content)
      ∧ (demo4.m_ParentLayout.filter (fun it => decide (it ≠ LayoutItem.titleBar))).length ≤ 1
      ∧ (∀ w, LayoutItem.content w ∈ demo4.m_ParentLayout →
          demo4.m_ParentLayout[1]? = some (LayoutItem.content w) ∧ demo4.currentWidget = some w)
      ∧ (∀ w ∈ demo4.m_Widgets, (demo4.hasParent w = true ↔ demo4.currentWidget = some w))
      ∧ (∀ c, Call.InRange demo4 c → (demo4.call c).isSome = true)) :=
  ⟨demo4_reachable, rfl, rfl, C1_only_current_widget_in_parent_layout demo4 demo4_reachable⟩

end CDockAreaLayout

end ads

/-! ## Theorems about `CDockAreaWidget::setCurrentIndex` -/

namespace ads

namespace CDockAreaLayout

variable {W : Type} [DecidableEq W]

omit [DecidableEq W] in
theorem widget_eq_some_iff (s : CDockAreaLayout W) (index : Int) (w : W) :
    s.widget index = some (some w) ↔
      0 ≤ index ∧ index < s.count ∧ s.m_Widgets[index.toNat]? = some w := by
  unfold widget count
  constructor
  · intro h
    split_ifs at h with h1 h2
    · simp only [Option.some.injEq] at h
      exact ⟨h2, h1, h⟩
    · simp at h
  · rintro ⟨h0, h1, h2⟩
    simp [h0, h1, h2]

omit [DecidableEq W] in
theorem widget_inj (s : CDockAreaLayout W) (hn : s.m_Widgets.Nodup) (i j : Int) (w : W)
    (hi : s.widget i = some (some w)) (hj : s.widget j = some (some w)) : i = j := by
  rw [widget_eq_some_iff] at hi hj
  obtain ⟨hi0, hi1, hi2⟩ := hi
  obtain ⟨hj0, hj1, hj2⟩ := hj
  unfold count at hi1 hj1
  have : i.toNat = j.toNat :=
    List.getElem?_inj (by omega) hn (hi2.trans hj2.symm)
  omega

theorem takeSlot1_m_Widgets (s : CDockAreaLayout W) : s.takeSlot1.m_Widgets = s.m_Widgets := by
  unfold takeSlot1
  dsimp only
  split <;> rfl

theorem setCurrentIndex_of_widget (s : CDockAreaLayout W) (index : Int) (w : W)
    (h : s.widget index = some (some w)) :
    ∃ l, s.setCurrentIndex index = some l ∧ l.m_CurrentIndex = index
      ∧ l.m_CurrentWidget = some w ∧ l.m_Widgets = s.m_Widgets := by
  unfold CDockAreaLayout.setCurrentIndex
  simp only [h]
  split_ifs with hc
  · exfalso
    obtain ⟨h1, h2⟩ := hc
    unfold currentWidget at h1
    rw [h2] at h1
    simp at h1
  · refine ⟨_, rfl, rfl, rfl, ?_⟩
    cases hp : s.currentWidget <;> exact s.takeSlot1_m_Widgets

end CDockAreaLayout

namespace CDockAreaWidget

variable {W : Type} [DecidableEq W]

/-- C2: in a dock area whose layout is in a consistent state and whose tab bar has as many tabs
as the layout has widgets (`n`), `setCurrentIndex(index)` with `0 <= index < n` completes, and
afterwards `currentIndex()` is `index`, `currentDockWidget()` is `dockWidget(index)`, a dock
widget, the widget list is the one before the call, and `dockWidget(j)` is the current dock widget
for `j = index` and for no other `j`; with `index < 0` or `index >= n` the call leaves the dock
area as it is. -/
theorem C2_setCurrentIndex_selects_index (a : CDockAreaWidget W)
    (hc : a.ContentsLayout.Consistent) (hn : a.tabCount = a.dockWidgetsCount) (index : Int) :
    (0 ≤ index → index < a.dockWidgetsCount →
      ∃ a' w, a.setCurrentIndex index = some a'
        ∧ a'.currentIndex = index
        ∧ a'.dockWidget index = some (some w)
        ∧ a'.currentDockWidget = a'.dockWidget index
        ∧ a'.ContentsLayout.m_Widgets = a.ContentsLayout.m_Widgets
        ∧ a'.dockWidgetsCount = a.dockWidgetsCount
        ∧ ∀ j, a'.dockWidget j = a'.currentDockWidget ↔ j = index)
    ∧ ((index < 0 ∨ a.dockWidgetsCount ≤ index) → a.setCurrentIndex index = some a) := by
  constructor
  · intro h0 h1
    obtain ⟨w, hw1, hw⟩ := a.ContentsLayout.widget_of_range index h0 h1
    have hcond : ¬ (index < 0 ∨ index > a.tabCount - 1) := by
      rw [hn]
      omega
    -- the facts about a state with current index `index` and the widget list of `a`
    have key : ∀ a' : CDockAreaWidget W,
        a'.ContentsLayout.m_Widgets = a.ContentsLayout.m_Widgets →
        a'.ContentsLayout.m_CurrentIndex = index →
        a'.currentDockWidget = some (some w)
        ∧ a'.currentIndex = index
        ∧ a'.dockWidget index = some (some w)
        ∧ a'.currentDockWidget = a'.dockWidget index
        ∧ a'.ContentsLayout.m_Widgets = a.ContentsLayout.m_Widgets
        ∧ a'.dockWidgetsCount = a.dockWidgetsCount
        ∧ ∀ j, a'.dockWidget j = a'.currentDockWidget ↔ j = index := by
      intro a' hW hI
      have hw' : a'.ContentsLayout.widget index = some (some w) := by
        rw [CDockAreaLayout.widget_eq_some_iff] at hw ⊢
        unfold CDockAreaLayout.count at hw ⊢
        rw [hW]
        exact hw
      have hcur : a'.currentDockWidget = some (some w) := by
        unfold currentDockWidget currentIndex CDockAreaLayout.currentIndex dockWidget
        rw [hI]
        simp only [not_lt.mpr h0, if_false]
        exact hw'
      refine ⟨hcur, hI, hw', ?_, hW, ?_, ?_⟩
      · rw [hcur]
        exact hw'.symm
      · unfold dockWidgetsCount CDockAreaLayout.count
        rw [hW]
      · intro j
        rw [hcur]
        constructor
        · intro hj
          have hnd : a'.ContentsLayout.m_Widgets.Nodup := by
            rw [hW]
            exact hc.nodup
          exact a'.ContentsLayout.widget_inj hnd j index w hj hw'
        · intro hj
          rw [hj]
          exact hw'
    unfold setCurrentIndex
    simp only [hcond, if_false, hw]
    by_cases hcw : a.ContentsLayout.currentWidget = some w
    · cases hh : a.ContentsLayout.isHidden w with
      | false =>
        simp only [hcw, if_true, hh, Bool.not_false]
        refine ⟨a, w, rfl, ?_⟩
        apply (key a rfl _).2
        have := hc.index_some w hcw
        exact a.ContentsLayout.widget_inj hc.nodup _ _ w
          ((CDockAreaLayout.widget_eq_some_iff _ _ _).mpr
            ⟨this.1, by
              have h2 := this.2
              have := (List.getElem?_eq_some_iff.mp h2).1
              unfold CDockAreaLayout.count
              omega, this.2⟩) hw
      | true =>
        simp only [hcw, if_true, hh, Bool.not_true]
        obtain ⟨l, hl, hl1, hl2, hl3⟩ := a.ContentsLayout.setCurrentIndex_of_widget index w hw
        simp only [hl, CDockAreaLayout.currentWidget, hl2]
        obtain ⟨hcur, hk⟩ :=
          key { a with tabCurrentIndex := index, ContentsLayout := l.showWidget w } hl3 hl1
        simp only [hcur]
        exact ⟨_, w, rfl, hk⟩
    · have hne : ¬ (a.ContentsLayout.currentWidget = some w) := hcw
      simp only [hne, if_false]
      obtain ⟨l, hl, hl1, hl2, hl3⟩ := a.ContentsLayout.setCurrentIndex_of_widget index w hw
      simp only [hl, CDockAreaLayout.currentWidget, hl2]
      obtain ⟨hcur, hk⟩ :=
        key { a with tabCurrentIndex := index, ContentsLayout := l.showWidget w } hl3 hl1
      simp only [hcur]
      exact ⟨_, w, rfl, hk⟩
  · intro h
    unfold setCurrentIndex
    have hcond : index < 0 ∨ index > a.tabCount - 1 := by
      rw [hn]
      omega
    simp only [hcond, if_true]

theorem demoArea_consistent : demoArea.ContentsLayout.Consistent := by
  have hw : demoArea.ContentsLayout.m_Widgets = [7, 8] := by decide
  have hi : demoArea.ContentsLayout.m_CurrentIndex = 1 := by decide
  have hc : demoArea.ContentsLayout.m_CurrentWidget = some 8 := by decide
  refine ⟨?_, ?_, ?_⟩
  · rw [hw]
    decide
  · rw [hc]
    intro h
    cases h
  · intro w h
    rw [hc] at h
    cases h
    rw [hi, hw]
    decide

/-- C2 at the dock area with the dock widgets 7 and 8 and current index 1: `setCurrentIndex(0)`
makes widget 7 the current one, `setCurrentIndex(2)` and `setCurrentIndex(-1)` change nothing. -/
theorem C2_setCurrentIndex_selects_index_witness :
    demoArea.ContentsLayout.Consistent
    ∧ demoArea.tabCount = demoArea.dockWidgetsCount
    ∧ demoArea.currentIndex = 1
    ∧ (∃ a' w, demoArea.setCurrentIndex 0 = some a'
        ∧ a'.currentIndex = 0
        ∧ a'.dockWidget 0 = some (some w)
        ∧ a'.currentDockWidget = a'.dockWidget 0
        ∧ a'.ContentsLayout.m_Widgets = demoArea.ContentsLayout.m_Widgets
        ∧ a'.dockWidgetsCount = demoArea.dockWidgetsCount
        ∧ ∀ j, a'.dockWidget j = a'.currentDockWidget ↔ j = 0)
    ∧ demoArea.setCurrentIndex 2 = some demoArea
    ∧ demoArea.setCurrentIndex (-1) = some demoArea :=
  ⟨demoArea_consistent, by decide, by decide,
    (C2_setCurrentIndex_selects_index demoArea demoArea_consistent (by decide) 0).1
      (by decide) (by decide),
    (C2_setCurrentIndex_selects_index demoArea demoArea_consistent (by decide) 2).2
      (Or.inr (by decide)),
    (C2_setCurrentIndex_selects_index demoArea demoArea_consistent (by decide) (-1)).2
      (Or.inl (by decide))⟩

end CDockAreaWidget

end ads

/-! ## The layout keeps its widget list, current index and current widget consistent -/

namespace ads

namespace CDockAreaLayout

variable {W : Type} [DecidableEq W]

omit [DecidableEq W] in
theorem getElem?_insertIdx_self (x : W) :
    ∀ (n : Nat) (l : List W), n ≤ l.length → (l.insertIdx n x)[n]? = some x
  | 0, l, _ => by simp
  | n + 1, [], h => by simp at h
  | n + 1, a :: t, h => by
    simp only [List.insertIdx_succ_cons, List.getElem?_cons_succ]
    exact getElem?_insertIdx_self x n t (by simpa using h)

omit [DecidableEq W] in
theorem getElem?_insertIdx_lt (x : W) :
    ∀ (n k : Nat) (l : List W), k < n → n ≤ l.length → (l.insertIdx n x)[k]? = l[k]?
  | 0, k, l, h, _ => by omega
  | n + 1, k, [], _, h => by simp at h
  | n + 1, 0, a :: t, _, _ => by simp
  | n + 1, k + 1, a :: t, hk, h => by
    simp only [List.insertIdx_succ_cons, List.getElem?_cons_succ]
    exact getElem?_insertIdx_lt x n k t (by omega) (by simpa using h)

omit [DecidableEq W] in
theorem getElem?_insertIdx_ge (x : W) :
    ∀ (n k : Nat) (l : List W), n ≤ k → n ≤ l.length → (l.insertIdx n x)[k + 1]? = l[k]?
  | 0, k, l, _, _ => by simp
  | n + 1, k, [], _, h => by simp at h
  | n + 1, 0, a :: t, hk, _ => by omega
  | n + 1, k + 1, a :: t, hk, h => by
    simp only [List.insertIdx_succ_cons, List.getElem?_cons_succ]
    exact getElem?_insertIdx_ge x n k t (by omega) (by simpa using h)

omit [DecidableEq W] in
theorem nodup_insertIdx (x : W) (n : Nat) (l : List W) (hn : n ≤ l.length) (hx : x ∉ l)
    (hl : l.Nodup) : (l.insertIdx n x).Nodup :=
  (List.perm_insertIdx x l hn).nodup_iff.mpr (List.nodup_cons.mpr ⟨hx, hl⟩)

theorem getElem?_erase (x : W) :
    ∀ (l : List W) (k : Nat), x ∈ l →
      (l.erase x)[k]? = if k < l.indexOf x then l[k]? else l[k + 1]?
  | [], _, h => by simp at h
  | a :: t, k, h => by
    by_cases ha : a = x
    · subst ha
      simp
    · have hx : x ∈ t := by
        rcases List.mem_cons.mp h with h1 | h1
        · exact absurd h1.symm ha
        · exact h1
      have hne : (a == x) = false := by simpa using ha
      rw [List.erase_cons, List.indexOf_cons]
      simp only [hne, Bool.false_eq_true, if_false, cond_false]
      cases k with
      | zero => simp
      | succ k =>
        simp only [List.getElem?_cons_succ, Nat.add_lt_add_iff_right]
        exact getElem?_erase x t k hx

theorem indexOf_nonneg_of_mem (s : CDockAreaLayout W) (w : W) (h : w ∈ s.m_Widgets) :
    s.indexOf w = (s.m_Widgets.indexOf w : Int) := by
  simp [indexOf, h]

omit [DecidableEq W] in
theorem Consistent.of_init (hasParent isHidden : W → Bool) :
    Consistent (init hasParent isHidden) :=
  ⟨List.nodup_nil, fun _ => rfl, fun w h => by simp [CDockAreaLayout.init] at h⟩

theorem Consistent.of_setCurrentIndex {s s' : CDockAreaLayout W} (hs : Consistent s) (index : Int)
    (h : s.setCurrentIndex index = some s') : Consistent s' := by
  cases hw : s.widget index with
  | none => simp [CDockAreaLayout.setCurrentIndex, hw] at h
  | some o =>
    cases o with
    | none =>
      simp only [CDockAreaLayout.setCurrentIndex, hw, Option.some.injEq] at h
      subst h
      exact hs
    | some w =>
      obtain ⟨l, hl, hl1, hl2, hl3⟩ := s.setCurrentIndex_of_widget index w hw
      rw [hl] at h
      simp only [Option.some.injEq] at h
      subst h
      obtain ⟨h0, _, hget⟩ := (widget_eq_some_iff s index w).mp hw
      refine ⟨by rw [hl3]; exact hs.nodup, ?_, ?_⟩
      · intro hc
        rw [hl2] at hc
        cases hc
      · intro w' hc
        rw [hl2] at hc
        simp only [Option.some.injEq] at hc
        subst hc
        rw [hl1, hl3]
        exact ⟨h0, hget⟩

theorem Consistent.of_removeWidget {s : CDockAreaLayout W} (hs : Consistent s) (Widget : W)
    (hmem : Widget ∈ s.m_Widgets) : Consistent (s.removeWidget Widget) := by
  obtain ⟨hnd, hnone, hsome⟩ := hs
  unfold CDockAreaLayout.removeWidget
  by_cases hc : s.currentWidget = some Widget
  · simp only [hc, if_true]
    refine ⟨?_, fun _ => rfl, fun w h => by cases h⟩
    show (s.takeSlot1.m_Widgets.erase Widget).Nodup
    rw [takeSlot1_m_Widgets]
    exact hnd.erase Widget
  · simp only [hc, if_false]
    have hidx := s.indexOf_nonneg_of_mem Widget hmem
    have hlt : s.m_Widgets.indexOf Widget < s.m_Widgets.length := List.indexOf_lt_length.mpr hmem
    have hgetW : s.m_Widgets[s.m_Widgets.indexOf Widget]? = some Widget :=
      List.getElem?_indexOf hmem
    split_ifs with hi
    · rw [hidx] at hi
      refine ⟨hnd.erase Widget, ?_, ?_⟩
      · intro hcn
        have := hnone hcn
        omega
      · intro w hcw
        obtain ⟨h0, hget⟩ := hsome w hcw
        refine ⟨show 0 ≤ s.m_CurrentIndex - 1 by omega, ?_⟩
        show (s.m_Widgets.erase Widget)[(s.m_CurrentIndex - 1).toNat]? = some w
        rw [getElem?_erase Widget _ _ hmem]
        have h1 : ¬ (s.m_CurrentIndex - 1).toNat < s.m_Widgets.indexOf Widget := by omega
        have h2 : (s.m_CurrentIndex - 1).toNat + 1 = s.m_CurrentIndex.toNat := by omega
        simp only [h1, if_false, h2]
        exact hget
    · rw [hidx] at hi
      refine ⟨hnd.erase Widget, hnone, ?_⟩
      intro w hcw
      obtain ⟨h0, hget⟩ := hsome w hcw
      refine ⟨h0, ?_⟩
      show (s.m_Widgets.erase Widget)[s.m_CurrentIndex.toNat]? = some w
      rw [getElem?_erase Widget _ _ hmem]
      have hne : s.m_CurrentIndex.toNat ≠ s.m_Widgets.indexOf Widget := by
        intro heq
        rw [heq, hgetW] at hget
        simp only [Option.some.injEq] at hget
        apply hc
        unfold currentWidget
        rw [hcw, hget]
      have h1 : s.m_CurrentIndex.toNat < s.m_Widgets.indexOf Widget := by omega
      simp only [h1, if_true]
      exact hget

theorem Consistent.of_insertWidget {s s' : CDockAreaLayout W} (hs : Consistent s) (index : Int)
    (Widget : W) (hf : Widget ∉ s.m_Widgets) (hr : index ≤ s.count)
    (h : s.insertWidget index Widget = some s') : Consistent s' := by
  obtain ⟨hnd, hnone, hsome⟩ := hs
  unfold count at hr
  unfold CDockAreaLayout.insertWidget at h
  dsimp only at h
  have hw : (s.setParentNull Widget).m_Widgets = s.m_Widgets := rfl
  have hci : (s.setParentNull Widget).m_CurrentIndex = s.m_CurrentIndex := rfl
  have hcw : (s.setParentNull Widget).m_CurrentWidget = s.m_CurrentWidget := rfl
  rw [hw, hci] at h
  generalize hidx : (if index < 0 then (s.m_Widgets.length : Int) else index) = idx at h
  have h0 : 0 ≤ idx := by
    rw [← hidx]
    split_ifs <;> omega
  have h1 : idx ≤ s.m_Widgets.length := by
    rw [← hidx]
    split_ifs <;> omega
  have hn : idx.toNat ≤ s.m_Widgets.length := by omega
  have hnd' : (s.m_Widgets.insertIdx idx.toNat Widget).Nodup :=
    nodup_insertIdx Widget _ _ hn hf hnd
  simp only [not_lt.mpr h1, gt_iff_lt, if_false] at h
  split_ifs at h with hneg hle
  · -- no current widget: the new widget becomes the current one
    have hwid : CDockAreaLayout.widget
        { s.setParentNull Widget with
          m_Widgets := s.m_Widgets.insertIdx idx.toNat Widget } idx = some (some Widget) := by
      rw [widget_eq_some_iff]
      refine ⟨h0, ?_, getElem?_insertIdx_self Widget _ _ hn⟩
      unfold count
      simp only [List.length_insertIdx _ _ hn]
      omega
    obtain ⟨l, hl, hl1, hl2, hl3⟩ := setCurrentIndex_of_widget _ idx Widget hwid
    have hls : some l = some s' := hl.symm.trans h
    simp only [Option.some.injEq] at hls
    subst hls
    refine ⟨by rw [hl3]; exact hnd', ?_, ?_⟩
    · intro hc
      rw [hl2] at hc
      cases hc
    · intro w hc
      rw [hl2] at hc
      simp only [Option.some.injEq] at hc
      subst hc
      rw [hl1, hl3]
      exact ⟨h0, getElem?_insertIdx_self _ _ _ hn⟩
  · simp only [Option.some.injEq] at h
    subst h
    refine ⟨hnd', ?_, ?_⟩
    · intro hc
      have := hnone hc
      omega
    · intro w hc
      obtain ⟨hc0, hget⟩ := hsome w hc
      refine ⟨show 0 ≤ s.m_CurrentIndex + 1 by omega, ?_⟩
      show (s.m_Widgets.insertIdx idx.toNat Widget)[(s.m_CurrentIndex + 1).toNat]? = some w
      have : (s.m_CurrentIndex + 1).toNat = s.m_CurrentIndex.toNat + 1 := by omega
      rw [this, getElem?_insertIdx_ge Widget _ _ _ (by omega) hn]
      exact hget
  · simp only [Option.some.injEq] at h
    subst h
    refine ⟨hnd', hnone, ?_⟩
    intro w hc
    obtain ⟨hc0, hget⟩ := hsome w hc
    refine ⟨hc0, ?_⟩
    show (s.m_Widgets.insertIdx idx.toNat Widget)[s.m_CurrentIndex.toNat]? = some w
    rw [getElem?_insertIdx_lt Widget _ _ _ (by omega) hn]
    exact hget

/-- Every state that valid calls reach from the layout as constructed is consistent. -/
theorem Consistent.of_validReachable {s : CDockAreaLayout W} (h : ValidReachable s) :
    Consistent s := by
  induction h with
  | init hp hh => exact Consistent.of_init hp hh
  | step c _ hv hc ih =>
    cases c with
    | insertWidget index Widget => exact ih.of_insertWidget index Widget hv.1 hv.2 hc
    | removeWidget Widget =>
      simp only [call, Option.some.injEq] at hc
      subst hc
      exact ih.of_removeWidget Widget hv
    | setCurrentIndex index => exact ih.of_setCurrentIndex index hc

end CDockAreaLayout

end ads

/-! ## Theorems about the members of `CDockAreaLayout` -/

namespace ads

namespace CDockAreaLayout

variable {W : Type} [DecidableEq W]

theorem call_isSome_of_valid (s : CDockAreaLayout W) (c : Call W) (h : Call.Valid s c) :
    (s.call c).isSome = true := by
  cases c with
  | insertWidget index Widget => exact s.insertWidget_isSome index Widget h.2
  | removeWidget Widget => rfl
  | setCurrentIndex index => exact s.setCurrentIndex_isSome index h

/-- C15: in every state that a layout reaches from the empty layout by `insertWidget` (index
negative or at most `count()`, widget not in the layout yet), `removeWidget` of a contained
widget and `setCurrentIndex`, `currentIndex()` is `-1` exactly when `currentWidget()` is null,
`currentIndex()` is `-1` or not negative, and a `currentIndex()` that is not negative is less
than `count()` and `widget(currentIndex())` is `currentWidget()`; every such call completes. -/
theorem C15_current_index_matches_current_widget (s : CDockAreaLayout W)
    (h : ValidReachable s) :
    (s.currentIndex = -1 ↔ s.currentWidget = none)
    ∧ (s.currentIndex = -1 ∨ 0 ≤ s.currentIndex)
    ∧ (0 ≤ s.currentIndex →
        s.currentIndex < s.count ∧ s.widget s.currentIndex = some s.currentWidget)
    ∧ (∀ c, Call.Valid s c → (s.call c).isSome = true) := by
  obtain ⟨_, hnone, hsome⟩ := Consistent.of_validReachable h
  unfold currentIndex currentWidget
  refine ⟨⟨?_, hnone⟩, ?_, ?_, fun c hc => s.call_isSome_of_valid c hc⟩
  · intro hi
    cases hc : s.m_CurrentWidget with
    | none => rfl
    | some w =>
      have := (hsome w hc).1
      omega
  · cases hc : s.m_CurrentWidget with
    | none => exact Or.inl (hnone hc)
    | some w => exact Or.inr (hsome w hc).1
  · intro h0
    cases hc : s.m_CurrentWidget with
    | none =>
      have := hnone hc
      omega
    | some w =>
      obtain ⟨_, hget⟩ := hsome w hc
      have hw : s.widget s.m_CurrentIndex = some (some w) :=
        (widget_eq_some_iff s _ w).mpr ⟨h0, by
          have := (List.getElem?_eq_some_iff.mp hget).1
          unfold count
          omega, hget⟩
      exact ⟨((widget_eq_some_iff s _ w).mp hw).2.1, hw⟩

theorem demo4_validReachable : ValidReachable demo4 := by
  have h0 : ValidReachable demo0 := ValidReachable.init _ _
  have w0 : demo0.m_Widgets = [] := rfl
  have v1 : Call.Valid demo0 (Call.insertWidget 0 7) := by
    refine ⟨?_, by decide⟩
    rw [w0]
    decide
  have e1 : demo0.insertWidget 0 7 = some demo1 := some_getD_of_isSome _ demo0 (by decide)
  have c1 : demo0.call (Call.insertWidget 0 7) = some demo1 := e1
  have h1 : ValidReachable demo1 := ValidReachable.step (Call.insertWidget 0 7) h0 v1 c1
  have w1 : demo1.m_Widgets = [7] := by decide
  have v2 : Call.Valid demo1 (Call.insertWidget (-1) 8) := by
    refine ⟨?_, by decide⟩
    rw [w1]
    decide
  have e2 : demo1.insertWidget (-1) 8 = some demo2 := some_getD_of_isSome _ demo0 (by decide)
  have c2 : demo1.call (Call.insertWidget (-1) 8) = some demo2 := e2
  have h2 : ValidReachable demo2 := ValidReachable.step (Call.insertWidget (-1) 8) h1 v2 c2
  have v3 : Call.Valid demo2 (Call.setCurrentIndex 1) := by
    show (0 : Int) ≤ 1
    decide
  have e3 : demo2.setCurrentIndex 1 = some demo3 := some_getD_of_isSome _ demo0 (by decide)
  have c3 : demo2.call (Call.setCurrentIndex 1) = some demo3 := e3
  have h3 : ValidReachable demo3 := ValidReachable.step (Call.setCurrentIndex 1) h2 v3 c3
  have w3 : demo3.m_Widgets = [7, 8] := by decide
  have v4 : Call.Valid demo3 (Call.removeWidget 7) := by
    show (7 : Nat) ∈ demo3.m_Widgets
    rw [w3]
    decide
  exact ValidReachable.step (Call.removeWidget 7) h3 v4 rfl

/-- C15 at the layout reached by `insertWidget(0, 7)`, `insertWidget(-1, 8)`,
`setCurrentIndex(1)`, `removeWidget(7)`: the current index is 0 and widget 8 is current. -/
theorem C15_current_index_matches_current_widget_witness :
    ValidReachable demo4
    ∧ demo4.currentIndex = 0
    ∧ demo4.currentWidget = some 8
    ∧ ((demo4.currentIndex = -1 ↔ demo4.currentWidget = none)
      ∧ (demo4.currentIndex = -1 ∨ 0 ≤ demo4.currentIndex)
      ∧ (0 ≤ demo4.currentIndex →
          demo4.currentIndex < demo4.count
          ∧ demo4.widget demo4.currentIndex = some demo4.currentWidget)
      ∧ (∀ c, Call.Valid demo4 c → (demo4.call c).isSome = true)) :=
  ⟨demo4_validReachable, by decide, by decide,
    C15_current_index_matches_current_widget demo4 demo4_validReachable⟩

theorem erase_insertIdx_of_not_mem (x : W) :
    ∀ (n : Nat) (l : List W), n ≤ l.length → x ∉ l → (l.insertIdx n x).erase x = l
  | 0, l, _, _ => by simp
  | n + 1, [], h, _ => by simp at h
  | n + 1, a :: t, h, hx => by
    have hax : a ≠ x := fun e => hx (e ▸ List.mem_cons_self a t)
    have hxt : x ∉ t := fun e => hx (List.mem_cons_of_mem a e)
    have hne : (a == x) = false := by simpa using hax
    rw [List.insertIdx_succ_cons, List.erase_cons]
    simp only [hne, Bool.false_eq_true, if_false]
    rw [erase_insertIdx_of_not_mem x n t (by simpa using h) hxt]

/-- The widget list and the current widget after `insertWidget` on a consistent layout. -/
theorem insertWidget_of_consistent (s : CDockAreaLayout W) (hc : Consistent s) (Widget : W)
    (index : Int) (hr : index ≤ s.count) :
    ∃ s', s.insertWidget index Widget = some s'
      ∧ s'.m_Widgets
          = s.m_Widgets.insertIdx (if index < 0 then s.count else index).toNat Widget
      ∧ (s.m_CurrentWidget = none → s'.m_CurrentWidget = some Widget)
      ∧ (∀ w, s.m_CurrentWidget = some w → s'.m_CurrentWidget = some w) := by
  obtain ⟨_, hnone, hsome⟩ := hc
  unfold count at hr ⊢
  unfold CDockAreaLayout.insertWidget
  dsimp only
  have hw : (s.setParentNull Widget).m_Widgets = s.m_Widgets := rfl
  have hci : (s.setParentNull Widget).m_CurrentIndex = s.m_CurrentIndex := rfl
  rw [hw, hci]
  generalize hidx : (if index < 0 then (s.m_Widgets.length : Int) else index) = idx
  have h0 : 0 ≤ idx := by
    rw [← hidx]
    split_ifs <;> omega
  have h1 : idx ≤ s.m_Widgets.length := by
    rw [← hidx]
    split_ifs <;> omega
  have hn : idx.toNat ≤ s.m_Widgets.length := by omega
  simp only [not_lt.mpr h1, gt_iff_lt, if_false]
  split_ifs with hneg hle
  · have hcur : s.m_CurrentWidget = none := by
      cases hcw : s.m_CurrentWidget with
      | none => rfl
      | some w =>
        have := (hsome w hcw).1
        omega
    have hwid : CDockAreaLayout.widget
        { s.setParentNull Widget with
          m_Widgets := s.m_Widgets.insertIdx idx.toNat Widget } idx = some (some Widget) := by
      rw [widget_eq_some_iff]
      refine ⟨h0, ?_, getElem?_insertIdx_self Widget _ _ hn⟩
      unfold count
      simp only [List.length_insertIdx _ _ hn]
      omega
    obtain ⟨l, hl, _, hl2, hl3⟩ := setCurrentIndex_of_widget _ idx Widget hwid
    refine ⟨l, hl, hl3, fun _ => hl2, ?_⟩
    intro w hcw
    rw [hcur] at hcw
    cases hcw
  · refine ⟨_, rfl, rfl, ?_, fun w hcw => hcw⟩
    intro hcn
    have := hnone hcn
    omega
  · refine ⟨_, rfl, rfl, ?_, fun w hcw => hcw⟩
    intro hcn
    have := hnone hcn
    omega

/-- C18: on a consistent layout with `n` widgets and a widget `Widget` that is not in it,
`insertWidget(index, Widget)` with `index <= n` completes; afterwards there are `n + 1`
widgets, `Widget` is at position `index` (at position `n`, the end, for a negative `index`),
removing it gives back the former list, so the former widgets are in their former order; if
there was no current widget, `Widget` is the current widget, otherwise the current widget is the
one before. -/
theorem C18_insertWidget_inserts_at_index (s : CDockAreaLayout W) (hc : Consistent s)
    (Widget : W) (hf : Widget ∉ s.m_Widgets) (index : Int) (hr : index ≤ s.count) :
    ∃ s', s.insertWidget index Widget = some s'
      ∧ s'.count = s.count + 1
      ∧ s'.widget (if index < 0 then s.count else index) = some (some Widget)
      ∧ s'.m_Widgets
          = s.m_Widgets.insertIdx (if index < 0 then s.count else index).toNat Widget
      ∧ s'.m_Widgets.eraseIdx (if index < 0 then s.count else index).toNat = s.m_Widgets
      ∧ s'.m_Widgets.erase Widget = s.m_Widgets
      ∧ (index < 0 → s'.m_Widgets = s.m_Widgets ++ [Widget])
      ∧ (s.currentWidget = none → s'.currentWidget = some Widget)
      ∧ (s.currentWidget ≠ none → s'.currentWidget = s.currentWidget) := by
  obtain ⟨s', hs', hl, hcn, hcs⟩ := insertWidget_of_consistent s hc Widget index hr
  have h0 : 0 ≤ (if index < 0 then s.count else index) := by
    unfold count
    split_ifs <;> omega
  have h1 : (if index < 0 then s.count else index).toNat ≤ s.m_Widgets.length := by
    unfold count at hr ⊢
    split_ifs <;> omega
  refine ⟨s', hs', ?_, ?_, hl, ?_, ?_, ?_, hcn, ?_⟩
  · unfold count
    rw [hl, List.length_insertIdx _ _ h1]
    rfl
  · rw [widget_eq_some_iff]
    refine ⟨h0, ?_, ?_⟩
    · show (if index < 0 then s.count else index) < (s'.m_Widgets.length : Int)
      rw [hl, List.length_insertIdx _ _ h1]
      omega
    · rw [hl]
      exact getElem?_insertIdx_self Widget _ _ h1
  · rw [hl]
    exact List.eraseIdx_insertIdx _ _
  · rw [hl]
    exact erase_insertIdx_of_not_mem Widget _ _ h1 hf
  · intro hneg
    rw [hl]
    simp only [hneg, if_true, count, Int.toNat_ofNat]
    exact List.insertIdx_length_self _ _
  · intro hne
    unfold currentWidget at hne ⊢
    cases hcw : s.m_CurrentWidget with
    | none => exact absurd hcw hne
    | some w => exact hcs w hcw

theorem demo3_consistent : Consistent demo3 := CDockAreaWidget.demoArea_consistent

/-- C18 at the layout with the widgets 7 and 8, of which 8 is current: `insertWidget(1, 9)`
puts 9 between them and leaves 8 current. -/
theorem C18_insertWidget_inserts_at_index_witness :
    Consistent demo3
    ∧ (9 : Nat) ∉ demo3.m_Widgets
    ∧ (1 : Int) ≤ demo3.count
    ∧ demo3.currentWidget = some 8
    ∧ ∃ s', demo3.insertWidget 1 9 = some s'
      ∧ s'.m_Widgets = [7, 9, 8]
      ∧ s'.count = demo3.count + 1
      ∧ s'.widget 1 = some (some 9)
      ∧ s'.currentWidget = some 8 := by
  have hw : demo3.m_Widgets = [7, 8] := by decide
  have hf : (9 : Nat) ∉ demo3.m_Widgets := by
    rw [hw]
    decide
  obtain ⟨s', h1, h2, h3, h4, _, _, _, _, h9⟩ :=
    C18_insertWidget_inserts_at_index demo3 demo3_consistent 9 hf 1 (by decide)
  refine ⟨demo3_consistent, hf, by decide, by decide, s', h1, ?_, h2, h3, ?_⟩
  · rw [h4, hw]
    rfl
  · rw [h9 (by decide)]
    decide

theorem removeWidget_m_Widgets (s : CDockAreaLayout W) (Widget : W) :
    (s.removeWidget Widget).m_Widgets = s.m_Widgets.erase Widget := by
  unfold CDockAreaLayout.removeWidget
  dsimp only
  split_ifs
  · show s.takeSlot1.m_Widgets.erase Widget = _
    rw [takeSlot1_m_Widgets]
  · rfl
  · rfl

/-- C19: on a layout with pairwise distinct widgets that contains `Widget`, after
`removeWidget(Widget)` the count is one smaller, `indexOf(Widget)` is `-1`, the widget list is
the former list without `Widget`, so the other widgets keep their order; if `Widget` was the
current widget, `currentIndex()` is `-1` and `currentWidget()` is null, otherwise
`currentWidget()` is the widget it was. -/
theorem C19_removeWidget_removes (s : CDockAreaLayout W) (hn : s.m_Widgets.Nodup)
    (Widget : W) (hm : Widget ∈ s.m_Widgets) :
    (s.removeWidget Widget).count = s.count - 1
    ∧ (s.removeWidget Widget).indexOf Widget = -1
    ∧ (s.removeWidget Widget).m_Widgets = s.m_Widgets.filter (fun w => w != Widget)
    ∧ (s.currentWidget = some Widget →
        (s.removeWidget Widget).currentIndex = -1
        ∧ (s.removeWidget Widget).currentWidget = none)
    ∧ (s.currentWidget ≠ some Widget →
        (s.removeWidget Widget).currentWidget = s.currentWidget) := by
  have hl := removeWidget_m_Widgets s Widget
  refine ⟨?_, ?_, ?_, ?_, ?_⟩
  · unfold count
    rw [hl, List.length_erase_of_mem hm]
    have : 0 < s.m_Widgets.length := List.length_pos_of_mem hm
    omega
  · unfold indexOf
    rw [hl]
    have : Widget ∉ s.m_Widgets.erase Widget := by
      intro h
      exact ((hn.mem_erase_iff).mp h).1 rfl
    simp [this]
  · rw [hl]
    exact hn.erase_eq_filter Widget
  · intro hc
    have hc' : s.m_CurrentWidget = some Widget := hc
    unfold CDockAreaLayout.removeWidget currentIndex currentWidget
    rw [if_pos hc']
    exact ⟨rfl, rfl⟩
  · intro hc
    have hc' : ¬ (s.m_CurrentWidget = some Widget) := hc
    unfold CDockAreaLayout.removeWidget currentWidget
    simp only [hc', if_false]
    split_ifs <;> rfl

/-- C19 at the layout with the widgets 7 and 8, of which 8 is current: `removeWidget(7)` leaves
widget 8, still current, and `removeWidget(8)` leaves no current widget. -/
theorem C19_removeWidget_removes_witness :
    demo3.m_Widgets.Nodup
    ∧ (7 : Nat) ∈ demo3.m_Widgets
    ∧ (8 : Nat) ∈ demo3.m_Widgets
    ∧ (demo3.removeWidget 7).m_Widgets = [8]
    ∧ (demo3.removeWidget 7).indexOf 7 = -1
    ∧ (demo3.removeWidget 7).currentWidget = some 8
    ∧ ((demo3.removeWidget 8).currentIndex = -1 ∧ (demo3.removeWidget 8).currentWidget = none) := by
  have hw : demo3.m_Widgets = [7, 8] := by decide
  have hn : demo3.m_Widgets.Nodup := demo3_consistent.nodup
  have h7 : (7 : Nat) ∈ demo3.m_Widgets := by
    rw [hw]
    decide
  have h8 : (8 : Nat) ∈ demo3.m_Widgets := by
    rw [hw]
    decide
  have c7 := C19_removeWidget_removes demo3 hn 7 h7
  have c8 := C19_removeWidget_removes demo3 hn 8 h8
  refine ⟨hn, h7, h8, ?_, c7.2.1, ?_, c8.2.2.2.1 (by decide)⟩
  · rw [c7.2.2.1, hw]
    decide
  · rw [c7.2.2.2.2 (by decide)]
    decide

omit [DecidableEq W] in
/-- The cases in which `widget(index)` is defined: a widget for `0 <= index < count()`, the
null pointer for `index >= count()`. -/
theorem widget_of_nonneg (s : CDockAreaLayout W) (index : Int) (h0 : 0 ≤ index) :
    (index < s.count → ∃ w, s.m_Widgets[index.toNat]? = some w ∧ s.widget index = some (some w))
    ∧ (s.count ≤ index → s.widget index = some none) := by
  refine ⟨fun h1 => widget_of_range s index h0 h1, ?_⟩
  intro h1
  unfold count at h1
  unfold widget
  simp [not_lt.mpr h1]

omit [DecidableEq W] in
/-- C20 (as the code behaves): for a negative index, `widget(index)` passes the test
`index < m_Widgets.size()` and calls `m_Widgets.at(index)`, a read outside the list; so does
`CDockAreaWidget::dockWidget(index)`. -/
theorem C20_widget_negative_index_reads_out_of_bounds (s : CDockAreaLayout W) (index : Int)
    (h : index < 0) :
    s.widget index = none
    ∧ ∀ (tabCount tabCurrentIndex : Int),
        CDockAreaWidget.dockWidget
          { ContentsLayout := s, tabCount := tabCount, tabCurrentIndex := tabCurrentIndex } index
          = none := by
  have hw : s.widget index = none := by
    unfold widget
    have h1 : index < (s.m_Widgets.length : Int) := by omega
    simp [h1, not_le.mpr h]
  exact ⟨hw, fun _ _ => hw⟩

/-- C20 at index `-1`: on the layout as constructed, with no widget, and on the dock area with
the dock widgets 7 and 8. -/
theorem C20_widget_negative_index_reads_out_of_bounds_witness :
    (-1 : Int) < 0
    ∧ demo0.widget (-1) = none
    ∧ CDockAreaWidget.demoArea.dockWidget (-1) = none :=
  ⟨by decide,
    (C20_widget_negative_index_reads_out_of_bounds demo0 (-1) (by decide)).1,
    (C20_widget_negative_index_reads_out_of_bounds demo3 (-1) (by decide)).2 2 1⟩

end CDockAreaLayout

end ads

/-! ## Theorems about `CDockAreaWidget::closeArea` and `CDockAreaWidget::saveState` -/

namespace ads

namespace CDockAreaWidget

variable {W : Type} [DecidableEq W]

omit [DecidableEq W] in
theorem dockWidget_of_lt (a : CDockAreaWidget W) (k : Nat)
    (hk : k < a.ContentsLayout.m_Widgets.length) :
    a.dockWidget (k : Int) = some (some a.ContentsLayout.m_Widgets[k]) := by
  unfold dockWidget
  rw [CDockAreaLayout.widget_eq_some_iff]
  refine ⟨by omega, ?_, ?_⟩
  · unfold CDockAreaLayout.count
    omega
  · simp [List.getElem?_eq_getElem hk]

omit [DecidableEq W] in
theorem openedLoop_range_from (a : CDockAreaWidget W) (dw : W → CDockWidget) :
    ∀ (m k : Nat), k + m = a.ContentsLayout.m_Widgets.length →
      a.openedLoop dw (List.range' k m)
        = some ((a.ContentsLayout.m_Widgets.drop k).filter (fun w => !(dw w).isClosed)) := by
  intro m
  induction m with
  | zero =>
    intro k hk
    have : a.ContentsLayout.m_Widgets.length ≤ k := by omega
    simp [openedLoop, List.drop_eq_nil_of_le this]
  | succ m ih =>
    intro k hk
    have hlt : k < a.ContentsLayout.m_Widgets.length := by omega
    rw [List.range'_succ, openedLoop, dockWidget_of_lt a k hlt]
    simp only [ih (k + 1) (by omega)]
    rw [List.drop_eq_getElem_cons hlt, List.filter_cons]
    cases (dw a.ContentsLayout.m_Widgets[k]).isClosed <;> simp

omit [DecidableEq W] in
theorem openedDockWidgets_eq (a : CDockAreaWidget W) (dw : W → CDockWidget) :
    a.openedDockWidgets dw
      = some (a.ContentsLayout.m_Widgets.filter (fun w => !(dw w).isClosed)) := by
  unfold openedDockWidgets CDockAreaLayout.count
  rw [List.range_eq_range']
  have := openedLoop_range_from a dw a.ContentsLayout.m_Widgets.length 0 (by omega)
  simpa using this

omit [DecidableEq W] in
theorem saveLoop_range_from (a : CDockAreaWidget W) :
    ∀ (m k : Nat), k + m = a.ContentsLayout.m_Widgets.length →
      a.saveLoop (List.range' k m)
        = some ((a.ContentsLayout.m_Widgets.drop k).map XmlEvent.dockWidgetState) := by
  intro m
  induction m with
  | zero =>
    intro k hk
    have : a.ContentsLayout.m_Widgets.length ≤ k := by omega
    simp [saveLoop, List.drop_eq_nil_of_le this]
  | succ m ih =>
    intro k hk
    have hlt : k < a.ContentsLayout.m_Widgets.length := by omega
    rw [List.range'_succ, saveLoop, dockWidget_of_lt a k hlt]
    simp only [ih (k + 1) (by omega)]
    rw [List.drop_eq_getElem_cons hlt, List.map_cons]

omit [DecidableEq W] in
theorem saveLoop_eq (a : CDockAreaWidget W) :
    a.saveLoop (List.range a.ContentsLayout.count.toNat)
      = some (a.ContentsLayout.m_Widgets.map XmlEvent.dockWidgetState) := by
  unfold CDockAreaLayout.count
  rw [List.range_eq_range']
  have := saveLoop_range_from a a.ContentsLayout.m_Widgets.length 0 (by omega)
  simpa using this

omit [DecidableEq W] in
theorem currentDockWidget_ne_none (a : CDockAreaWidget W) : a.currentDockWidget ≠ none := by
  unfold currentDockWidget
  split_ifs with h
  · simp
  · intro hn
    have := a.ContentsLayout.widget_isSome_of_nonneg a.currentIndex (by omega)
    unfold dockWidget at hn
    rw [hn] at this
    simp at this

omit [DecidableEq W] in
theorem closeArea_delete (a : CDockAreaWidget W) (dw : W → CDockWidget) (CloseHandler : Bool)
    (w : W) (h1 : a.ContentsLayout.m_Widgets.filter (fun w => !(dw w).isClosed) = [w])
    (h2 : (dw w).DockWidgetDeleteOnClose = true) :
    a.closeArea dw CloseHandler
      = some (AreaCall.closeDockWidgetInternal w :: runCloseHandler CloseHandler) := by
  unfold closeArea
  rw [openedDockWidgets_eq, h1]
  simp [h2]

omit [DecidableEq W] in
theorem closeArea_toggle (a : CDockAreaWidget W) (dw : W → CDockWidget) (CloseHandler : Bool)
    (h : ∀ w, a.ContentsLayout.m_Widgets.filter (fun w => !(dw w).isClosed) = [w] →
      (dw w).DockWidgetDeleteOnClose = false) :
    a.closeArea dw CloseHandler
      = some ((a.ContentsLayout.m_Widgets.filter (fun w => !(dw w).isClosed)).map
          (fun w => AreaCall.toggleView w false) ++ runCloseHandler CloseHandler) := by
  unfold closeArea
  rw [openedDockWidgets_eq]
  dsimp only
  split
  · rename_i w0 hd
    exfalso
    split at hd
    · rename_i w1 hl
      have := h w1 hl
      rw [this] at hd
      simp at hd
    · simp at hd
  · rfl

theorem count_toggleView_map (l : List W) (hl : l.Nodup) (w : W) :
    (l.map (fun w => AreaCall.toggleView w false)).count (AreaCall.toggleView w false)
      = if w ∈ l then 1 else 0 := by
  rw [List.count_map_of_injective l (fun w => AreaCall.toggleView w false)
    (fun x y hxy => by simpa using hxy) w]
  split_ifs with hm
  · exact List.count_eq_one_of_mem hl hm
  · exact List.count_eq_zero_of_not_mem hm

/-- C11: `closeArea` reads the open dock widgets of the area in index order. If exactly one is
open and it has the `DockWidgetDeleteOnClose` feature, the calls are `closeDockWidgetInternal` on
that widget followed by the close handler, if it is set, so `toggleView` is called on none; in
every other case the calls are `toggleView(false)` on each open dock widget, in index order,
followed by the close handler, if it is set, so `closeDockWidgetInternal` is called on none and,
the dock widgets being pairwise distinct, `toggleView(false)` once on each open one; in both
cases the close handler runs once when it is set and not at all when it is not. -/
theorem C11_closeArea_calls (a : CDockAreaWidget W) (dw : W → CDockWidget)
    (CloseHandler : Bool) :
    a.openedDockWidgets dw
      = some (a.ContentsLayout.m_Widgets.filter (fun w => !(dw w).isClosed))
    ∧ (∀ w, a.ContentsLayout.m_Widgets.filter (fun w => !(dw w).isClosed) = [w] →
        (dw w).DockWidgetDeleteOnClose = true →
        a.closeArea dw CloseHandler
          = some (AreaCall.closeDockWidgetInternal w :: runCloseHandler CloseHandler)
        ∧ ∀ calls, a.closeArea dw CloseHandler = some calls →
            (∀ v b, calls.count (AreaCall.toggleView v b) = 0)
            ∧ (∀ v, calls.count (AreaCall.closeDockWidgetInternal v) = if v = w then 1 else 0)
            ∧ calls.count AreaCall.CloseHandler = if CloseHandler then 1 else 0)
    ∧ ((∀ w, a.ContentsLayout.m_Widgets.filter (fun w => !(dw w).isClosed) = [w] →
          (dw w).DockWidgetDeleteOnClose = false) →
        a.closeArea dw CloseHandler
          = some ((a.ContentsLayout.m_Widgets.filter (fun w => !(dw w).isClosed)).map
              (fun w => AreaCall.toggleView w false) ++ runCloseHandler CloseHandler)
        ∧ ∀ calls, a.closeArea dw CloseHandler = some calls →
            (∀ v, calls.count (AreaCall.closeDockWidgetInternal v) = 0)
            ∧ (a.ContentsLayout.m_Widgets.Nodup → ∀ v,
                calls.count (AreaCall.toggleView v false)
                  = if v ∈ a.ContentsLayout.m_Widgets ∧ (dw v).isClosed = false then 1 else 0)
            ∧ calls.count AreaCall.CloseHandler = if CloseHandler then 1 else 0) := by
  refine ⟨openedDockWidgets_eq a dw, ?_, ?_⟩
  · intro w h1 h2
    have hc := closeArea_delete a dw CloseHandler w h1 h2
    refine ⟨hc, ?_⟩
    intro calls hcalls
    rw [hc] at hcalls
    simp only [Option.some.injEq] at hcalls
    subst hcalls
    refine ⟨?_, ?_, ?_⟩
    · intro v b
      cases CloseHandler <;> simp [runCloseHandler]
    · intro v
      by_cases hv : v = w
      · subst hv
        cases CloseHandler <;> simp [runCloseHandler]
      · have hv' : ¬ (w = v) := fun h => hv h.symm
        cases CloseHandler <;> simp [runCloseHandler, hv, hv']
    · cases CloseHandler <;> simp [runCloseHandler]
  · intro h
    have hc := closeArea_toggle a dw CloseHandler h
    refine ⟨hc, ?_⟩
    intro calls hcalls
    rw [hc] at hcalls
    simp only [Option.some.injEq] at hcalls
    subst hcalls
    refine ⟨?_, ?_, ?_⟩
    · intro v
      rw [List.count_append]
      have h1 : (List.map (fun w => AreaCall.toggleView w false)
          (a.ContentsLayout.m_Widgets.filter (fun w => !(dw w).isClosed))).count
          (AreaCall.closeDockWidgetInternal v) = 0 := by
        apply List.count_eq_zero_of_not_mem
        simp
      rw [h1]
      cases CloseHandler <;> simp [runCloseHandler]
    · intro hnd v
      rw [List.count_append, count_toggleView_map _ (hnd.filter _) v]
      have h2 : (runCloseHandler CloseHandler : List (AreaCall W)).count
          (AreaCall.toggleView v false) = 0 := by
        cases CloseHandler <;> simp [runCloseHandler]
      rw [h2]
      simp [List.mem_filter]
    · rw [List.count_append]
      have h1 : (List.map (fun w => AreaCall.toggleView w false)
          (a.ContentsLayout.m_Widgets.filter (fun w => !(dw w).isClosed))).count
          AreaCall.CloseHandler = 0 := by
        apply List.count_eq_zero_of_not_mem
        simp
      rw [h1]
      cases CloseHandler <;> simp [runCloseHandler]

/-- C11 at the dock area with the dock widgets 7 (closed) and 8 (open, deleted on close) and a
close handler: `closeDockWidgetInternal` on 8, then the close handler. -/
theorem C11_closeArea_calls_witness :
    demoArea.ContentsLayout.m_Widgets.filter (fun w => !(demoDockWidget w).isClosed) = [8]
    ∧ (demoDockWidget 8).DockWidgetDeleteOnClose = true
    ∧ demoArea.closeArea demoDockWidget true
        = some [AreaCall.closeDockWidgetInternal 8, AreaCall.CloseHandler] :=
  ⟨by decide, by decide,
    ((C11_closeArea_calls demoArea demoDockWidget true).2.1 8 (by decide) (by decide)).1⟩

theorem hexDigitValue_digitChar :
    ∀ k : Fin 16, hexDigitValue (Nat.digitChar k) = some (k : Nat) := by
  decide

theorem hexStep_digitChar (acc k : Nat) (hk : k < 16) :
    hexStep acc (Nat.digitChar k) = some (16 * acc + k) := by
  unfold hexStep
  rw [hexDigitValue_digitChar ⟨k, hk⟩]

theorem hexRead_toDigitsCore :
    ∀ (fuel n : Nat) (ds : List Char), n < fuel →
      hexRead 0 (Nat.toDigitsCore 16 fuel n ds) = hexRead n ds
  | 0, n, ds, h => by omega
  | fuel + 1, n, ds, h => by
    unfold Nat.toDigitsCore
    dsimp only
    split_ifs with h0
    · have hn : n % 16 = n := Nat.mod_eq_of_lt (by omega)
      show (match hexStep 0 (Nat.digitChar (n % 16)) with
        | some v => hexRead v ds
        | none => none) = hexRead n ds
      rw [hexStep_digitChar 0 _ (Nat.mod_lt n (by decide)), hn]
      simp only [Nat.mul_zero, Nat.zero_add]
    · rw [hexRead_toDigitsCore fuel (n / 16) _ (by omega)]
      show (match hexStep (n / 16) (Nat.digitChar (n % 16)) with
        | some v => hexRead v ds
        | none => none) = hexRead n ds
      rw [hexStep_digitChar _ _ (Nat.mod_lt n (by decide))]
      have : 16 * (n / 16) + n % 16 = n := Nat.div_add_mod n 16
      rw [this]

theorem toDigitsCore_ne_nil :
    ∀ (fuel n : Nat) (ds : List Char), 0 < fuel → Nat.toDigitsCore 16 fuel n ds ≠ []
  | 0, _, _, h => by omega
  | fuel + 1, n, ds, _ => by
    unfold Nat.toDigitsCore
    dsimp only
    split_ifs with h0
    · simp
    · cases fuel with
      | zero =>
        unfold Nat.toDigitsCore
        simp
      | succ f => exact toDigitsCore_ne_nil (f + 1) _ _ (by omega)

/-- Reading back what `hexNumber` writes gives the number. -/
theorem hexValue_hexNumber (n : Nat) : hexValue (hexNumber n) = some n := by
  unfold hexValue hexNumber Nat.toDigits
  have h1 := hexRead_toDigitsCore (n + 1) n [] (by omega)
  have h2 := toDigitsCore_ne_nil (n + 1) n [] (by omega)
  show (match Nat.toDigitsCore 16 (n + 1) n [] with
    | [] => none
    | c :: cs => hexRead 0 (c :: cs)) = some n
  cases hd : Nat.toDigitsCore 16 (n + 1) n [] with
  | nil => exact absurd hd h2
  | cons c cs =>
    rw [hd] at h1
    exact h1
theorem hexNumber_examples :
    hexNumber 0 = "0" ∧ hexNumber 31 = "1f" ∧ hexNumber 255 = "ff" ∧ hexNumber 4096 = "1000" := by
  decide

omit [DecidableEq W] in
/-- C12: `saveState` writes the start of one `Area` element, the attribute `Tabs` with the
number of dock widgets, the attribute `Current` with the object name of the current dock widget
or the empty string when there is none, the attribute `AllowedAreas` in base 16 exactly when the
allowed areas differ from the default, the attribute `Flags` in base 16 exactly when the flags
differ from the default flags, then the saved states of the dock widgets in index order, and the
end of the element. Base 16 means that the text written for `AllowedAreas` and for `Flags`,
read as a numeral in base 16, is the value of the member. -/
theorem C12_saveState_writes (a : CDockAreaWidget W) (dw : W → CDockWidget)
    (AllowedAreas DefaultAllowedAreas Flags DefaultFlags : Nat) :
    a.saveState dw AllowedAreas DefaultAllowedAreas Flags DefaultFlags
      = some ([XmlEvent.writeStartElement "Area",
          XmlEvent.writeAttribute "Tabs" (toString a.dockWidgetsCount),
          XmlEvent.writeAttribute "Current"
            (match a.currentDockWidget with
              | some (some w) => (dw w).objectName
              | _ => "")]
        ++ (if AllowedAreas ≠ DefaultAllowedAreas then
              [XmlEvent.writeAttribute "AllowedAreas" (hexNumber AllowedAreas)] else [])
        ++ (if Flags ≠ DefaultFlags then
              [XmlEvent.writeAttribute "Flags" (hexNumber Flags)] else [])
        ++ a.ContentsLayout.m_Widgets.map XmlEvent.dockWidgetState
        ++ [XmlEvent.writeEndElement])
    ∧ ∀ events, a.saveState dw AllowedAreas DefaultAllowedAreas Flags DefaultFlags = some events →
        ((∃ v, XmlEvent.writeAttribute "AllowedAreas" v ∈ events)
          ↔ AllowedAreas ≠ DefaultAllowedAreas)
        ∧ ((∃ v, XmlEvent.writeAttribute "Flags" v ∈ events) ↔ Flags ≠ DefaultFlags)
        ∧ (∀ v, XmlEvent.writeAttribute "Tabs" v ∈ events ↔ v = toString a.dockWidgetsCount)
        ∧ (∀ v, XmlEvent.writeAttribute "AllowedAreas" v ∈ events →
            hexValue v = some AllowedAreas)
        ∧ (∀ v, XmlEvent.writeAttribute "Flags" v ∈ events → hexValue v = some Flags) := by
  have hmain : a.saveState dw AllowedAreas DefaultAllowedAreas Flags DefaultFlags
      = some ([XmlEvent.writeStartElement "Area",
          XmlEvent.writeAttribute "Tabs" (toString a.dockWidgetsCount),
          XmlEvent.writeAttribute "Current"
            (match a.currentDockWidget with
              | some (some w) => (dw w).objectName
              | _ => "")]
        ++ (if AllowedAreas ≠ DefaultAllowedAreas then
              [XmlEvent.writeAttribute "AllowedAreas" (hexNumber AllowedAreas)] else [])
        ++ (if Flags ≠ DefaultFlags then
              [XmlEvent.writeAttribute "Flags" (hexNumber Flags)] else [])
        ++ a.ContentsLayout.m_Widgets.map XmlEvent.dockWidgetState
        ++ [XmlEvent.writeEndElement]) := by
    unfold saveState
    rw [saveLoop_eq]
    have hne := currentDockWidget_ne_none a
    cases hcur : a.currentDockWidget with
    | none => exact absurd hcur hne
    | some o => cases o <;> rfl
  refine ⟨hmain, ?_⟩
  intro events he
  rw [hmain] at he
  simp only [Option.some.injEq] at he
  subst he
  refine ⟨?_, ?_, ?_, ?_, ?_⟩
  · by_cases h : AllowedAreas = DefaultAllowedAreas <;> by_cases h' : Flags = DefaultFlags <;>
      simp [h, h']
  · by_cases h : AllowedAreas = DefaultAllowedAreas <;> by_cases h' : Flags = DefaultFlags <;>
      simp [h, h']
  · intro v
    by_cases h : AllowedAreas = DefaultAllowedAreas <;> by_cases h' : Flags = DefaultFlags <;>
      simp [h, h']
  · intro v hv
    have hv' : v = hexNumber AllowedAreas := by
      by_cases h : AllowedAreas = DefaultAllowedAreas <;>
        by_cases h' : Flags = DefaultFlags <;> simp [h, h'] at hv <;> exact hv
    rw [hv']
    exact hexValue_hexNumber AllowedAreas
  · intro v hv
    have hv' : v = hexNumber Flags := by
      by_cases h : AllowedAreas = DefaultAllowedAreas <;>
        by_cases h' : Flags = DefaultFlags <;> simp [h, h'] at hv <;> exact hv
    rw [hv']
    exact hexValue_hexNumber Flags

/-- What `saveState` writes for the dock area with the dock widgets 7 and 8, current widget 8,
the default allowed areas and the flags 1. -/
theorem saveState_demoArea :
    demoArea.saveState demoDockWidget 31 31 1 0
      = some [XmlEvent.writeStartElement "Area", XmlEvent.writeAttribute "Tabs" "2",
          XmlEvent.writeAttribute "Current" "eight", XmlEvent.writeAttribute "Flags" "1",
          XmlEvent.dockWidgetState 7, XmlEvent.dockWidgetState 8, XmlEvent.writeEndElement] := by
  decide

/-- C12 at the dock area with the dock widgets 7 and 8 and current widget 8, with the allowed
areas 31 (default 15) and the flags 26 (default 0): `AllowedAreas` is written as `1f` and `Flags`
as `1a`, the base 16 numerals of 31 and 26; with the default values neither attribute is
written. -/
theorem C12_saveState_writes_witness :
    demoArea.saveState demoDockWidget 31 15 26 0
      = some [XmlEvent.writeStartElement "Area", XmlEvent.writeAttribute "Tabs" "2",
          XmlEvent.writeAttribute "Current" "eight",
          XmlEvent.writeAttribute "AllowedAreas" "1f", XmlEvent.writeAttribute "Flags" "1a",
          XmlEvent.dockWidgetState 7, XmlEvent.dockWidgetState 8, XmlEvent.writeEndElement]
    ∧ demoArea.saveState demoDockWidget 15 15 0 0
      = some [XmlEvent.writeStartElement "Area", XmlEvent.writeAttribute "Tabs" "2",
          XmlEvent.writeAttribute "Current" "eight",
          XmlEvent.dockWidgetState 7, XmlEvent.dockWidgetState 8, XmlEvent.writeEndElement]
    ∧ hexValue "1f" = some 31 ∧ hexValue "1a" = some 26
    ∧ hexValue "" = none ∧ hexValue "1g" = none ∧ hexValue "26" = some 38 :=
  ⟨(C12_saveState_writes demoArea demoDockWidget 31 15 26 0).1.trans (by decide),
    (C12_saveState_writes demoArea demoDockWidget 15 15 0 0).1.trans (by decide),
    by decide, by decide, by decide, by decide, by decide⟩

end CDockAreaWidget

end ads

/-! ## Theorems about the buttons of `CDockAreaTitleBar` -/

namespace ads

namespace DockAreaTitleBarPrivate

theorem button_setButton (d : DockAreaTitleBarPrivate) (id id' : ButtonId) (x : TitleBarButton) :
    (d.setButton id x).button id' = if id' = id then some x else d.button id' := by
  cases id <;> cases id' <;> simp [setButton, button]

theorem getButton_setButton (d : DockAreaTitleBarPrivate) (id : ButtonId) (x : TitleBarButton)
    (witch : eConfigFlag) : (d.setButton id x).getButton witch = d.getButton witch := by
  cases id <;> rfl

/-- The entries of `Config2Button` after `createButtons`. -/
theorem createButtons_Config2Button (cfg : ConfigFlags) (stateVisible : Bool)
    (d : DockAreaTitleBarPrivate) :
    (createButtons cfg stateVisible d).Config2Button =
      (if cfg eConfigFlag.DockAreaHasSettingButton
        then [(eConfigFlag.DockAreaHasSettingButton, ButtonId.SetButton)] else [])
      ++ (if cfg eConfigFlag.DockAreaHasPlayPauseButton
        then [(eConfigFlag.DockAreaHasPlayPauseButton, ButtonId.PlayPauseButton)] else [])
      ++ (if cfg eConfigFlag.DockAreaHasDefaultSetButton
        then [(eConfigFlag.DockAreaHasDefaultSetButton, ButtonId.DefaultSetButton)] else [])
      ++ (if cfg eConfigFlag.DockAreaHasCaptureButton
        then [(eConfigFlag.DockAreaHasCaptureButton, ButtonId.CaptureButton)] else [])
      ++ [(eConfigFlag.DockAreaHasUndockButton, ButtonId.UndockButton),
          (eConfigFlag.DockAreaHasCloseButton, ButtonId.CloseButton)] := by
  cases h1 : cfg eConfigFlag.DockAreaHasSettingButton <;>
  cases h2 : cfg eConfigFlag.DockAreaHasPlayPauseButton <;>
  cases h3 : cfg eConfigFlag.DockAreaHasDefaultSetButton <;>
  cases h4 : cfg eConfigFlag.DockAreaHasCaptureButton <;>
  simp [createButtons, h1, h2, h3, h4, mapInsert, List.lookup] <;> rfl

/-- The button that `getButton` returns after `createButtons`. -/
theorem getButton_createButtons (cfg : ConfigFlags) (stateVisible : Bool)
    (d : DockAreaTitleBarPrivate) (witch : eConfigFlag) :
    (createButtons cfg stateVisible d).getButton witch =
      match witch with
      | eConfigFlag.DockAreaHasSettingButton =>
        if cfg eConfigFlag.DockAreaHasSettingButton then some ButtonId.SetButton else none
      | eConfigFlag.DockAreaHasPlayPauseButton =>
        if cfg eConfigFlag.DockAreaHasPlayPauseButton then some ButtonId.PlayPauseButton else none
      | eConfigFlag.DockAreaHasDefaultSetButton =>
        if cfg eConfigFlag.DockAreaHasDefaultSetButton then some ButtonId.DefaultSetButton
        else none
      | eConfigFlag.DockAreaHasCaptureButton =>
        if cfg eConfigFlag.DockAreaHasCaptureButton then some ButtonId.CaptureButton else none
      | eConfigFlag.DockAreaHasUndockButton => some ButtonId.UndockButton
      | eConfigFlag.DockAreaHasCloseButton => some ButtonId.CloseButton
      | _ => none := by
  unfold getButton
  rw [createButtons_Config2Button]
  cases h1 : cfg eConfigFlag.DockAreaHasSettingButton <;>
  cases h2 : cfg eConfigFlag.DockAreaHasPlayPauseButton <;>
  cases h3 : cfg eConfigFlag.DockAreaHasDefaultSetButton <;>
  cases h4 : cfg eConfigFlag.DockAreaHasCaptureButton <;>
  cases witch <;> simp [List.lookup, h1, h2, h3, h4] <;> rfl

/-- A button that `getButton` returns after `createButtons` is a button object. -/
theorem button_isSome_of_getButton_createButtons (cfg : ConfigFlags) (stateVisible : Bool)
    (d : DockAreaTitleBarPrivate) (witch : eConfigFlag) (id : ButtonId)
    (h : (createButtons cfg stateVisible d).getButton witch = some id) :
    ((createButtons cfg stateVisible d).button id).isSome = true := by
  rw [getButton_createButtons] at h
  cases h1 : cfg eConfigFlag.DockAreaHasSettingButton <;>
  cases h2 : cfg eConfigFlag.DockAreaHasPlayPauseButton <;>
  cases h3 : cfg eConfigFlag.DockAreaHasDefaultSetButton <;>
  cases h4 : cfg eConfigFlag.DockAreaHasCaptureButton <;>
  cases witch <;> simp [h1, h2, h3, h4] at h <;> subst h <;>
  simp [createButtons, button, h1, h2, h3, h4]

theorem createButtons_SetButton_of_unset (cfg : ConfigFlags) (stateVisible : Bool)
    (d : DockAreaTitleBarPrivate) (h : cfg eConfigFlag.DockAreaHasSettingButton = false) :
    (createButtons cfg stateVisible d).SetButton = d.SetButton := by
  cases h2 : cfg eConfigFlag.DockAreaHasPlayPauseButton <;>
  cases h3 : cfg eConfigFlag.DockAreaHasDefaultSetButton <;>
  cases h4 : cfg eConfigFlag.DockAreaHasCaptureButton <;>
  simp [createButtons, h, h2, h3, h4]

theorem createButtons_CloseButton_isSome (cfg : ConfigFlags) (stateVisible : Bool)
    (d : DockAreaTitleBarPrivate) :
    ((createButtons cfg stateVisible d).CloseButton).isSome = true := rfl

/-- C4: after `createButtons` under the configuration `cfg`, `getButton` returns a button for
each of the flags `DockAreaHasSettingButton`, `DockAreaHasPlayPauseButton`,
`DockAreaHasDefaultSetButton` and `DockAreaHasCaptureButton` exactly when the flag is set in
`cfg`, returns a button for `DockAreaHasUndockButton` and `DockAreaHasCloseButton` under every
configuration, and returns the null pointer for every other flag; every button it returns is an
object that `createButtons` has created. -/
theorem C4_getButton_after_createButtons (cfg : ConfigFlags) (stateVisible : Bool)
    (d : DockAreaTitleBarPrivate) :
    ((createButtons cfg stateVisible d).getButton eConfigFlag.DockAreaHasSettingButton ≠ none
        ↔ cfg eConfigFlag.DockAreaHasSettingButton = true)
    ∧ ((createButtons cfg stateVisible d).getButton eConfigFlag.DockAreaHasPlayPauseButton ≠ none
        ↔ cfg eConfigFlag.DockAreaHasPlayPauseButton = true)
    ∧ ((createButtons cfg stateVisible d).getButton eConfigFlag.DockAreaHasDefaultSetButton ≠ none
        ↔ cfg eConfigFlag.DockAreaHasDefaultSetButton = true)
    ∧ ((createButtons cfg stateVisible d).getButton eConfigFlag.DockAreaHasCaptureButton ≠ none
        ↔ cfg eConfigFlag.DockAreaHasCaptureButton = true)
    ∧ (createButtons cfg stateVisible d).getButton eConfigFlag.DockAreaHasUndockButton
        = some ButtonId.UndockButton
    ∧ (createButtons cfg stateVisible d).getButton eConfigFlag.DockAreaHasCloseButton
        = some ButtonId.CloseButton
    ∧ (∀ witch : eConfigFlag,
        witch ∉ [eConfigFlag.DockAreaHasSettingButton, eConfigFlag.DockAreaHasPlayPauseButton,
          eConfigFlag.DockAreaHasDefaultSetButton, eConfigFlag.DockAreaHasCaptureButton,
          eConfigFlag.DockAreaHasUndockButton, eConfigFlag.DockAreaHasCloseButton] →
        (createButtons cfg stateVisible d).getButton witch = none)
    ∧ (∀ (witch : eConfigFlag) (id : ButtonId),
        (createButtons cfg stateVisible d).getButton witch = some id →
        ((createButtons cfg stateVisible d).button id).isSome = true) := by
  refine ⟨?_, ?_, ?_, ?_, ?_, ?_, ?_, ?_⟩
  · rw [getButton_createButtons]
    cases cfg eConfigFlag.DockAreaHasSettingButton <;> simp
  · rw [getButton_createButtons]
    cases cfg eConfigFlag.DockAreaHasPlayPauseButton <;> simp
  · rw [getButton_createButtons]
    cases cfg eConfigFlag.DockAreaHasDefaultSetButton <;> simp
  · rw [getButton_createButtons]
    cases cfg eConfigFlag.DockAreaHasCaptureButton <;> simp
  · rw [getButton_createButtons]
  · rw [getButton_createButtons]
  · intro witch hw
    rw [getButton_createButtons]
    cases witch <;> simp at hw <;> rfl
  · exact button_isSome_of_getButton_createButtons cfg stateVisible d

end DockAreaTitleBarPrivate

namespace CDockAreaTitleBar

open DockAreaTitleBarPrivate

theorem setVisible_shown (b : TitleBarButton) (v : Bool) :
    (b.setVisible v).shown = true ↔
      (v = true ∧ b.Visible = true ∧ (b.HideWhenDisabled = false ∨ b.enabled = true)) := by
  cases v <;> cases hV : b.Visible <;> cases hH : b.HideWhenDisabled <;> cases hE : b.enabled <;>
    simp [TitleBarButton.setVisible, hV, hH, hE]

theorem setVisible_of_not_Visible (b : TitleBarButton) (v : Bool) (h : b.Visible = false) :
    (b.setVisible v).Visible = false ∧ (b.setVisible v).shown = false := by
  refine ⟨h, ?_⟩
  cases hs : (b.setVisible v).shown with
  | false => rfl
  | true =>
    have := ((setVisible_shown b v).mp hs).2.1
    rw [h] at this
    cases this

theorem Gated.createButtons (cfg : ConfigFlags) (stateVisible : Bool)
    (d : DockAreaTitleBarPrivate) : Gated cfg (DockAreaTitleBarPrivate.createButtons cfg stateVisible d) := by
  intro witch id h
  have hlive := button_isSome_of_getButton_createButtons cfg stateVisible d witch id h
  obtain ⟨b, hb⟩ := Option.isSome_iff_exists.mp hlive
  refine ⟨b, hb, ?_⟩
  intro hf
  rw [getButton_createButtons] at h
  cases witch <;> simp [hf] at h <;> subst h
  · have : (DockAreaTitleBarPrivate.createButtons cfg stateVisible d).button ButtonId.CloseButton
        = some (if cfg eConfigFlag.DockAreaCloseButtonClosesTab then
            ((TitleBarButton.create (cfg eConfigFlag.DockAreaHasCloseButton)
              (cfg eConfigFlag.DockAreaHideDisabledButtons)).setIcon
                "DockAreaCloseIcon").setToolTip "关闭激活窗口"
          else ((TitleBarButton.create (cfg eConfigFlag.DockAreaHasCloseButton)
              (cfg eConfigFlag.DockAreaHideDisabledButtons)).setIcon
                "DockAreaCloseIcon").setToolTip "关闭窗口") := rfl
    rw [this] at hb
    simp only [Option.some.injEq] at hb
    subst hb
    split_ifs <;> exact ⟨hf, rfl⟩
  · have : (DockAreaTitleBarPrivate.createButtons cfg stateVisible d).button ButtonId.UndockButton
        = some (((TitleBarButton.create (cfg eConfigFlag.DockAreaHasUndockButton)
              (cfg eConfigFlag.DockAreaHideDisabledButtons)).setToolTip "浮动").setIcon
                ":/images/load32.png") := rfl
    rw [this] at hb
    simp only [Option.some.injEq] at hb
    subst hb
    exact ⟨hf, rfl⟩

theorem Gated.set_button_visible {cfg : ConfigFlags} {d : DockAreaTitleBarPrivate}
    (h : Gated cfg d) (witch : eConfigFlag) (visible : Bool) :
    ∃ d', set_button_visible d witch visible = some d' ∧ Gated cfg d' := by
  unfold CDockAreaTitleBar.set_button_visible withButton
  cases hg : d.getButton witch with
  | none => exact ⟨d, rfl, h⟩
  | some id0 =>
    obtain ⟨b0, hb0, hv0⟩ := h witch id0 hg
    simp only [hb0]
    refine ⟨_, rfl, ?_⟩
    intro w id hw
    rw [getButton_setButton] at hw
    obtain ⟨b, hb, hv⟩ := h w id hw
    rw [button_setButton]
    by_cases hid : id = id0
    · subst hid
      rw [hb0] at hb
      simp only [Option.some.injEq] at hb
      subst hb
      refine ⟨b0.setVisible visible, by simp, ?_⟩
      intro hf
      exact setVisible_of_not_Visible b0 visible (hv hf).1
    · exact ⟨b, by simp [hid, hb], hv⟩

theorem Gated.show_buttons {cfg : ConfigFlags} {d : DockAreaTitleBarPrivate} (h : Gated cfg d) :
    ∃ d', show_buttons d = some d' ∧ Gated cfg d' := by
  obtain ⟨d1, e1, h1⟩ := h.set_button_visible eConfigFlag.DockAreaHasUndockButton true
  obtain ⟨d2, e2, h2⟩ := h1.set_button_visible eConfigFlag.DockAreaHasCaptureButton true
  obtain ⟨d3, e3, h3⟩ := h2.set_button_visible eConfigFlag.DockAreaHasDefaultSetButton true
  obtain ⟨d4, e4, h4⟩ := h3.set_button_visible eConfigFlag.DockAreaHasSettingButton true
  obtain ⟨d5, e5, h5⟩ := h4.set_button_visible eConfigFlag.DockAreaHasPlayPauseButton true
  refine ⟨d5, ?_, h5⟩
  simp [CDockAreaTitleBar.show_buttons, e1, e2, e3, e4, e5]

theorem Gated.hide_buttons {cfg : ConfigFlags} {d : DockAreaTitleBarPrivate} (h : Gated cfg d) :
    ∃ d', hide_buttons d = some d' ∧ Gated cfg d' := by
  obtain ⟨d1, e1, h1⟩ := h.set_button_visible eConfigFlag.DockAreaHasUndockButton false
  obtain ⟨d2, e2, h2⟩ := h1.set_button_visible eConfigFlag.DockAreaHasCaptureButton false
  obtain ⟨d3, e3, h3⟩ := h2.set_button_visible eConfigFlag.DockAreaHasDefaultSetButton false
  obtain ⟨d4, e4, h4⟩ := h3.set_button_visible eConfigFlag.DockAreaHasSettingButton false
  obtain ⟨d5, e5, h5⟩ := h4.set_button_visible eConfigFlag.DockAreaHasPlayPauseButton false
  refine ⟨d5, ?_, h5⟩
  simp [CDockAreaTitleBar.hide_buttons, e1, e2, e3, e4, e5]

theorem Gated.visibilityCalls {cfg : ConfigFlags} (calls : List VisibilityCall) :
    ∀ {d : DockAreaTitleBarPrivate}, Gated cfg d →
      ∃ d', visibilityCalls d calls = some d' ∧ Gated cfg d' := by
  induction calls with
  | nil => exact fun h => ⟨_, rfl, h⟩
  | cons c cs ih =>
    intro d h
    have step : ∃ d1, visibilityCall d c = some d1 ∧ Gated cfg d1 := by
      cases c with
      | set_button_visible witch visible => exact h.set_button_visible witch visible
      | show_buttons => exact h.show_buttons
      | hide_buttons => exact h.hide_buttons
    obtain ⟨d1, e1, h1⟩ := step
    obtain ⟨d', e', h'⟩ := ih h1
    exact ⟨d', by simp [CDockAreaTitleBar.visibilityCalls, e1, e'], h'⟩

/-- C5: `CTitleBarButton::setVisible(v)` leaves the button shown exactly when `v` is true, the
button was constructed with `Visible == true`, and `HideWhenDisabled` is false or the button is
enabled; a button constructed with `Visible == false` is never shown by `setVisible`. After
`createButtons` under the configuration `cfg`, every sequence of
`set_button_visible`, `show_buttons` and `hide_buttons` calls completes, and afterwards a button
registered for a flag that is not set in `cfg` has `Visible == false`, is not shown, and is not
shown after any further `setVisible(v)`. -/
theorem C5_setVisible_gated_by_config :
    (∀ (b : TitleBarButton) (v : Bool),
      (b.setVisible v).shown = true ↔
        (v = true ∧ b.Visible = true ∧ (b.HideWhenDisabled = false ∨ b.enabled = true)))
    ∧ (∀ (b : TitleBarButton) (v : Bool), b.Visible = false → (b.setVisible v).shown = false)
    ∧ (∀ (cfg : ConfigFlags) (stateVisible : Bool) (d : DockAreaTitleBarPrivate)
        (calls : List VisibilityCall),
      ∃ d', visibilityCalls (createButtons cfg stateVisible d) calls = some d'
        ∧ ∀ witch id, cfg witch = false → d'.getButton witch = some id →
          ∃ b, d'.button id = some b ∧ b.Visible = false ∧ b.shown = false
            ∧ ∀ v, (b.setVisible v).shown = false) := by
  refine ⟨setVisible_shown, fun b v h => (setVisible_of_not_Visible b v h).2, ?_⟩
  intro cfg stateVisible d calls
  obtain ⟨d', e, h⟩ := Gated.visibilityCalls calls (Gated.createButtons cfg stateVisible d)
  refine ⟨d', e, ?_⟩
  intro witch id hf hg
  obtain ⟨b, hb, hv⟩ := h witch id hg
  exact ⟨b, hb, (hv hf).1, (hv hf).2, fun v => (setVisible_of_not_Visible b v (hv hf).1).2⟩

/-- C5 under the configuration without any flag: after `show_buttons` and
`set_button_visible(DockAreaHasUndockButton, true)` the undock button is still not shown. -/
theorem C5_setVisible_gated_by_config_witness :
    noFlags eConfigFlag.DockAreaHasUndockButton = false
    ∧ ∃ d', visibilityCalls (create noFlags true)
          [VisibilityCall.show_buttons,
           VisibilityCall.set_button_visible eConfigFlag.DockAreaHasUndockButton true] = some d'
        ∧ ∃ b, d'.button ButtonId.UndockButton = some b ∧ b.Visible = false ∧ b.shown = false
          ∧ ∀ v, (b.setVisible v).shown = false := by
  obtain ⟨d', e, h⟩ := C5_setVisible_gated_by_config.2.2 noFlags true DockAreaTitleBarPrivate.init
    [VisibilityCall.show_buttons,
     VisibilityCall.set_button_visible eConfigFlag.DockAreaHasUndockButton true]
  refine ⟨rfl, d', e, ?_⟩
  have hg : d'.getButton eConfigFlag.DockAreaHasUndockButton = some ButtonId.UndockButton := by
    have e' : visibilityCalls (create noFlags true)
          [VisibilityCall.show_buttons,
           VisibilityCall.set_button_visible eConfigFlag.DockAreaHasUndockButton true]
        = some d' := e
    have e2 : visibilityCalls (create noFlags true)
          [VisibilityCall.show_buttons,
           VisibilityCall.set_button_visible eConfigFlag.DockAreaHasUndockButton true]
        = some ((visibilityCalls (create noFlags true)
          [VisibilityCall.show_buttons,
           VisibilityCall.set_button_visible eConfigFlag.DockAreaHasUndockButton true]).getD
            DockAreaTitleBarPrivate.init) :=
      CDockAreaLayout.some_getD_of_isSome _ _ (by decide)
    rw [e2] at e'
    simp only [Option.some.injEq] at e'
    rw [← e']
    decide
  exact h eConfigFlag.DockAreaHasUndockButton ButtonId.UndockButton rfl hg

/-- C6: for a flag without a registered button (`getButton` returns null), each of
`set_button_visible`, `set_button_tip`, `set_button_icon`, `set_state_button_icon`,
`set_state_button_tips` and `reset_state` completes and leaves the title bar as it is; for a
registered button that is not a `CTitleBarStateButton`, `set_state_button_icon`,
`set_state_button_tips` and `reset_state` complete and leave the title bar as it is. -/
theorem C6_null_button_is_guarded (d : DockAreaTitleBarPrivate) (witch : eConfigFlag) :
    (d.getButton witch = none →
      (∀ v, set_button_visible d witch v = some d)
      ∧ (∀ tip, set_button_tip d witch tip = some d)
      ∧ (∀ icon, set_button_icon d witch icon = some d)
      ∧ (∀ p n, set_state_button_icon d witch p n = some d)
      ∧ (∀ p n, set_state_button_tips d witch p n = some d)
      ∧ reset_state d witch = some d)
    ∧ (∀ id b, d.getButton witch = some id → d.button id = some b → b.isStateButton = false →
      (∀ p n, set_state_button_icon d witch p n = some d)
      ∧ (∀ p n, set_state_button_tips d witch p n = some d)
      ∧ reset_state d witch = some d) := by
  constructor
  · intro h
    simp [set_button_visible, set_button_tip, set_button_icon, set_state_button_icon,
      set_state_button_tips, reset_state, withButton, withStateButton, h]
  · intro id b hg hb hs
    simp [set_state_button_icon, set_state_button_tips, reset_state, withStateButton, hg, hb, hs]

theorem getButton_create_noFlags_setting :
    (create noFlags true).getButton eConfigFlag.DockAreaHasSettingButton = none := by
  decide

/-- C6 at the title bar created without any flag: no button is registered for
`DockAreaHasSettingButton`, and the undock button is no state button. -/
theorem C6_null_button_is_guarded_witness :
    (create noFlags true).getButton eConfigFlag.DockAreaHasSettingButton = none
    ∧ ((∀ v, set_button_visible (create noFlags true) eConfigFlag.DockAreaHasSettingButton v
          = some (create noFlags true))
      ∧ (∀ tip, set_button_tip (create noFlags true) eConfigFlag.DockAreaHasSettingButton tip
          = some (create noFlags true))
      ∧ (∀ icon, set_button_icon (create noFlags true) eConfigFlag.DockAreaHasSettingButton icon
          = some (create noFlags true))
      ∧ (∀ p n, set_state_button_icon (create noFlags true)
          eConfigFlag.DockAreaHasSettingButton p n = some (create noFlags true))
      ∧ (∀ p n, set_state_button_tips (create noFlags true)
          eConfigFlag.DockAreaHasSettingButton p n = some (create noFlags true))
      ∧ reset_state (create noFlags true) eConfigFlag.DockAreaHasSettingButton
          = some (create noFlags true))
    ∧ (create noFlags true).getButton eConfigFlag.DockAreaHasUndockButton
        = some ButtonId.UndockButton
    ∧ ((∀ p n, set_state_button_icon (create noFlags true)
          eConfigFlag.DockAreaHasUndockButton p n = some (create noFlags true))
      ∧ (∀ p n, set_state_button_tips (create noFlags true)
          eConfigFlag.DockAreaHasUndockButton p n = some (create noFlags true))
      ∧ reset_state (create noFlags true) eConfigFlag.DockAreaHasUndockButton
          = some (create noFlags true)) :=
  ⟨getButton_create_noFlags_setting,
    (C6_null_button_is_guarded (create noFlags true) eConfigFlag.DockAreaHasSettingButton).1
      getButton_create_noFlags_setting,
    by decide,
    (C6_null_button_is_guarded (create noFlags true) eConfigFlag.DockAreaHasUndockButton).2
      ButtonId.UndockButton
      (((TitleBarButton.create false false).setToolTip "浮动").setIcon ":/images/load32.png")
      (by decide) rfl rfl⟩

/-- C7 (as the code behaves): for a flag without a registered button, `set_button_checked` calls
`setChecked` through the null pointer. -/
theorem C7_set_button_checked_null_deref (d : DockAreaTitleBarPrivate) (witch : eConfigFlag)
    (is_checked : Bool) (h : d.getButton witch = none) :
    set_button_checked d witch is_checked = none := by
  simp [set_button_checked, h]

/-- C7 at the title bar created without any flag and the flag `DockAreaHasSettingButton`. -/
theorem C7_set_button_checked_null_deref_witness :
    (create noFlags true).getButton eConfigFlag.DockAreaHasSettingButton = none
    ∧ set_button_checked (create noFlags true) eConfigFlag.DockAreaHasSettingButton true = none :=
  ⟨getButton_create_noFlags_setting,
    C7_set_button_checked_null_deref (create noFlags true) eConfigFlag.DockAreaHasSettingButton
      true getButton_create_noFlags_setting⟩

end CDockAreaTitleBar

end ads

/-! ## Theorems about the drag state of `CDockAreaTitleBar` and the settings button -/

namespace ads

namespace CDockAreaTitleBar

open DockAreaTitleBarPrivate

theorem resetSetButton_eq_none (d : DockAreaTitleBarPrivate) (h : d.SetButton = none) :
    d.resetSetButton = none := by
  simp [resetSetButton, h]

theorem resetSetButton_DragState {d d' : DockAreaTitleBarPrivate}
    (h : d.resetSetButton = some d') : d'.DragState = d.DragState := by
  unfold resetSetButton at h
  split at h
  · simp at h
  · simp only [Option.some.injEq] at h
    subst h
    rfl

theorem resetLoop_eq_none (Index : Int) (l : List Nat) (d : DockAreaTitleBarPrivate)
    (h : d.SetButton = none) (hex : ∃ i ∈ l, (i : Int) ≠ Index) :
    resetLoop Index l d = none := by
  induction l with
  | nil =>
    obtain ⟨i, hi, _⟩ := hex
    simp at hi
  | cons j rest ih =>
    unfold resetLoop
    by_cases hj : (j : Int) ≠ Index
    · simp only [hj, ne_eq, not_false_eq_true, if_true, resetSetButton_eq_none d h]
    · simp only [hj, if_false]
      apply ih
      obtain ⟨i, hi, hne⟩ := hex
      rcases List.mem_cons.mp hi with hij | hir
      · subst hij
        exact absurd hne hj
      · exact ⟨i, hir, hne⟩

theorem resetLoop_DragState (Index : Int) (l : List Nat) :
    ∀ {d d' : DockAreaTitleBarPrivate}, resetLoop Index l d = some d' →
      d'.DragState = d.DragState := by
  induction l with
  | nil =>
    intro d d' h
    simp only [resetLoop, Option.some.injEq] at h
    subst h
    rfl
  | cons j rest ih =>
    intro d d' h
    unfold resetLoop at h
    split_ifs at h with hj
    · cases hr : d.resetSetButton with
      | none => simp [hr] at h
      | some d1 =>
        simp only [hr] at h
        rw [ih h, resetSetButton_DragState hr]
    · exact ih h

theorem makeAreaFloating_DragState {env : Env} {d d' : DockAreaTitleBarPrivate}
    {Offset : QPoint} {DragState : eDragState} {fw : FloatingWidget}
    (h : makeAreaFloating env d Offset DragState = some (d', fw)) :
    d'.DragState = DragState := by
  unfold makeAreaFloating at h
  dsimp only at h
  split at h
  · simp at h
  · rename_i d1 hr
    simp only [Option.some.injEq, Prod.mk.injEq] at h
    rw [← h.1, resetSetButton_DragState hr]

theorem updateDockWidgetActionsButtons_DragState (actions : List String)
    (d : DockAreaTitleBarPrivate) :
    (updateDockWidgetActionsButtons actions d).DragState = d.DragState := by
  unfold updateDockWidgetActionsButtons
  dsimp only
  split_ifs <;> rfl

theorem onCurrentTabChanged_DragState {env : Env} {d d' : DockAreaTitleBarPrivate}
    {Index count : Int} {closable playState : Bool} {actions : List String}
    (h : onCurrentTabChanged env d Index count closable playState actions = some d') :
    d'.DragState = d.DragState := by
  unfold onCurrentTabChanged at h
  split_ifs at h with h0 hflag hlt
  · simp only [Option.some.injEq] at h
    subst h
    rfl
  · cases hc : d.CloseButton with
    | none => simp [hc] at h
    | some c =>
      simp only [hc] at h
      cases hl : resetLoop Index (List.range count.toNat)
          { d with CloseButton := some (c.setEnabled closable) } with
      | none => simp [hl] at h
      | some d1 =>
        simp only [hl] at h
        have h1 := resetLoop_DragState Index _ hl
        cases hp : d1.PlayPauseButton with
        | none =>
          simp only [hp, Option.map_some', Option.some.injEq] at h
          subst h
          rw [updateDockWidgetActionsButtons_DragState, h1]
        | some p =>
          simp only [hp, Option.map_some', Option.some.injEq] at h
          subst h
          rw [updateDockWidgetActionsButtons_DragState]
          exact h1
  · simp at h
  · simp only [Option.map_some', Option.some.injEq] at h
    subst h
    exact updateDockWidgetActionsButtons_DragState actions d

/-- What a handler does to the drag state: it leaves it alone, or makes it `DraggingInactive`, or
makes it `DraggingMousePressed`, or is a `mouseMoveEvent` with the left button held, in a state
other than `DraggingInactive` and `DraggingFloatingWidget`, at a Manhattan distance of at least
`startDragDistance()` from the press position, and makes it `DraggingFloatingWidget`. -/
theorem handle_DragState {env : Env} {d d' : DockAreaTitleBarPrivate} {e : Event}
    (h : handle env d e = some d') :
    d'.DragState = d.DragState
    ∨ d'.DragState = eDragState.DraggingInactive
    ∨ d'.DragState = eDragState.DraggingMousePressed
    ∨ (d'.DragState = eDragState.DraggingFloatingWidget
        ∧ d.DragState ≠ eDragState.DraggingInactive
        ∧ d.DragState ≠ eDragState.DraggingFloatingWidget
        ∧ ∃ pos, e = Event.mouseMove true pos
          ∧ env.startDragDistance ≤ (QPoint.sub d.DragStartMousePos pos).manhattanLength) := by
  cases e with
  | mousePress left pos =>
    simp only [handle, mousePressEvent, Option.some.injEq] at h
    subst h
    cases left
    · exact Or.inl rfl
    · exact Or.inr (Or.inr (Or.inl rfl))
  | mouseRelease left =>
    simp only [handle, mouseReleaseEvent] at h
    cases left
    · simp only [Bool.false_eq_true, if_false, Option.some.injEq] at h
      subst h
      exact Or.inl rfl
    · simp only [if_true] at h
      split_ifs at h
      · cases hf : d.FloatingWidget with
        | none => simp [hf] at h
        | some fw =>
          simp only [hf, Option.some.injEq] at h
          subst h
          exact Or.inr (Or.inl rfl)
      · simp only [Option.some.injEq] at h
        subst h
        exact Or.inr (Or.inl rfl)
  | mouseMove leftHeld pos =>
    simp only [handle, mouseMoveEvent] at h
    split_ifs at h with h1 h2 h3 h4 h5 h6
    · simp only [Option.some.injEq] at h
      subst h
      exact Or.inl rfl
    · simp only [Option.some.injEq] at h
      subst h
      exact Or.inl rfl
    · simp only [Option.some.injEq] at h
      subst h
      exact Or.inr (Or.inl rfl)
    · cases hf : d.FloatingWidget with
      | none => simp [hf] at h
      | some fw =>
        simp only [hf, Option.some.injEq] at h
        subst h
        exact Or.inl rfl
    · simp only [Option.some.injEq] at h
      subst h
      exact Or.inl rfl
    · unfold startFloating at h
      cases hm : makeAreaFloating env d d.DragStartMousePos eDragState.DraggingFloatingWidget with
      | none => simp [hm] at h
      | some r =>
        obtain ⟨d1, fw⟩ := r
        simp only [hm, Option.some.injEq] at h
        subst h
        have hd := makeAreaFloating_DragState hm
        simp only [Bool.or_eq_true, Bool.not_eq_true', decide_eq_true_eq, not_or,
          Bool.not_eq_false] at h3
        refine Or.inr (Or.inr (Or.inr ⟨hd, h3.2, h4, pos, ?_, h6⟩))
        rw [h3.1]
    · simp only [Option.some.injEq] at h
      subst h
      exact Or.inl rfl
  | mouseDoubleClick pos =>
    simp only [handle, mouseDoubleClickEvent] at h
    split_ifs at h
    · simp only [Option.some.injEq] at h
      subst h
      exact Or.inl rfl
    · simp only [Option.some.injEq] at h
      subst h
      exact Or.inl rfl
    · simp only [Option.some.injEq] at h
      subst h
      exact Or.inl rfl
    · cases hm : makeAreaFloating env d pos eDragState.DraggingInactive with
      | none => simp [hm] at h
      | some r =>
        obtain ⟨d1, fw⟩ := r
        simp only [hm, Option.map_some', Option.some.injEq] at h
        subst h
        exact Or.inr (Or.inl (makeAreaFloating_DragState hm))
  | undockButtonClicked cursor =>
    simp only [handle, onUndockButtonClicked] at h
    split_ifs at h
    · cases hm : makeAreaFloating env d cursor eDragState.DraggingInactive with
      | none => simp [hm] at h
      | some r =>
        obtain ⟨d1, fw⟩ := r
        simp only [hm, Option.map_some', Option.some.injEq] at h
        subst h
        exact Or.inr (Or.inl (makeAreaFloating_DragState hm))
    · simp only [Option.some.injEq] at h
      subst h
      exact Or.inl rfl
  | setVisible Visible =>
    simp only [handle, CDockAreaTitleBar.setVisible, markTabsMenuOutdated,
      Option.some.injEq] at h
    subst h
    cases Visible
    · exact Or.inr (Or.inl rfl)
    · exact Or.inl rfl
  | draggingCanceled =>
    simp only [handle, CDockAreaTitleBar.draggingCanceled, Option.some.injEq] at h
    subst h
    exact Or.inr (Or.inl rfl)
  | currentTabChanged Index count closable playState actions =>
    exact Or.inl (onCurrentTabChanged_DragState h)

theorem create_DragState (cfg : ConfigFlags) (stateVisible : Bool) :
    (create cfg stateVisible).DragState = eDragState.DraggingInactive := by
  unfold create
  cases h1 : cfg eConfigFlag.DockAreaHasSettingButton <;>
  cases h2 : cfg eConfigFlag.DockAreaHasPlayPauseButton <;>
  cases h3 : cfg eConfigFlag.DockAreaHasDefaultSetButton <;>
  cases h4 : cfg eConfigFlag.DockAreaHasCaptureButton <;>
  simp [createButtons, h1, h2, h3, h4, DockAreaTitleBarPrivate.init]

/-- The title bar never enters the state `DraggingTab`. -/
theorem Reachable.ne_DraggingTab {d : DockAreaTitleBarPrivate} (h : Reachable d) :
    d.DragState ≠ eDragState.DraggingTab := by
  induction h with
  | create cfg stateVisible =>
    rw [create_DragState]
    decide
  | step env e _ hs ih =>
    rcases handle_DragState hs with h | h | h | h
    · rw [h]
      exact ih
    · rw [h]
      decide
    · rw [h]
      decide
    · rw [h.1]
      decide

/-- C3: a title bar starts in the state `DraggingInactive`, and whenever a handler (mouse press,
release, move, double click, undock button, `setVisible`, cancelled drag, change of the current
tab) takes a title bar that is not in the state `DraggingFloatingWidget` into that state, the
handler is `mouseMoveEvent` with the left button held, the state before was
`DraggingMousePressed`, and the Manhattan distance between the recorded press position and the
position of the event is at least `CDockManager::startDragDistance()`; in particular no handler
leads from `DraggingInactive` to `DraggingFloatingWidget`. -/
theorem C3_floating_only_by_drag_from_pressed (d : DockAreaTitleBarPrivate) (hr : Reachable d)
    (env : Env) (e : Event) (d' : DockAreaTitleBarPrivate) (hstep : handle env d e = some d')
    (hfloat : d'.DragState = eDragState.DraggingFloatingWidget)
    (hbefore : d.DragState ≠ eDragState.DraggingFloatingWidget) :
    (∀ cfg stateVisible, (create cfg stateVisible).DragState = eDragState.DraggingInactive)
    ∧ d.DragState = eDragState.DraggingMousePressed
    ∧ d.DragState ≠ eDragState.DraggingInactive
    ∧ ∃ pos, e = Event.mouseMove true pos
        ∧ env.startDragDistance ≤ (QPoint.sub d.DragStartMousePos pos).manhattanLength := by
  have htab := hr.ne_DraggingTab
  rcases handle_DragState hstep with h | h | h | h
  · rw [h] at hfloat
    exact absurd hfloat hbefore
  · rw [h] at hfloat
    cases hfloat
  · rw [h] at hfloat
    cases hfloat
  · obtain ⟨_, hni, hnf, hex⟩ := h
    refine ⟨create_DragState, ?_, hni, hex⟩
    cases hd : d.DragState with
    | DraggingInactive => exact absurd hd hni
    | DraggingMousePressed => rfl
    | DraggingTab => exact absurd hd htab
    | DraggingFloatingWidget => exact absurd hd hnf

theorem demoPressed_reachable : Reachable demoPressed :=
  Reachable.step demoEnv (Event.mousePress true { x := 0, y := 0 })
    (Reachable.create allFlags true) rfl

theorem demoFloating_step :
    handle demoEnv demoPressed (Event.mouseMove true { x := 10, y := 5 }) = some demoFloating := by
  have e : mouseMoveEvent demoEnv demoPressed true { x := 10, y := 5 } = some demoFloating :=
    CDockAreaLayout.some_getD_of_isSome _ _ (by decide)
  exact e

/-- C3 at the title bar created with every flag set: after a press at (0, 0), a move to (10, 5)
with the left button held and a start drag distance of 10 starts floating. -/
theorem C3_floating_only_by_drag_from_pressed_witness :
    Reachable demoPressed
    ∧ handle demoEnv demoPressed (Event.mouseMove true { x := 10, y := 5 }) = some demoFloating
    ∧ demoFloating.DragState = eDragState.DraggingFloatingWidget
    ∧ demoPressed.DragState ≠ eDragState.DraggingFloatingWidget
    ∧ ((∀ cfg stateVisible, (create cfg stateVisible).DragState = eDragState.DraggingInactive)
      ∧ demoPressed.DragState = eDragState.DraggingMousePressed
      ∧ demoPressed.DragState ≠ eDragState.DraggingInactive
      ∧ ∃ pos, Event.mouseMove true { x := 10, y := 5 } = Event.mouseMove true pos
          ∧ demoEnv.startDragDistance
            ≤ (QPoint.sub demoPressed.DragStartMousePos pos).manhattanLength) :=
  ⟨demoPressed_reachable, demoFloating_step, by decide, by decide,
    C3_floating_only_by_drag_from_pressed demoPressed demoPressed_reachable demoEnv
      (Event.mouseMove true { x := 10, y := 5 }) demoFloating demoFloating_step (by decide)
      (by decide)⟩

theorem create_SetButton_of_unset (cfg : ConfigFlags) (stateVisible : Bool)
    (h : cfg eConfigFlag.DockAreaHasSettingButton = false) :
    (create cfg stateVisible).SetButton = none := by
  unfold create
  rw [createButtons_SetButton_of_unset cfg stateVisible _ h]
  rfl

/-- C8 (as the code behaves): on a title bar created without the flag
`DockAreaHasSettingButton`, `makeAreaFloating` calls `resetState` through the null `SetButton`
for every offset and drag state, and so does `onCurrentTabChanged` for every valid tab index
when `DockAreaCloseButtonClosesTab` is set and there are at least two tabs. -/
theorem C8_null_SetButton_dereferenced (cfg : ConfigFlags) (stateVisible : Bool)
    (h : cfg eConfigFlag.DockAreaHasSettingButton = false) (env : Env) :
    (∀ Offset DragState, makeAreaFloating env (create cfg stateVisible) Offset DragState = none)
    ∧ (∀ (Index count : Int) (closable playState : Bool) (actions : List String),
        env.testConfigFlag eConfigFlag.DockAreaCloseButtonClosesTab = true →
        0 ≤ Index → Index < count → 2 ≤ count →
        onCurrentTabChanged env (create cfg stateVisible) Index count closable playState actions
          = none) := by
  have hs := create_SetButton_of_unset cfg stateVisible h
  constructor
  · intro Offset DragState
    unfold makeAreaFloating
    dsimp only
    rw [resetSetButton_eq_none _ (show ({ create cfg stateVisible with
      DragState := DragState } : DockAreaTitleBarPrivate).SetButton = none from hs)]
  · intro Index count closable playState actions hflag h0 hlt h2
    unfold onCurrentTabChanged
    simp only [not_lt.mpr h0, if_false, hflag, if_true, hlt]
    cases hc : (create cfg stateVisible).CloseButton with
    | none => rfl
    | some c =>
      dsimp only
      have hl : resetLoop Index (List.range count.toNat)
          { create cfg stateVisible with CloseButton := some (c.setEnabled closable) } = none := by
        apply resetLoop_eq_none
        · exact hs
        · by_cases hi : Index = 0
          · refine ⟨1, List.mem_range.mpr (by omega), ?_⟩
            rw [hi]
            decide
          · refine ⟨0, List.mem_range.mpr (by omega), ?_⟩
            intro h0'
            exact hi h0'.symm
      rw [hl]
      rfl

/-- C8 under the configuration with every flag but `DockAreaHasSettingButton`: making the area
floating and changing the current tab to index 0 of 2 tabs both go through the null
`SetButton`. -/
theorem C8_null_SetButton_dereferenced_witness :
    noSettingFlags eConfigFlag.DockAreaHasSettingButton = false
    ∧ makeAreaFloating demoEnvNoSetting (create noSettingFlags true) { x := 3, y := 4 }
        eDragState.DraggingInactive = none
    ∧ onUndockButtonClicked demoEnvNoSetting (create noSettingFlags true) { x := 3, y := 4 }
        = none
    ∧ onCurrentTabChanged demoEnvNoSetting (create noSettingFlags true) 0 2 true true [] = none :=
  ⟨rfl,
    (C8_null_SetButton_dereferenced noSettingFlags true rfl demoEnvNoSetting).1 { x := 3, y := 4 }
      eDragState.DraggingInactive,
    by decide,
    (C8_null_SetButton_dereferenced noSettingFlags true rfl demoEnvNoSetting).2 0 2 true true []
      rfl (by decide) (by decide) (by decide)⟩

/-- The sibling guard: with the settings button present and the play/pause button absent,
`onCurrentTabChanged` completes (`if (!d->PlayPauseButton.isNull())`). -/
theorem onCurrentTabChanged_null_PlayPauseButton_guarded :
    (create (fun f => decide (f ≠ eConfigFlag.DockAreaHasPlayPauseButton)) true).PlayPauseButton
      = none
    ∧ (onCurrentTabChanged demoEnv
        (create (fun f => decide (f ≠ eConfigFlag.DockAreaHasPlayPauseButton)) true)
        0 2 true true []).isSome = true := by
  decide

end CDockAreaTitleBar

end ads

/-! ## Theorems about the mouse handlers of `CDockAreaTitleBar` -/

namespace ads

namespace CDockAreaTitleBar

open DockAreaTitleBarPrivate

/-- C13: when the container of the dock area is floating and has exactly one visible dock area,
`mouseMoveEvent` in the state `DraggingMousePressed` with the left button held returns with the
title bar unchanged for every position of the event, so the drag state stays
`DraggingMousePressed`; and from every state other than `DraggingFloatingWidget`, with or
without the left button, it completes without entering `DraggingFloatingWidget` and without
creating a floating widget. -/
theorem C13_last_area_of_floating_container_stays (env : Env) (d : DockAreaTitleBarPrivate)
    (pos : QPoint) (hfloating : env.isFloating = true) (hone : env.visibleDockAreaCount = 1) :
    (d.DragState = eDragState.DraggingMousePressed → mouseMoveEvent env d true pos = some d)
    ∧ (d.DragState ≠ eDragState.DraggingFloatingWidget → ∀ leftHeld,
        ∃ d', mouseMoveEvent env d leftHeld pos = some d'
          ∧ d'.DragState ≠ eDragState.DraggingFloatingWidget
          ∧ d'.FloatingWidget = d.FloatingWidget) := by
  constructor
  · intro hp
    have hguard : (env.isFloating && decide (env.visibleDockAreaCount = 1)) = true := by
      simp [hfloating, hone]
    have hni : ¬ ((!true || decide (d.DragState = eDragState.DraggingInactive)) = true) := by
      simp [hp]
    have hnfl : d.DragState ≠ eDragState.DraggingFloatingWidget := by
      rw [hp]
      decide
    unfold mouseMoveEvent
    split_ifs
    all_goals rfl
  · intro hn leftHeld
    have hguard : (env.isFloating && decide (env.visibleDockAreaCount = 1)) = true := by
      simp [hfloating, hone]
    unfold mouseMoveEvent
    split_ifs
    all_goals first
      | exact ⟨d, rfl, hn, rfl⟩
      | exact ⟨_, rfl, by simp, rfl⟩

/-- C13 at the pressed title bar in a floating container with one visible dock area: a move to
(100, 100), far beyond the start drag distance of 10, changes nothing. -/
theorem C13_last_area_of_floating_container_stays_witness :
    demoEnvFloatingLastArea.isFloating = true
    ∧ demoEnvFloatingLastArea.visibleDockAreaCount = 1
    ∧ demoPressed.DragState = eDragState.DraggingMousePressed
    ∧ mouseMoveEvent demoEnvFloatingLastArea demoPressed true { x := 100, y := 100 }
        = some demoPressed :=
  ⟨rfl, rfl, by decide,
    (C13_last_area_of_floating_container_stays demoEnvFloatingLastArea demoPressed
      { x := 100, y := 100 } rfl rfl).1 (by decide)⟩

theorem mouseDoubleClickEvent_eq (env : Env) (d : DockAreaTitleBarPrivate) (pos : QPoint) :
    mouseDoubleClickEvent env d pos
      = (mouseDoubleClickEvent_floating env d pos).map Prod.fst := by
  unfold mouseDoubleClickEvent mouseDoubleClickEvent_floating
  split_ifs
  · rfl
  · rfl
  · rfl
  · cases makeAreaFloating env d pos eDragState.DraggingInactive with
    | none => rfl
    | some r => rfl

/-- C14 (as the code behaves): in a dock container that is not floating, whatever the number of
its dock areas and so also when this area is its only one, a double click on the title bar of a
floatable area, with the settings button present and no handler that forbids the move, passes
the guard of lines 748-751 and calls `makeAreaFloating`: a `CFloatingDockContainer` is created
for the area at the position of the click. The guard asks for a floating container, while the
comment above it (lines 745-747) speaks of the last dock area in a dock container. -/
theorem C14_double_click_docked_last_area_floats (env : Env) (d : DockAreaTitleBarPrivate)
    (pos : QPoint)
    (hdocked : env.isFloating = false) (hfloatable : env.floatable = true)
    (hh : env.allow_move_handler_ ≠ some false) (hs : d.SetButton.isSome = true) :
    ∃ d', mouseDoubleClickEvent_floating env d pos
        = some (d', some { isContainer := true, Offset := pos,
                           DragState := eDragState.DraggingInactive, moved := 0, finished := 0 })
      ∧ mouseDoubleClickEvent env d pos = some d'
      ∧ d'.DragState = eDragState.DraggingInactive := by
  have h : ∃ d', mouseDoubleClickEvent_floating env d pos
        = some (d', some { isContainer := true, Offset := pos,
                           DragState := eDragState.DraggingInactive, moved := 0, finished := 0 })
      ∧ d'.DragState = eDragState.DraggingInactive := by
    obtain ⟨b, hb⟩ := Option.isSome_iff_exists.mp hs
    unfold mouseDoubleClickEvent_floating
    simp only [hh, hdocked, hfloatable, if_false, Bool.false_and, Bool.not_true,
      Bool.false_eq_true]
    unfold makeAreaFloating
    simp [resetSetButton, hb]
  obtain ⟨d', h1, h2⟩ := h
  exact ⟨d', h1, by rw [mouseDoubleClickEvent_eq, h1]; rfl, h2⟩

/-- C14 at the title bar created with every flag set, in a docked container with a single dock
area: the double click at (3, 4) creates a floating container for the area. -/
theorem C14_double_click_docked_last_area_floats_witness :
    demoEnvLastArea.dockAreaCount = 1
    ∧ demoEnvLastArea.isFloating = false
    ∧ (mouseDoubleClickEvent_floating demoEnvLastArea (create allFlags true)
        { x := 3, y := 4 }).map Prod.snd
      = some (some { isContainer := true, Offset := { x := 3, y := 4 },
                     DragState := eDragState.DraggingInactive, moved := 0, finished := 0 })
    ∧ ∃ d', mouseDoubleClickEvent_floating demoEnvLastArea (create allFlags true)
          { x := 3, y := 4 }
        = some (d', some { isContainer := true, Offset := { x := 3, y := 4 },
                           DragState := eDragState.DraggingInactive, moved := 0, finished := 0 })
      ∧ mouseDoubleClickEvent demoEnvLastArea (create allFlags true) { x := 3, y := 4 } = some d'
      ∧ d'.DragState = eDragState.DraggingInactive :=
  ⟨by decide, by decide, by decide,
    C14_double_click_docked_last_area_floats demoEnvLastArea (create allFlags true)
      { x := 3, y := 4 } (by decide) (by decide) (by decide) (by decide)⟩

/-- When the dock container is floating and the area is its only dock area, the guard of lines
748-751 holds: `mouseDoubleClickEvent` returns with the title bar unchanged and without creating
a floating widget. -/
theorem mouseDoubleClickEvent_last_area_of_floating_container (env : Env)
    (d : DockAreaTitleBarPrivate) (pos : QPoint) (hfloating : env.isFloating = true)
    (hone : env.dockAreaCount = 1) :
    mouseDoubleClickEvent_floating env d pos = some (d, none)
    ∧ mouseDoubleClickEvent env d pos = some d := by
  have h : mouseDoubleClickEvent_floating env d pos = some (d, none) := by
    unfold mouseDoubleClickEvent_floating
    split_ifs with h1 h2
    · rfl
    · rfl
    all_goals simp [hfloating, hone] at h2
  exact ⟨h, by rw [mouseDoubleClickEvent_eq, h]; rfl⟩

/-- The double click at the title bar created with every flag set, in a floating container with
one dock area, changes nothing. -/
theorem mouseDoubleClickEvent_demoEnvFloatingLastArea :
    demoEnvFloatingLastArea.isFloating = true
    ∧ demoEnvFloatingLastArea.dockAreaCount = 1
    ∧ mouseDoubleClickEvent_floating demoEnvFloatingLastArea (create allFlags true)
        { x := 3, y := 4 } = some (create allFlags true, none)
    ∧ mouseDoubleClickEvent demoEnvFloatingLastArea (create allFlags true) { x := 3, y := 4 }
        = some (create allFlags true) :=
  ⟨rfl, rfl,
    mouseDoubleClickEvent_last_area_of_floating_container demoEnvFloatingLastArea
      (create allFlags true) { x := 3, y := 4 } rfl rfl⟩

/-- With the settings button present, `mouseMoveEvent` in the state `DraggingMousePressed` does
what the threshold says: at a distance of at least `startDragDistance()` the state becomes
`DraggingFloatingWidget` and a floating widget is recorded, below it nothing changes. -/
theorem mouseMoveEvent_threshold (env : Env) (d : DockAreaTitleBarPrivate) (pos : QPoint)
    (b : TitleBarButton) (hs : d.SetButton = some b)
    (hp : d.DragState = eDragState.DraggingMousePressed) (ha : env.allow_move = true)
    (hh : env.allow_move_handler_ ≠ some false)
    (hnf : ¬ (env.isFloating = true ∧ env.visibleDockAreaCount = 1)) :
    (env.startDragDistance ≤ (QPoint.sub d.DragStartMousePos pos).manhattanLength →
      ∃ d', mouseMoveEvent env d true pos = some d'
        ∧ d'.DragState = eDragState.DraggingFloatingWidget
        ∧ d'.FloatingWidget.isSome = true)
    ∧ ((QPoint.sub d.DragStartMousePos pos).manhattanLength < env.startDragDistance →
      mouseMoveEvent env d true pos = some d) := by
  have h5 : ¬ ((env.isFloating && decide (env.visibleDockAreaCount = 1)) = true) := by
    simpa using hnf
  constructor
  · intro hd
    unfold mouseMoveEvent
    simp only [ha, Bool.not_true, Bool.false_eq_true, if_false, hh, hp, Bool.not_true,
      Bool.false_or, decide_eq_true_eq, reduceCtorEq, h5, ge_iff_le, hd, if_true]
    unfold startFloating makeAreaFloating
    simp [resetSetButton, hs]
  · intro hd
    unfold mouseMoveEvent
    simp only [ha, Bool.not_true, Bool.false_eq_true, if_false, hh, hp,
      Bool.false_or, decide_eq_true_eq, reduceCtorEq, h5, ge_iff_le, not_le.mpr hd]

/-- C16 (as the code behaves): on a title bar without settings button, `mouseMoveEvent` in the
state `DraggingMousePressed`, with moving allowed, the left button held, the container not a
floating one with a single visible dock area and a Manhattan distance of at least
`startDragDistance()`, calls `makeAreaFloating`, which goes through the null `SetButton`: the
handler does not complete. -/
theorem C16_drag_with_null_SetButton (env : Env) (d : DockAreaTitleBarPrivate) (pos : QPoint)
    (hs : d.SetButton = none) (hp : d.DragState = eDragState.DraggingMousePressed)
    (ha : env.allow_move = true) (hh : env.allow_move_handler_ ≠ some false)
    (hnf : ¬ (env.isFloating = true ∧ env.visibleDockAreaCount = 1))
    (hd : env.startDragDistance ≤ (QPoint.sub d.DragStartMousePos pos).manhattanLength) :
    mouseMoveEvent env d true pos = none := by
  have h5 : ¬ ((env.isFloating && decide (env.visibleDockAreaCount = 1)) = true) := by
    simpa using hnf
  unfold mouseMoveEvent
  simp only [ha, Bool.not_true, Bool.false_eq_true, if_false, hh, hp,
    Bool.false_or, decide_eq_true_eq, reduceCtorEq, h5, ge_iff_le, hd, if_true]
  unfold startFloating makeAreaFloating
  simp [resetSetButton, hs]

/-- C16 at the title bar created with every flag but `DockAreaHasSettingButton`: after a press
at (0, 0), a move to (10, 5) with a start drag distance of 10 does not complete. -/
theorem C16_drag_with_null_SetButton_witness :
    demoPressedNoSetting.SetButton = none
    ∧ demoPressedNoSetting.DragState = eDragState.DraggingMousePressed
    ∧ demoEnvNoSetting.startDragDistance
        ≤ (QPoint.sub demoPressedNoSetting.DragStartMousePos { x := 10, y := 5 }).manhattanLength
    ∧ mouseMoveEvent demoEnvNoSetting demoPressedNoSetting true { x := 10, y := 5 } = none :=
  ⟨by decide, by decide, by decide,
    C16_drag_with_null_SetButton demoEnvNoSetting demoPressedNoSetting { x := 10, y := 5 }
      (by decide) (by decide) rfl (by decide) (by decide) (by decide)⟩

theorem resetSetButton_FloatingWidget {d d' : DockAreaTitleBarPrivate}
    (h : d.resetSetButton = some d') : d'.FloatingWidget = d.FloatingWidget := by
  unfold resetSetButton at h
  split at h
  · simp at h
  · simp only [Option.some.injEq] at h
    subst h
    rfl

theorem resetLoop_FloatingWidget (Index : Int) (l : List Nat) :
    ∀ {d d' : DockAreaTitleBarPrivate}, resetLoop Index l d = some d' →
      d'.FloatingWidget = d.FloatingWidget := by
  induction l with
  | nil =>
    intro d d' h
    simp only [resetLoop, Option.some.injEq] at h
    subst h
    rfl
  | cons j rest ih =>
    intro d d' h
    unfold resetLoop at h
    split_ifs at h with hj
    · cases hr : d.resetSetButton with
      | none => simp [hr] at h
      | some d1 =>
        simp only [hr] at h
        rw [ih h, resetSetButton_FloatingWidget hr]
    · exact ih h

theorem makeAreaFloating_FloatingWidget {env : Env} {d d' : DockAreaTitleBarPrivate}
    {Offset : QPoint} {DragState : eDragState} {fw : FloatingWidget}
    (h : makeAreaFloating env d Offset DragState = some (d', fw)) :
    d'.FloatingWidget = d.FloatingWidget := by
  unfold makeAreaFloating at h
  dsimp only at h
  split at h
  · simp at h
  · rename_i d1 hr
    simp only [Option.some.injEq, Prod.mk.injEq] at h
    rw [← h.1, resetSetButton_FloatingWidget hr]

theorem updateDockWidgetActionsButtons_FloatingWidget (actions : List String)
    (d : DockAreaTitleBarPrivate) :
    (updateDockWidgetActionsButtons actions d).FloatingWidget = d.FloatingWidget := by
  unfold updateDockWidgetActionsButtons
  dsimp only
  split_ifs <;> rfl

theorem onCurrentTabChanged_FloatingWidget {env : Env} {d d' : DockAreaTitleBarPrivate}
    {Index count : Int} {closable playState : Bool} {actions : List String}
    (h : onCurrentTabChanged env d Index count closable playState actions = some d') :
    d'.FloatingWidget = d.FloatingWidget := by
  unfold onCurrentTabChanged at h
  split_ifs at h with h0 hflag hlt
  · simp only [Option.some.injEq] at h
    subst h
    rfl
  · cases hc : d.CloseButton with
    | none => simp [hc] at h
    | some c =>
      simp only [hc] at h
      cases hl : resetLoop Index (List.range count.toNat)
          { d with CloseButton := some (c.setEnabled closable) } with
      | none => simp [hl] at h
      | some d1 =>
        simp only [hl] at h
        have h1 := resetLoop_FloatingWidget Index _ hl
        cases hp : d1.PlayPauseButton with
        | none =>
          simp only [hp, Option.map_some', Option.some.injEq] at h
          subst h
          rw [updateDockWidgetActionsButtons_FloatingWidget, h1]
        | some p =>
          simp only [hp, Option.map_some', Option.some.injEq] at h
          subst h
          rw [updateDockWidgetActionsButtons_FloatingWidget]
          exact h1
  · simp at h
  · simp only [Option.map_some', Option.some.injEq] at h
    subst h
    exact updateDockWidgetActionsButtons_FloatingWidget actions d

/-- A handler never clears the recorded floating widget, and a handler that enters
`DraggingFloatingWidget` records one. -/
theorem handle_FloatingWidget {env : Env} {d d' : DockAreaTitleBarPrivate} {e : Event}
    (h : handle env d e = some d') :
    (d.FloatingWidget.isSome = true → d'.FloatingWidget.isSome = true)
    ∧ (d'.DragState = eDragState.DraggingFloatingWidget →
        d.DragState ≠ eDragState.DraggingFloatingWidget → d'.FloatingWidget.isSome = true) := by
  cases e with
  | mousePress left pos =>
    simp only [handle, mousePressEvent, Option.some.injEq] at h
    subst h
    cases left
    · exact ⟨id, fun h1 h2 => absurd h1 h2⟩
    · exact ⟨id, fun h1 _ => by cases h1⟩
  | mouseRelease left =>
    simp only [handle, mouseReleaseEvent] at h
    cases left
    · simp only [Bool.false_eq_true, if_false, Option.some.injEq] at h
      subst h
      exact ⟨id, fun h1 h2 => absurd h1 h2⟩
    · simp only [if_true] at h
      split_ifs at h
      · cases hf : d.FloatingWidget with
        | none => simp [hf] at h
        | some fw =>
          simp only [hf, Option.some.injEq] at h
          subst h
          exact ⟨fun _ => rfl, fun h1 _ => by cases h1⟩
      · simp only [Option.some.injEq] at h
        subst h
        exact ⟨id, fun h1 _ => by cases h1⟩
  | mouseMove leftHeld pos =>
    simp only [handle, mouseMoveEvent] at h
    split_ifs at h with h1 h2 h3 h4 h5 h6
    · simp only [Option.some.injEq] at h
      subst h
      exact ⟨id, fun h1 h2 => absurd h1 h2⟩
    · simp only [Option.some.injEq] at h
      subst h
      exact ⟨id, fun h1 h2 => absurd h1 h2⟩
    · simp only [Option.some.injEq] at h
      subst h
      exact ⟨id, fun h1 _ => by cases h1⟩
    · cases hf : d.FloatingWidget with
      | none => simp [hf] at h
      | some fw =>
        simp only [hf, Option.some.injEq] at h
        subst h
        exact ⟨fun _ => rfl, fun _ h2 => absurd h4 h2⟩
    · simp only [Option.some.injEq] at h
      subst h
      exact ⟨id, fun h1 h2 => absurd h1 h2⟩
    · unfold startFloating at h
      cases hm : makeAreaFloating env d d.DragStartMousePos eDragState.DraggingFloatingWidget with
      | none => simp [hm] at h
      | some r =>
        obtain ⟨d1, fw⟩ := r
        simp only [hm, Option.some.injEq] at h
        subst h
        exact ⟨fun _ => rfl, fun _ _ => rfl⟩
    · simp only [Option.some.injEq] at h
      subst h
      exact ⟨id, fun h1 h2 => absurd h1 h2⟩
  | mouseDoubleClick pos =>
    simp only [handle, mouseDoubleClickEvent] at h
    split_ifs at h
    · simp only [Option.some.injEq] at h
      subst h
      exact ⟨id, fun h1 h2 => absurd h1 h2⟩
    · simp only [Option.some.injEq] at h
      subst h
      exact ⟨id, fun h1 h2 => absurd h1 h2⟩
    · simp only [Option.some.injEq] at h
      subst h
      exact ⟨id, fun h1 h2 => absurd h1 h2⟩
    · cases hm : makeAreaFloating env d pos eDragState.DraggingInactive with
      | none => simp [hm] at h
      | some r =>
        obtain ⟨d1, fw⟩ := r
        simp only [hm, Option.map_some', Option.some.injEq] at h
        subst h
        have hd := makeAreaFloating_DragState hm
        have hf := makeAreaFloating_FloatingWidget hm
        refine ⟨fun h1 => by rw [hf]; exact h1, fun h1 _ => ?_⟩
        rw [hd] at h1
        cases h1
  | undockButtonClicked cursor =>
    simp only [handle, onUndockButtonClicked] at h
    split_ifs at h
    · cases hm : makeAreaFloating env d cursor eDragState.DraggingInactive with
      | none => simp [hm] at h
      | some r =>
        obtain ⟨d1, fw⟩ := r
        simp only [hm, Option.map_some', Option.some.injEq] at h
        subst h
        have hd := makeAreaFloating_DragState hm
        have hf := makeAreaFloating_FloatingWidget hm
        refine ⟨fun h1 => by rw [hf]; exact h1, fun h1 _ => ?_⟩
        rw [hd] at h1
        cases h1
    · simp only [Option.some.injEq] at h
      subst h
      exact ⟨id, fun h1 h2 => absurd h1 h2⟩
  | setVisible Visible =>
    simp only [handle, CDockAreaTitleBar.setVisible, markTabsMenuOutdated,
      Option.some.injEq] at h
    subst h
    cases Visible
    · exact ⟨id, fun h1 _ => by cases h1⟩
    · exact ⟨id, fun h1 h2 => absurd h1 h2⟩
  | draggingCanceled =>
    simp only [handle, CDockAreaTitleBar.draggingCanceled, Option.some.injEq] at h
    subst h
    exact ⟨id, fun h1 _ => by cases h1⟩
  | currentTabChanged Index count closable playState actions =>
    have hd := onCurrentTabChanged_DragState h
    have hf := onCurrentTabChanged_FloatingWidget h
    refine ⟨fun h1 => by rw [hf]; exact h1, fun h1 h2 => ?_⟩
    rw [hd] at h1
    exact absurd h1 h2

/-- In every state of a title bar, the state `DraggingFloatingWidget` comes with a recorded
floating widget. -/
theorem Reachable.floatingWidget_isSome {d : DockAreaTitleBarPrivate} (h : Reachable d) :
    d.DragState = eDragState.DraggingFloatingWidget → d.FloatingWidget.isSome = true := by
  induction h with
  | create cfg stateVisible =>
    intro hf
    rw [create_DragState] at hf
    cases hf
  | @step d0 d1 env e _ hs ih =>
    intro hf
    have hfw := handle_FloatingWidget hs
    by_cases hb : d0.DragState = eDragState.DraggingFloatingWidget
    · exact hfw.1 (ih hb)
    · exact hfw.2 hf hb

/-- C17: in every drag state (with a recorded floating widget when the state is
`DraggingFloatingWidget`, as in every state a title bar reaches), `mouseReleaseEvent` with the
left button completes and leaves the drag state `DraggingInactive` and the drag start position
the null point (0, 0); `finishDragging` is called on the floating widget, once, when the state
before was `DraggingFloatingWidget`, and not otherwise; a release of another button leaves the
title bar as it is. -/
theorem C17_mouseReleaseEvent (d : DockAreaTitleBarPrivate)
    (hfw : d.DragState = eDragState.DraggingFloatingWidget → d.FloatingWidget.isSome = true) :
    (∃ d', mouseReleaseEvent d true = some d'
      ∧ d'.DragState = eDragState.DraggingInactive
      ∧ d'.DragStartMousePos = QPoint.null
      ∧ d'.DragStartMousePos = { x := 0, y := 0 }
      ∧ d'.FloatingWidget =
          if d.DragState = eDragState.DraggingFloatingWidget then
            d.FloatingWidget.map (fun fw => { fw with finished := fw.finished + 1 })
          else d.FloatingWidget)
    ∧ mouseReleaseEvent d false = some d := by
  refine ⟨?_, rfl⟩
  unfold mouseReleaseEvent
  by_cases hf : d.DragState = eDragState.DraggingFloatingWidget
  · obtain ⟨fw, hfw'⟩ := Option.isSome_iff_exists.mp (hfw hf)
    simp only [if_true, hf, hfw']
    exact ⟨_, rfl, rfl, rfl, rfl, rfl⟩
  · have hf' : ¬ (eDragState.DraggingFloatingWidget = d.DragState) := fun h => hf h.symm
    simp only [if_true, hf, hf', if_false]
    exact ⟨_, rfl, rfl, rfl, rfl, rfl⟩

/-- C17 at the floating title bar `demoFloating`: the release of the left button ends the drag
and calls `finishDragging` once. -/
theorem C17_mouseReleaseEvent_witness :
    demoFloating.DragState = eDragState.DraggingFloatingWidget
    ∧ demoFloating.FloatingWidget.isSome = true
    ∧ (∃ d', mouseReleaseEvent demoFloating true = some d'
        ∧ d'.DragState = eDragState.DraggingInactive
        ∧ d'.DragStartMousePos = QPoint.null
        ∧ d'.DragStartMousePos = { x := 0, y := 0 }
        ∧ d'.FloatingWidget =
            if demoFloating.DragState = eDragState.DraggingFloatingWidget then
              demoFloating.FloatingWidget.map (fun fw => { fw with finished := fw.finished + 1 })
            else demoFloating.FloatingWidget)
    ∧ mouseReleaseEvent demoFloating false = some demoFloating :=
  ⟨by decide, by decide, C17_mouseReleaseEvent demoFloating (fun _ => by decide)⟩

end CDockAreaTitleBar

end ads

/-! ## Theorems about `title_bar_t` -/

namespace main_title_bar

open ads (QPoint)

namespace title_bar_t

/-- C9: `title_bar_t::mouseDoubleClickEvent` runs `MaximizeButtonClicked`, and the maximized flag
of the window after the event is the negation of the flag before it: a window that is not
maximized is maximized, a maximized window is restored to normal. -/
theorem C9_double_click_toggles_maximized (t : title_bar_t)
    (QToolBar_mouseEvent : MouseEvent → QMainWindow → QMainWindow) :
    t.mouseDoubleClickEvent = t.MaximizeButtonClicked
    ∧ t.mouseDoubleClickEvent.window_.maximized = !t.window_.maximized
    ∧ (t.mouseEvent QToolBar_mouseEvent (MouseEvent.doubleClick QPoint.null)).window_.maximized
        = !t.window_.maximized := by
  refine ⟨rfl, ?_, ?_⟩ <;>
  · simp only [mouseEvent, mouseDoubleClickEvent, MaximizeButtonClicked]
    cases h : t.window_.maximized <;> simp [QMainWindow.showMaximized, QMainWindow.showNormal]

/-- The double click on `toolBar_seat_` only maximizes: a maximized window stays maximized. -/
theorem toolBar_seat_clicked_maximized (t : title_bar_t) :
    t.toolBar_seat_clicked.window_.maximized = true := rfl

/-- No mouse event writes `mouse_left_pressing_` or `move_start_point_`, whatever the handlers of
`QToolBar` do. -/
theorem mouseEvent_fields (QToolBar_mouseEvent : MouseEvent → QMainWindow → QMainWindow)
    (t : title_bar_t) (e : MouseEvent) :
    (t.mouseEvent QToolBar_mouseEvent e).mouse_left_pressing_ = t.mouse_left_pressing_
    ∧ (t.mouseEvent QToolBar_mouseEvent e).move_start_point_ = t.move_start_point_ := by
  cases e with
  | press left pos => exact ⟨rfl, rfl⟩
  | move left pos => exact ⟨rfl, rfl⟩
  | release left pos => exact ⟨rfl, rfl⟩
  | doubleClick pos =>
    simp only [mouseEvent, mouseDoubleClickEvent, MaximizeButtonClicked]
    split_ifs <;> exact ⟨rfl, rfl⟩

/-- C10 as stated fails: the claim has the window moved by the displacement of the cursor from
the recorded press point `move_start_point_`, but a press of the left button at (5, 5) records
nothing: `move_start_point_` is still the null point, not (5, 5), and `mouse_left_pressing_` is
still false; after a move to (8, 9) with the left button held and a release there, both are as
they were. -/
theorem C10_drag_to_move_counterexample :
    (demo.mouseEvent demoToolBar (MouseEvent.press true { x := 5, y := 5 })).move_start_point_
      ≠ { x := 5, y := 5 }
    ∧ (demo.mouseEvent demoToolBar (MouseEvent.press true { x := 5, y := 5 })).move_start_point_
      = QPoint.null
    ∧ (demo.mouseEvent demoToolBar
        (MouseEvent.press true { x := 5, y := 5 })).mouse_left_pressing_ = false
    ∧ (demo.mouseEvents demoToolBar [MouseEvent.press true { x := 5, y := 5 },
          MouseEvent.move true { x := 8, y := 9 }]).move_start_point_ = QPoint.null
    ∧ (demo.mouseEvents demoToolBar [MouseEvent.press true { x := 5, y := 5 },
          MouseEvent.move true { x := 8, y := 9 },
          MouseEvent.release true { x := 8, y := 9 }]).mouse_left_pressing_ = false := by
  decide

/-- C10 as amended: `title_bar_t` has no drag-to-move of its own. Whatever the mouse handlers of
`QToolBar` do, after every sequence of mouse events on the title bar `mouse_left_pressing_` and
`move_start_point_` have the values they had before, so that a press records no press point; for
a title bar as constructed these values are `false` and the null point. -/
theorem C10_no_drag_to_move (QToolBar_mouseEvent : MouseEvent → QMainWindow → QMainWindow)
    (t : title_bar_t) (es : List MouseEvent) :
    (t.mouseEvents QToolBar_mouseEvent es).mouse_left_pressing_ = t.mouse_left_pressing_
    ∧ (t.mouseEvents QToolBar_mouseEvent es).move_start_point_ = t.move_start_point_
    ∧ (∀ w title,
        ((create w title).mouseEvents QToolBar_mouseEvent es).mouse_left_pressing_ = false
        ∧ ((create w title).mouseEvents QToolBar_mouseEvent es).move_start_point_
            = QPoint.null) := by
  have key : ∀ (es : List MouseEvent) (t : title_bar_t),
      (t.mouseEvents QToolBar_mouseEvent es).mouse_left_pressing_ = t.mouse_left_pressing_
      ∧ (t.mouseEvents QToolBar_mouseEvent es).move_start_point_ = t.move_start_point_ := by
    intro es
    induction es with
    | nil => exact fun t => ⟨rfl, rfl⟩
    | cons e es ih =>
      intro t
      have h1 := ih (t.mouseEvent QToolBar_mouseEvent e)
      have h2 := mouseEvent_fields QToolBar_mouseEvent t e
      simp only [mouseEvents]
      exact ⟨h1.1.trans h2.1, h1.2.trans h2.2⟩
  exact ⟨(key es t).1, (key es t).2, fun w title => key es (create w title)⟩

end title_bar_t

end main_title_bar

/-! ## Theorems about `CDockAreaWidget::reorderDockWidget` -/

namespace ads

namespace CDockAreaLayout

variable {W : Type} [DecidableEq W]

/-- After `removeWidget(Widget)` the current widget is not `Widget`. -/
theorem removeWidget_m_CurrentWidget_ne (s : CDockAreaLayout W) (Widget : W) :
    (s.removeWidget Widget).m_CurrentWidget ≠ some Widget := by
  unfold CDockAreaLayout.removeWidget
  dsimp only
  by_cases hc : s.currentWidget = some Widget
  · simp only [hc, if_true]
    intro h
    cases h
  · simp only [hc, if_false]
    split_ifs <;> exact hc

/-- Taking a widget out and putting it back at `index`: the call completes, the widget list is
the former one with the widget moved, and if the widget is the current one afterwards, the
current index is `index`. -/
theorem insertWidget_removeWidget (s : CDockAreaLayout W) (Widget : W) (index : Int)
    (h0 : 0 ≤ index) (h1 : index ≤ (s.m_Widgets.erase Widget).length) :
    ∃ l, (s.removeWidget Widget).insertWidget index Widget = some l
      ∧ l.m_Widgets = (s.m_Widgets.erase Widget).insertIdx index.toNat Widget
      ∧ (l.m_CurrentWidget = some Widget → l.m_CurrentIndex = index) := by
  have hw := s.removeWidget_m_Widgets Widget
  have hne := s.removeWidget_m_CurrentWidget_ne Widget
  generalize s.removeWidget Widget = s1 at hw hne
  rw [← hw] at h1 ⊢
  unfold CDockAreaLayout.insertWidget
  dsimp only
  have e1 : (s1.setParentNull Widget).m_Widgets = s1.m_Widgets := rfl
  have e2 : (s1.setParentNull Widget).m_CurrentIndex = s1.m_CurrentIndex := rfl
  rw [e1, e2]
  have hn : index.toNat ≤ s1.m_Widgets.length := by omega
  simp only [not_lt.mpr h0, not_lt.mpr h1, gt_iff_lt, if_false]
  split_ifs with hneg hle
  · have hwid : CDockAreaLayout.widget
        { s1.setParentNull Widget with
          m_Widgets := s1.m_Widgets.insertIdx index.toNat Widget } index
          = some (some Widget) := by
      rw [widget_eq_some_iff]
      refine ⟨h0, ?_, getElem?_insertIdx_self Widget _ _ hn⟩
      unfold count
      simp only [List.length_insertIdx _ _ hn]
      omega
    obtain ⟨l, hl, hl1, _, hl3⟩ := setCurrentIndex_of_widget _ index Widget hwid
    exact ⟨l, hl, hl3, fun _ => hl1⟩
  · exact ⟨_, rfl, rfl, fun h => absurd h hne⟩
  · exact ⟨_, rfl, rfl, fun h => absurd h hne⟩

end CDockAreaLayout

namespace CDockAreaWidget

variable {W : Type} [DecidableEq W]

/-- On a dock area with as many tabs as widgets, `setCurrentIndex` with the index of a widget `w`
completes and makes `w` the current widget, provided the current index is that index whenever
`w` is the current widget already. -/
theorem setCurrentIndex_of_dockWidget (a : CDockAreaWidget W)
    (hn : a.tabCount = a.dockWidgetsCount) (index : Int) (w : W)
    (hw : a.ContentsLayout.widget index = some (some w))
    (hcur : a.ContentsLayout.m_CurrentWidget = some w → a.ContentsLayout.m_CurrentIndex = index) :
    ∃ a', a.setCurrentIndex index = some a'
      ∧ a'.ContentsLayout.m_CurrentIndex = index
      ∧ a'.ContentsLayout.m_CurrentWidget = some w
      ∧ a'.ContentsLayout.m_Widgets = a.ContentsLayout.m_Widgets
      ∧ a'.tabCount = a.tabCount := by
  obtain ⟨h0, h1, _⟩ := (CDockAreaLayout.widget_eq_some_iff _ _ _).mp hw
  have hcond : ¬ (index < 0 ∨ index > a.tabCount - 1) := by
    rw [hn]
    unfold dockWidgetsCount
    omega
  have hcurrent : ∀ a' : CDockAreaWidget W,
      a'.ContentsLayout.m_Widgets = a.ContentsLayout.m_Widgets →
      a'.ContentsLayout.m_CurrentIndex = index →
      a'.currentDockWidget = some (some w) := by
    intro a' hW hI
    unfold currentDockWidget currentIndex CDockAreaLayout.currentIndex dockWidget
    rw [hI]
    simp only [not_lt.mpr h0, if_false]
    rw [CDockAreaLayout.widget_eq_some_iff] at hw ⊢
    unfold CDockAreaLayout.count at hw ⊢
    rw [hW]
    exact hw
  have hset : ∃ a' : CDockAreaWidget W,
      (match a.ContentsLayout.setCurrentIndex index with
        | none => none
        | some l =>
          match l.currentWidget with
          | none => none
          | some c =>
            match ({ a with tabCurrentIndex := index, ContentsLayout := l.showWidget c }
                : CDockAreaWidget W).currentDockWidget with
            | some (some _) =>
              some { a with tabCurrentIndex := index, ContentsLayout := l.showWidget c }
            | _ => none) = some a'
      ∧ a'.ContentsLayout.m_CurrentIndex = index
      ∧ a'.ContentsLayout.m_CurrentWidget = some w
      ∧ a'.ContentsLayout.m_Widgets = a.ContentsLayout.m_Widgets
      ∧ a'.tabCount = a.tabCount := by
    obtain ⟨l, hl, hl1, hl2, hl3⟩ := a.ContentsLayout.setCurrentIndex_of_widget index w hw
    simp only [hl, CDockAreaLayout.currentWidget, hl2]
    have hcd := hcurrent { a with tabCurrentIndex := index, ContentsLayout := l.showWidget w }
      hl3 hl1
    simp only [hcd]
    exact ⟨_, rfl, hl1, hl2, hl3, rfl⟩
  unfold setCurrentIndex
  simp only [hcond, if_false, hw]
  by_cases hcw : a.ContentsLayout.currentWidget = some w
  · cases hh : a.ContentsLayout.isHidden w with
    | false =>
      simp only [hcw, if_true, hh, Bool.not_false]
      exact ⟨a, rfl, hcur hcw, hcw, rfl, rfl⟩
    | true =>
      simp only [hcw, if_true, hh, Bool.not_true]
      exact hset
  · have hne : ¬ (a.ContentsLayout.currentWidget = some w) := hcw
    simp only [hne, if_false]
    exact hset

/-- C21: in a dock area with `n` pairwise distinct dock widgets and `n` tabs,
`reorderDockWidget(fromIndex, toIndex)` with `fromIndex != toIndex`, both in `[0, n)`, completes;
afterwards the dock widget that was at `fromIndex` is at `toIndex`, the widget list is the former
one with that widget taken out and put in at `toIndex`, so that without the moved widget it is the
former list without it (the other widgets keep their order), there are still `n` dock widgets and
`n` tabs, `currentIndex()` is `toIndex` and the moved widget is the current dock widget. With
`fromIndex == toIndex` or an index outside `[0, n)` the call leaves the dock area as it is. -/
theorem C21_reorderDockWidget_moves_widget (a : CDockAreaWidget W)
    (hnd : a.ContentsLayout.m_Widgets.Nodup) (hn : a.tabCount = a.dockWidgetsCount)
    (fromIndex toIndex : Int) :
    ((0 ≤ fromIndex ∧ fromIndex < a.dockWidgetsCount ∧ 0 ≤ toIndex
        ∧ toIndex < a.dockWidgetsCount ∧ fromIndex ≠ toIndex) →
      ∃ a' w, a.reorderDockWidget fromIndex toIndex = some a'
        ∧ a.dockWidget fromIndex = some (some w)
        ∧ a'.dockWidget toIndex = some (some w)
        ∧ a'.ContentsLayout.m_Widgets
            = (a.ContentsLayout.m_Widgets.erase w).insertIdx toIndex.toNat w
        ∧ a'.ContentsLayout.m_Widgets.erase w = a.ContentsLayout.m_Widgets.erase w
        ∧ a'.dockWidgetsCount = a.dockWidgetsCount
        ∧ a'.tabCount = a.tabCount
        ∧ a'.currentIndex = toIndex
        ∧ a'.currentDockWidget = some (some w))
    ∧ (¬ (0 ≤ fromIndex ∧ fromIndex < a.dockWidgetsCount ∧ 0 ≤ toIndex
        ∧ toIndex < a.dockWidgetsCount ∧ fromIndex ≠ toIndex) →
      a.reorderDockWidget fromIndex toIndex = some a) := by
  constructor
  · rintro ⟨hf0, hf1, ht0, ht1, hne⟩
    unfold dockWidgetsCount at hf1 ht1
    obtain ⟨w, hwl, hw⟩ := a.ContentsLayout.widget_of_range fromIndex hf0 hf1
    have hmem : w ∈ a.ContentsLayout.m_Widgets := List.getElem?_mem hwl
    have hlen : (a.ContentsLayout.m_Widgets.erase w).length + 1
        = a.ContentsLayout.m_Widgets.length := by
      rw [List.length_erase_of_mem hmem]
      have := List.length_pos_of_mem hmem
      omega
    unfold CDockAreaLayout.count at hf1 ht1
    have hle : toIndex.toNat ≤ (a.ContentsLayout.m_Widgets.erase w).length := by omega
    obtain ⟨l, hl, hlw, hlc⟩ := a.ContentsLayout.insertWidget_removeWidget w toIndex ht0
      (by omega)
    have hcount : l.count = a.ContentsLayout.count := by
      unfold CDockAreaLayout.count
      rw [hlw, List.length_insertIdx _ _ hle]
      omega
    have hlwid : l.widget toIndex = some (some w) := by
      rw [CDockAreaLayout.widget_eq_some_iff]
      refine ⟨ht0, ?_, ?_⟩
      · rw [hcount]
        exact ht1
      · rw [hlw]
        exact CDockAreaLayout.getElem?_insertIdx_self w _ _ hle
    obtain ⟨a', ha', h1, h2, h3, h4⟩ :=
      setCurrentIndex_of_dockWidget { a with ContentsLayout := l }
        (show a.tabCount = l.count from hn.trans hcount.symm) toIndex w hlwid hlc
    have h3' : a'.ContentsLayout.m_Widgets
        = (a.ContentsLayout.m_Widgets.erase w).insertIdx toIndex.toNat w := h3.trans hlw
    have hcount' : a'.ContentsLayout.count = a.ContentsLayout.count := by
      unfold CDockAreaLayout.count
      rw [h3', List.length_insertIdx _ _ hle]
      omega
    have hwid' : a'.ContentsLayout.widget toIndex = some (some w) := by
      rw [CDockAreaLayout.widget_eq_some_iff]
      refine ⟨ht0, ?_, ?_⟩
      · rw [hcount']
        exact ht1
      · rw [h3']
        exact CDockAreaLayout.getElem?_insertIdx_self w _ _ hle
    refine ⟨a', w, ?_, hw, hwid', h3', ?_, hcount', h4, h1, ?_⟩
    · unfold reorderDockWidget
      have hguard : ¬ (fromIndex ≥ a.ContentsLayout.count ∨ fromIndex < 0
          ∨ toIndex ≥ a.ContentsLayout.count ∨ toIndex < 0 ∨ fromIndex = toIndex) := by
        unfold CDockAreaLayout.count
        omega
      simp only [hguard, if_false, hw, hl]
      exact ha'
    · rw [h3']
      exact CDockAreaLayout.erase_insertIdx_of_not_mem w _ _ hle
        (fun h => (List.Nodup.mem_erase_iff hnd).mp h |>.1 rfl)
    · unfold currentDockWidget currentIndex CDockAreaLayout.currentIndex dockWidget
      rw [h1]
      simp only [not_lt.mpr ht0, if_false]
      exact hwid'
  · intro h
    unfold reorderDockWidget
    have hguard : fromIndex ≥ a.ContentsLayout.count ∨ fromIndex < 0
        ∨ toIndex ≥ a.ContentsLayout.count ∨ toIndex < 0 ∨ fromIndex = toIndex := by
      unfold dockWidgetsCount at h
      omega
    simp only [hguard, if_true]

/-- C21 at the dock area with the dock widgets 7 and 8 and current index 1:
`reorderDockWidget(0, 1)` moves widget 7 behind widget 8, which gives the list 8, 7, and makes
it the current one;
`reorderDockWidget(1, 1)` and `reorderDockWidget(0, 2)` change nothing. -/
theorem C21_reorderDockWidget_moves_widget_witness :
    demoArea.ContentsLayout.m_Widgets.Nodup
    ∧ demoArea.tabCount = demoArea.dockWidgetsCount
    ∧ (∃ a' w, demoArea.reorderDockWidget 0 1 = some a'
        ∧ demoArea.dockWidget 0 = some (some w)
        ∧ a'.dockWidget 1 = some (some w)
        ∧ a'.ContentsLayout.m_Widgets
            = (demoArea.ContentsLayout.m_Widgets.erase w).insertIdx (1 : Int).toNat w
        ∧ a'.ContentsLayout.m_Widgets.erase w = demoArea.ContentsLayout.m_Widgets.erase w
        ∧ a'.dockWidgetsCount = demoArea.dockWidgetsCount
        ∧ a'.tabCount = demoArea.tabCount
        ∧ a'.currentIndex = 1
        ∧ a'.currentDockWidget = some (some w))
    ∧ (demoArea.reorderDockWidget 0 1).map (fun a' => a'.ContentsLayout.m_Widgets)
        = some [8, 7]
    ∧ demoArea.reorderDockWidget 1 1 = some demoArea
    ∧ demoArea.reorderDockWidget 0 2 = some demoArea :=
  ⟨by decide, by decide,
    (C21_reorderDockWidget_moves_widget demoArea (by decide) (by decide) 0 1).1 (by decide),
    by decide,
    (C21_reorderDockWidget_moves_widget demoArea (by decide) (by decide) 1 1).2 (by decide),
    (C21_reorderDockWidget_moves_widget demoArea (by decide) (by decide) 0 2).2 (by decide)⟩

end CDockAreaWidget

end ads
